import Mathlib

/-! Verification of the apiformes MQTT v5 broker against its specification.

This file shallowly embeds the Rust sources of the repository:
wire-codec primitives (`packet/src/data.rs`, `apiformes/src/data.rs`),
the property table (`packet/src/props.rs`), the control packets
(`packet/src/*.rs`, `apiformes/src/packets/*.rs`), the subscription
index (`server-lib/src/topics.rs`) and the dispatcher
(`server-lib/src/dispatcher.rs`).

Bytes are modelled as `Nat` values; every serializer only emits values
below 256 and deserializers quantify over byte-valued buffers where it
matters.  Machine-integer wrap-around is made explicit with `% 2 ^ 32`
at the one place the Rust code can wrap (the variable-byte-int decoder).
MQTT strings are modelled as lists of Unicode code points (`Nat`).
Fallible Rust functions returning `Result<T, DataParseError>` become
`Except DataParseError` values; `&mut impl Buf` cursors become explicit
`List Nat` buffers threaded through return values. -/

/-- Decode / construction errors, mirroring `DataParseError` in
`packet/src/error.rs` (the `apiformes` copy is identical). -/
inductive DataParseError where
  | insufficientBuffer (needed available : Nat)
  | badAuthMessage
  | badMqttUtf8String
  | badMqttVariableBytesInt
  | badMqttBinaryData
  | badPacketType
  | badProperty
  | badReasonCode
  | badConnectMessage
  | badDisconnectMessage
  | badPubAckMessage
  | badPubCompMessage
  | badPublishMessage
  | badPubRecMessage
  | badPubRelMessage
  | unsupportedMqttVersion
  | badQoS
  | badTopic
  | badRetainHandle
  | badSubscribeMessage
  | badSubAckMessage
  | badUnsubscribeMessage
  | badUnsubAckMessage
  | badPing
  | badConnAckMessage
deriving DecidableEq, Repr

instance {e a : Type} [DecidableEq e] [DecidableEq a] : DecidableEq (Except e a) :=
  fun x y =>
    match x, y with
    | .error e1, .error e2 =>
      if h : e1 = e2 then isTrue (by rw [h]) else isFalse (by intro hx; cases hx; exact h rfl)
    | .ok v1, .ok v2 =>
      if h : v1 = v2 then isTrue (by rw [h]) else isFalse (by intro hx; cases hx; exact h rfl)
    | .error _, .ok _ => isFalse (by intro hx; cases hx)
    | .ok _, .error _ => isFalse (by intro hx; cases hx)

/-- `MqttOneBytesInt::serialize` (`put_u8`): one byte, truncated to 8 bits. -/
def oneByteSerialize (i : Nat) : List Nat := [i % 256]

/-- `MqttOneBytesInt` deserialization through the blanket
`MqttDeserialize` impl in `packet/src/parsable.rs`: a bound check against
`fixed_size() = 1` and then `get_u8`. -/
def oneByteDeserialize (buf : List Nat) : Except DataParseError (Nat × List Nat) :=
  match buf with
  | [] => .error (.insufficientBuffer 1 0)
  | b :: rest => .ok (b, rest)

/-- `MqttTwoBytesInt::serialize` (`put_u16`): big endian, the value is a
`u16` so it is reduced mod 2^16 first (the cast is implicit in Rust's type). -/
def twoByteSerialize (i : Nat) : List Nat := [i / 256 % 256, i % 256]

/-- `MqttTwoBytesInt` deserialization: bound check against 2, then `get_u16`. -/
def twoByteDeserialize (buf : List Nat) : Except DataParseError (Nat × List Nat) :=
  match buf with
  | b0 :: b1 :: rest => .ok (b0 * 256 + b1, rest)
  | _ => .error (.insufficientBuffer 2 buf.length)

/-- `MqttFourBytesInt::serialize` (`put_u32`): big endian. -/
def fourByteSerialize (i : Nat) : List Nat :=
  [i / 16777216 % 256, i / 65536 % 256, i / 256 % 256, i % 256]

/-- `MqttFourBytesInt` deserialization: bound check against 4, then `get_u32`. -/
def fourByteDeserialize (buf : List Nat) : Except DataParseError (Nat × List Nat) :=
  match buf with
  | b0 :: b1 :: b2 :: b3 :: rest => .ok (b0 * 16777216 + b1 * 65536 + b2 * 256 + b3, rest)
  | _ => .error (.insufficientBuffer 4 buf.length)

/-- The serialization loop of `MqttVariableBytesInt::serialize`
(`packet/src/data.rs` lines 216-231): emit the low 7 bits
(`x & 0x7f = x % 128`), shift right by 7 (`x >> 7 = x / 128`), set the
continuation bit `0x80` if more remains. -/
def vbiSerialize (x : Nat) : List Nat :=
  let encoded := x % 128
  let x2 := x / 128
  if h : x2 > 0 then (encoded + 128) :: vbiSerialize x2 else [encoded]
termination_by x
decreasing_by exact Nat.div_lt_self (by omega) (by omega)

/-- The decode loop of `MqttVariableBytesInt::deserialize`
(`packet/src/data.rs` lines 233-258).  Each iteration adds
`(byte & 127) << multiplier` in wrapping `u32` arithmetic (hence the
explicit `% 2 ^ 32`; in the non-error path the value never reaches
2^32 so the reduction is inert), then rejects a fifth byte
(`multiplier > 21`), then stops when the continuation bit is clear
(`byte & 0x80 == 0`, i.e. `b % 256 < 128`). -/
def vbiDeserializeLoop (buf : List Nat) (multiplier value : Nat) :
    Except DataParseError (Nat × List Nat) :=
  match buf with
  | [] => .error (.insufficientBuffer 1 0)
  | b :: rest =>
    let value2 := (value + b % 128 * 2 ^ multiplier) % 2 ^ 32
    if multiplier > 21 then .error .badMqttVariableBytesInt
    else if b % 256 < 128 then .ok (value2, rest)
    else vbiDeserializeLoop rest (multiplier + 7) value2

/-- `MqttVariableBytesInt::deserialize`: run the loop with
`multiplier = 0`, `value = 0`. -/
def vbiDeserialize (buf : List Nat) : Except DataParseError (Nat × List Nat) :=
  vbiDeserializeLoop buf 0 0

/-- `MqttVariableBytesInt::size` (`packet/src/data.rs` lines 260-275). -/
def vbiSize (i : Nat) : Nat :=
  if i < 0x80 then 1 else if i < 0x4000 then 2 else if i < 0x200000 then 3 else 4

/-- `MqttVariableBytesInt::verify`: constructible values are `≤ 0xfffffff`. -/
def vbiValid (i : Nat) : Prop := i ≤ 0xfffffff

instance (i : Nat) : Decidable (vbiValid i) := by unfold vbiValid; infer_instance

/-- One unfolding of `vbiSerialize` when the shifted value is zero. -/
theorem vbiSerialize_small (x : Nat) (h : x < 128) : vbiSerialize x = [x] := by
  rw [vbiSerialize]
  simp [Nat.div_eq_of_lt h, Nat.mod_eq_of_lt h]

/-- One unfolding of `vbiSerialize` when the shifted value is nonzero. -/
theorem vbiSerialize_step (x : Nat) (h : 128 ≤ x) :
    vbiSerialize x = (x % 128 + 128) :: vbiSerialize (x / 128) := by
  rw [vbiSerialize]
  have : x / 128 > 0 := Nat.div_pos h (by omega)
  simp [this]

/-- Unfolding lemma for `vbiDeserializeLoop` on a non-empty buffer. -/
theorem vbiDeserializeLoop_cons (b : Nat) (rest : List Nat) (mult value : Nat) :
    vbiDeserializeLoop (b :: rest) mult value =
      (if mult > 21 then .error .badMqttVariableBytesInt
       else if b % 256 < 128 then .ok ((value + b % 128 * 2 ^ mult) % 2 ^ 32, rest)
       else vbiDeserializeLoop rest (mult + 7) ((value + b % 128 * 2 ^ mult) % 2 ^ 32)) := by
  rw [vbiDeserializeLoop]

/-- `vbiSerialize` produces the expected explicit byte lists in each of the
four length bands of a valid variable byte int. -/
theorem vbiSerialize_explicit (i : Nat) (h : vbiValid i) :
    vbiSerialize i =
      if i < 0x80 then [i]
      else if i < 0x4000 then [i % 128 + 128, i / 128]
      else if i < 0x200000 then [i % 128 + 128, i / 128 % 128 + 128, i / 128 / 128]
      else [i % 128 + 128, i / 128 % 128 + 128, i / 128 / 128 % 128 + 128,
            i / 128 / 128 / 128] := by
  unfold vbiValid at h
  rcases Nat.lt_or_ge i 0x80 with h1 | h1
  · rw [vbiSerialize_small i h1, if_pos h1]
  rcases Nat.lt_or_ge i 0x4000 with h2 | h2
  · rw [vbiSerialize_step i h1, vbiSerialize_small _ (by omega)]
    rw [if_neg (by omega), if_pos h2]
  rcases Nat.lt_or_ge i 0x200000 with h3 | h3
  · rw [vbiSerialize_step i h1, vbiSerialize_step _ (by omega),
        vbiSerialize_small _ (by omega)]
    rw [if_neg (by omega), if_neg (by omega), if_pos h3]
  · rw [vbiSerialize_step i h1, vbiSerialize_step _ (by omega),
        vbiSerialize_step _ (by omega), vbiSerialize_small _ (by omega)]
    rw [if_neg (by omega), if_neg (by omega), if_neg (by omega)]

/-- The number of bytes written for a valid variable byte int equals
`MqttVariableBytesInt::size`. -/
theorem vbiSerialize_length (i : Nat) (h : vbiValid i) :
    (vbiSerialize i).length = vbiSize i := by
  rw [vbiSerialize_explicit i h]
  unfold vbiSize
  split
  · rfl
  split
  · rfl
  split
  · rfl
  · rfl

/-- Round trip of the variable byte int codec on valid values, for any
trailing buffer content. -/
theorem vbiRoundtrip (i : Nat) (h : vbiValid i) (rest : List Nat) :
    vbiDeserialize (vbiSerialize i ++ rest) = .ok (i, rest) := by
  have hv := h
  unfold vbiValid at hv
  rw [vbiSerialize_explicit i h]
  unfold vbiDeserialize
  rcases Nat.lt_or_ge i 0x80 with h1 | h1
  · rw [if_pos h1]
    simp only [List.cons_append, List.nil_append, vbiDeserializeLoop_cons]
    split_ifs <;>
      first
        | (exfalso; omega)
        | (simp only [Except.ok.injEq, Prod.mk.injEq]; exact ⟨by omega, trivial⟩)
  rcases Nat.lt_or_ge i 0x4000 with h2 | h2
  · rw [if_neg (by omega), if_pos h2]
    simp only [List.cons_append, List.nil_append, vbiDeserializeLoop_cons]
    split_ifs <;>
      first
        | (exfalso; omega)
        | (simp only [Except.ok.injEq, Prod.mk.injEq]; exact ⟨by omega, trivial⟩)
  rcases Nat.lt_or_ge i 0x200000 with h3 | h3
  · rw [if_neg (by omega), if_neg (by omega), if_pos h3]
    simp only [List.cons_append, List.nil_append, vbiDeserializeLoop_cons]
    split_ifs <;>
      first
        | (exfalso; omega)
        | (simp only [Except.ok.injEq, Prod.mk.injEq]; exact ⟨by omega, trivial⟩)
  · rw [if_neg (by omega), if_neg (by omega), if_neg (by omega)]
    simp only [List.cons_append, List.nil_append, vbiDeserializeLoop_cons]
    split_ifs <;>
      first
        | (exfalso; omega)
        | (simp only [Except.ok.injEq, Prod.mk.injEq]; exact ⟨by omega, trivial⟩)

/-- If the whole (short) buffer consists of continuation bytes the decode
loop runs off the end and reports `InsufficientBuffer { needed: 1, available: 0 }`. -/
theorem vbiDeserializeLoop_underrun (buf : List Nat) (mult value : Nat)
    (hc : ∀ b ∈ buf, ¬ b % 256 < 128) (hlen : mult + 7 * buf.length ≤ 28) :
    vbiDeserializeLoop buf mult value = .error (.insufficientBuffer 1 0) := by
  induction buf generalizing mult value with
  | nil => rfl
  | cons b rest ih =>
    rw [vbiDeserializeLoop_cons]
    simp only [List.length_cons] at hlen
    rw [if_neg (by omega), if_neg (hc b (by simp))]
    exact ih (mult + 7) ((value + b % 128 * 2 ^ mult) % 2 ^ 32)
      (fun x hx => hc x (by simp [hx])) (by omega)

/-- Buffer exhaustion at the top level: a short all-continuation buffer
yields `InsufficientBuffer { needed: 1, available: 0 }`. -/
theorem vbiDeserialize_underrun (buf : List Nat) (hc : ∀ b ∈ buf, ¬ b % 256 < 128)
    (hlen : buf.length ≤ 4) : vbiDeserialize buf = .error (.insufficientBuffer 1 0) :=
  vbiDeserializeLoop_underrun buf 0 0 hc (by omega)

/-- When the first four bytes all carry the continuation bit and a fifth
byte is present, the decoder reports `BadMqttVariableBytesInt`. -/
theorem vbiDeserialize_fifthByte (b0 b1 b2 b3 b4 : Nat) (rest : List Nat)
    (h0 : ¬ b0 % 256 < 128) (h1 : ¬ b1 % 256 < 128)
    (h2 : ¬ b2 % 256 < 128) (h3 : ¬ b3 % 256 < 128) :
    vbiDeserialize (b0 :: b1 :: b2 :: b3 :: b4 :: rest) =
      .error .badMqttVariableBytesInt := by
  unfold vbiDeserialize
  simp only [vbiDeserializeLoop_cons]
  split_ifs <;> first | (exfalso; omega) | rfl

/-- Claim C4: the variable-byte-int codec serializes `i` in exactly 1 byte
when `i < 0x80`, 2 bytes when `i < 0x4000`, 3 bytes when `i < 0x200000` and
4 bytes otherwise up to the maximum `0x0FFFFFFF` (agreeing with
`MqttVariableBytesInt::size`); deserialization returns
`BadMqttVariableBytesInt` whenever a fifth byte is consumed (the first four
bytes all have the continuation MSB set); and deserializing a buffer that
runs out of bytes mid-value returns `InsufficientBuffer` with `needed = 1`
and `available = 0`. -/
theorem C4_variable_byte_int_codec :
    (∀ i : Nat, i ≤ 0xfffffff →
      (vbiSerialize i).length =
        (if i < 0x80 then 1 else if i < 0x4000 then 2 else if i < 0x200000 then 3 else 4) ∧
      (vbiSerialize i).length = vbiSize i)
    ∧ (∀ (b0 b1 b2 b3 b4 : Nat) (rest : List Nat),
        128 ≤ b0 % 256 → 128 ≤ b1 % 256 → 128 ≤ b2 % 256 → 128 ≤ b3 % 256 →
        vbiDeserialize (b0 :: b1 :: b2 :: b3 :: b4 :: rest) =
          .error .badMqttVariableBytesInt)
    ∧ (∀ buf : List Nat, (∀ b ∈ buf, 128 ≤ b % 256) → buf.length ≤ 4 →
        vbiDeserialize buf = .error (.insufficientBuffer 1 0)) := by
  refine ⟨fun i hi => ⟨?_, vbiSerialize_length i hi⟩, ?_, ?_⟩
  · rw [vbiSerialize_length i hi]
    rfl
  · intro b0 b1 b2 b3 b4 rest h0 h1 h2 h3
    exact vbiDeserialize_fifthByte b0 b1 b2 b3 b4 rest
      (by omega) (by omega) (by omega) (by omega)
  · intro buf hc hlen
    exact vbiDeserialize_underrun buf (fun b hb => by have := hc b hb; omega) hlen

/-- Witness for C4 at concrete inputs: `0x4000` serializes to 3 bytes,
four continuation bytes followed by a fifth byte are rejected, and a
truncated two-byte prefix reports buffer underrun. -/
theorem C4_variable_byte_int_codec_witness :
    (vbiSerialize 0x4000).length = vbiSize 0x4000 ∧
    vbiDeserialize [0xff, 0xff, 0xff, 0xff, 0x01] = .error .badMqttVariableBytesInt ∧
    vbiDeserialize [0x80, 0x80] = .error (.insufficientBuffer 1 0) :=
  ⟨(C4_variable_byte_int_codec.1 0x4000 (by decide)).2,
   C4_variable_byte_int_codec.2.1 0xff 0xff 0xff 0xff 0x01 []
     (by decide) (by decide) (by decide) (by decide),
   C4_variable_byte_int_codec.2.2 [0x80, 0x80] (by decide) (by decide)⟩

/-- Unicode scalar values: the values a Rust `char` can hold. -/
def isScalar (c : Nat) : Prop := c < 0xD800 ∨ (0xE000 ≤ c ∧ c < 0x110000)

instance (c : Nat) : Decidable (isScalar c) := by unfold isScalar; infer_instance

/-- UTF-8 encoding of one Unicode scalar value (the byte representation
Rust `str` data has; `MqttUtf8String` stores a `str`). -/
def utf8EncodeChar (c : Nat) : List Nat :=
  if c < 0x80 then [c]
  else if c < 0x800 then [0xC0 + c / 64, 0x80 + c % 64]
  else if c < 0x10000 then [0xE0 + c / 4096, 0x80 + c / 64 % 64, 0x80 + c % 64]
  else [0xF0 + c / 262144, 0x80 + c / 4096 % 64, 0x80 + c / 64 % 64, 0x80 + c % 64]

/-- UTF-8 encoding of a string (list of scalar values). -/
def utf8Encode : List Nat → List Nat
  | [] => []
  | c :: cs => utf8EncodeChar c ++ utf8Encode cs

/-- One step of strict UTF-8 decoding, as `std::str::from_utf8` validates
it: given the lead byte and the following bytes, return the decoded scalar
value and how many continuation bytes it consumed, or `none` for invalid
input (stray continuation bytes, overlong `0xC0`/`0xC1` leads and overlong
ranges, surrogates, values above `0x10FFFF`, truncated sequences). -/
def utf8DecodeChar (b : Nat) (rest : List Nat) : Option (Nat × Nat) :=
  if b < 0x80 then some (b, 0)
  else if b < 0xC2 then none
  else if b < 0xE0 then
    match rest with
    | b1 :: _ =>
      if 0x80 ≤ b1 ∧ b1 < 0xC0 then some ((b - 0xC0) * 64 + (b1 - 0x80), 1) else none
    | [] => none
  else if b < 0xF0 then
    match rest with
    | b1 :: b2 :: _ =>
      if 0x80 ≤ b1 ∧ b1 < 0xC0 ∧ 0x80 ≤ b2 ∧ b2 < 0xC0 then
        if (b - 0xE0) * 4096 + (b1 - 0x80) * 64 + (b2 - 0x80) < 0x800 ∨
            (0xD800 ≤ (b - 0xE0) * 4096 + (b1 - 0x80) * 64 + (b2 - 0x80) ∧
              (b - 0xE0) * 4096 + (b1 - 0x80) * 64 + (b2 - 0x80) < 0xE000) then none
        else some ((b - 0xE0) * 4096 + (b1 - 0x80) * 64 + (b2 - 0x80), 2)
      else none
    | _ => none
  else if b < 0xF5 then
    match rest with
    | b1 :: b2 :: b3 :: _ =>
      if 0x80 ≤ b1 ∧ b1 < 0xC0 ∧ 0x80 ≤ b2 ∧ b2 < 0xC0 ∧ 0x80 ≤ b3 ∧ b3 < 0xC0 then
        if (b - 0xF0) * 262144 + (b1 - 0x80) * 4096 + (b2 - 0x80) * 64 + (b3 - 0x80) <
              0x10000 ∨
            0x110000 ≤
              (b - 0xF0) * 262144 + (b1 - 0x80) * 4096 + (b2 - 0x80) * 64 + (b3 - 0x80)
        then none
        else some ((b - 0xF0) * 262144 + (b1 - 0x80) * 4096 + (b2 - 0x80) * 64 +
          (b3 - 0x80), 3)
      else none
    | _ => none
  else none

/-- Strict UTF-8 decoding of a whole byte buffer (`std::str::from_utf8`):
decode one scalar value at a time, dropping the consumed continuation
bytes. -/
def utf8Decode : List Nat → Option (List Nat)
  | [] => some []
  | b :: rest =>
    match utf8DecodeChar b rest with
    | some (c, extra) => (utf8Decode (rest.drop extra)).map (c :: ·)
    | none => none
termination_by buf => buf.length
decreasing_by simp [List.length_drop]; omega

/-- Decoding an encoded scalar value consumes exactly its bytes and yields
the value back, in front of whatever the remaining buffer decodes to. -/
theorem utf8Decode_encodeChar (c : Nat) (hc : isScalar c) (rest : List Nat) :
    utf8Decode (utf8EncodeChar c ++ rest) = (utf8Decode rest).map (c :: ·) := by
  unfold isScalar at hc
  unfold utf8EncodeChar
  rcases Nat.lt_or_ge c 0x80 with h1 | h1
  · rw [if_pos h1]
    simp only [List.cons_append, List.nil_append]
    rw [utf8Decode]
    have hstep : utf8DecodeChar c rest = some (c, 0) := by
      unfold utf8DecodeChar
      rw [if_pos h1]
    rw [hstep]
    rfl
  rcases Nat.lt_or_ge c 0x800 with h2 | h2
  · rw [if_neg (by omega), if_pos h2]
    simp only [List.cons_append, List.nil_append]
    rw [utf8Decode]
    have hstep : utf8DecodeChar (0xC0 + c / 64) ((0x80 + c % 64) :: rest) =
        some (c, 1) := by
      unfold utf8DecodeChar
      split_ifs <;>
        first
          | (exfalso; omega)
          | (simp; omega)
    rw [hstep]
    rfl
  rcases Nat.lt_or_ge c 0x10000 with h3 | h3
  · rw [if_neg (by omega), if_neg (by omega), if_pos h3]
    simp only [List.cons_append, List.nil_append]
    rw [utf8Decode]
    have hstep : utf8DecodeChar (0xE0 + c / 4096)
        ((0x80 + c / 64 % 64) :: (0x80 + c % 64) :: rest) = some (c, 2) := by
      unfold utf8DecodeChar
      split_ifs <;>
        first
          | (exfalso; omega)
          | (simp; omega)
    rw [hstep]
    rfl
  · rw [if_neg (by omega), if_neg (by omega), if_neg (by omega)]
    simp only [List.cons_append, List.nil_append]
    rw [utf8Decode]
    have hstep : utf8DecodeChar (0xF0 + c / 262144)
        ((0x80 + c / 4096 % 64) :: (0x80 + c / 64 % 64) :: (0x80 + c % 64) :: rest) =
        some (c, 3) := by
      unfold utf8DecodeChar
      split_ifs <;>
        first
          | (exfalso; omega)
          | (simp; omega)
    rw [hstep]
    rfl

/-- The empty buffer decodes to the empty string. -/
theorem utf8Decode_nil : utf8Decode [] = some [] := by
  rw [utf8Decode]

/-- Decoding an encoded string yields the string back, before any suffix. -/
theorem utf8Decode_encode_append (s : List Nat) (hs : ∀ c ∈ s, isScalar c)
    (rest : List Nat) :
    utf8Decode (utf8Encode s ++ rest) = (utf8Decode rest).map (s ++ ·) := by
  induction s with
  | nil =>
    simp only [utf8Encode, List.nil_append]
    cases utf8Decode rest <;> rfl
  | cons c cs ih =>
    simp only [utf8Encode, List.append_assoc]
    rw [utf8Decode_encodeChar c (hs c (by simp)) _]
    rw [ih (fun x hx => hs x (by simp [hx]))]
    cases utf8Decode rest <;> rfl

/-- Decoding an encoded string yields exactly the string. -/
theorem utf8Decode_encode (s : List Nat) (hs : ∀ c ∈ s, isScalar c) :
    utf8Decode (utf8Encode s) = some s := by
  have h := utf8Decode_encode_append s hs []
  rw [List.append_nil] at h
  rw [h, utf8Decode_nil]
  simp

/-- `str::len`: the UTF-8 byte length of a string value. -/
def byteLen (s : List Nat) : Nat := (utf8Encode s).length

/-- `char::is_control` (Unicode category Cc): `U+0000..=U+001F` and
`U+007F..=U+009F`; the separate `c == '\u{0000}'` test in the source is
subsumed. -/
def isControl (c : Nat) : Bool := decide (c < 0x20 ∨ (0x7F ≤ c ∧ c ≤ 0x9F))

/-- `MqttUtf8String::verify` (`packet/src/data.rs` lines 141-149): reject
byte lengths over 65535 and strings containing a control character. -/
def stringVerify (s : List Nat) : Except DataParseError Unit :=
  if 65535 < byteLen s then .error .badMqttUtf8String
  else if s.any isControl then .error .badMqttUtf8String
  else .ok ()

/-- Strings accepted by `MqttUtf8String::new`; membership of every code
point in the scalar range is guaranteed by Rust's `str` type. -/
def stringWF (s : List Nat) : Prop := (∀ c ∈ s, isScalar c) ∧ stringVerify s = .ok ()

/-- `MqttUtf8String::serialize`: `put_u16(len)` then the UTF-8 bytes. -/
def stringSerialize (s : List Nat) : List Nat :=
  twoByteSerialize (byteLen s) ++ utf8Encode s

/-- `MqttUtf8String::deserialize` (`packet/src/data.rs` lines 159-175):
read the two-byte length, check the buffer holds that many bytes, decode
UTF-8 (`BadMqttUtf8String` on invalid data), then `MqttUtf8String::new`
re-verifies; on success the cursor advances past the bytes. -/
def stringDeserialize (buf : List Nat) : Except DataParseError (List Nat × List Nat) :=
  match twoByteDeserialize buf with
  | .error e => .error e
  | .ok (len, rest) =>
    if rest.length < len then .error (.insufficientBuffer len rest.length)
    else
      match utf8Decode (rest.take len) with
      | none => .error .badMqttUtf8String
      | some s =>
        match stringVerify s with
        | .error e => .error e
        | .ok _ => .ok (s, rest.drop len)

/-- `MqttUtf8String::size`: `2 + self.s.len()`. -/
def stringSize (s : List Nat) : Nat := 2 + byteLen s

/-- `MqttBinaryData::verify`: at most 65535 bytes. -/
def binaryValid (d : List Nat) : Prop := d.length ≤ 65535

instance (d : List Nat) : Decidable (binaryValid d) := by
  unfold binaryValid
  infer_instance

/-- `MqttBinaryData::serialize`: `put_u16(len)` then the raw bytes. -/
def binarySerialize (d : List Nat) : List Nat := twoByteSerialize d.length ++ d

/-- `MqttBinaryData::deserialize`: two-byte length, bound check, then
`MqttBinaryData::new` on the taken bytes (whose verify re-checks 65535). -/
def binaryDeserialize (buf : List Nat) : Except DataParseError (List Nat × List Nat) :=
  match twoByteDeserialize buf with
  | .error e => .error e
  | .ok (len, rest) =>
    if rest.length < len then .error (.insufficientBuffer len rest.length)
    else if 65535 < (rest.take len).length then .error .badMqttBinaryData
    else .ok (rest.take len, rest.drop len)

/-- `MqttBinaryData::size`: `2 + self.d.remaining()`. -/
def binarySize (d : List Nat) : Nat := 2 + d.length

/-- `MqttUtf8StringPair::serialize`: name then value. -/
def stringPairSerialize (k v : List Nat) : List Nat :=
  stringSerialize k ++ stringSerialize v

/-- `MqttUtf8StringPair::deserialize`: name then value. -/
def stringPairDeserialize (buf : List Nat) :
    Except DataParseError ((List Nat × List Nat) × List Nat) :=
  match stringDeserialize buf with
  | .error e => .error e
  | .ok (k, rest) =>
    match stringDeserialize rest with
    | .error e => .error e
    | .ok (v, rest2) => .ok ((k, v), rest2)

/-- `MqttUtf8StringPair::size`. -/
def stringPairSize (k v : List Nat) : Nat := stringSize k + stringSize v

/-- Round trip for the two-byte integer on `u16` values. -/
theorem twoByteRoundtrip (i : Nat) (h : i < 65536) (rest : List Nat) :
    twoByteDeserialize (twoByteSerialize i ++ rest) = .ok (i, rest) := by
  unfold twoByteSerialize twoByteDeserialize
  simp only [List.cons_append, List.nil_append, Except.ok.injEq, Prod.mk.injEq]
  exact ⟨by omega, trivial⟩

/-- Round trip for the four-byte integer on `u32` values. -/
theorem fourByteRoundtrip (i : Nat) (h : i < 4294967296) (rest : List Nat) :
    fourByteDeserialize (fourByteSerialize i ++ rest) = .ok (i, rest) := by
  unfold fourByteSerialize fourByteDeserialize
  simp only [List.cons_append, List.nil_append, Except.ok.injEq, Prod.mk.injEq]
  exact ⟨by omega, trivial⟩

/-- A string passing `verify` has byte length at most 65535. -/
theorem stringVerify_le (s : List Nat) (h : stringVerify s = .ok ()) :
    byteLen s ≤ 65535 := by
  unfold stringVerify at h
  split_ifs at h with h1 h2
  · omega

/-- Round trip for MQTT UTF-8 strings. -/
theorem stringRoundtrip (s : List Nat) (h : stringWF s) (rest : List Nat) :
    stringDeserialize (stringSerialize s ++ rest) = .ok (s, rest) := by
  obtain ⟨hs, hv⟩ := h
  have hle : byteLen s ≤ 65535 := stringVerify_le s hv
  unfold stringSerialize stringDeserialize
  rw [List.append_assoc, twoByteRoundtrip (byteLen s) (by omega) _]
  change (if (utf8Encode s ++ rest).length < byteLen s then _ else _) = _
  rw [if_neg (by simp only [List.length_append]; unfold byteLen; omega)]
  have htake : (utf8Encode s ++ rest).take (byteLen s) = utf8Encode s := by
    unfold byteLen
    exact List.take_left _ _
  have hdrop : (utf8Encode s ++ rest).drop (byteLen s) = rest := by
    unfold byteLen
    exact List.drop_left _ _
  rw [htake, hdrop, utf8Decode_encode s hs]
  change (match stringVerify s with
    | Except.error e => Except.error e
    | Except.ok _ => Except.ok (s, rest)) = Except.ok (s, rest)
  rw [hv]

/-- Round trip for MQTT binary data. -/
theorem binaryRoundtrip (d : List Nat) (h : binaryValid d) (rest : List Nat) :
    binaryDeserialize (binarySerialize d ++ rest) = .ok (d, rest) := by
  unfold binaryValid at h
  unfold binarySerialize binaryDeserialize
  rw [List.append_assoc, twoByteRoundtrip d.length (by omega) _]
  change (if (d ++ rest).length < d.length then _ else _) = _
  rw [if_neg (by simp only [List.length_append]; omega)]
  rw [List.take_left, List.drop_left]
  rw [if_neg (by omega)]

/-- Round trip for MQTT string pairs. -/
theorem stringPairRoundtrip (k v : List Nat) (hk : stringWF k) (hv : stringWF v)
    (rest : List Nat) :
    stringPairDeserialize (stringPairSerialize k v ++ rest) = .ok ((k, v), rest) := by
  unfold stringPairSerialize stringPairDeserialize
  rw [List.append_assoc, stringRoundtrip k hk _]
  change (match stringDeserialize (stringSerialize v ++ rest) with
    | Except.error e => Except.error e
    | Except.ok (v', rest2) => Except.ok ((k, v'), rest2)) = _
  rw [stringRoundtrip v hv _]

/-- The string serializer writes exactly `size` bytes. -/
theorem stringSerialize_length (s : List Nat) :
    (stringSerialize s).length = stringSize s := by
  simp [stringSerialize, stringSize, twoByteSerialize, byteLen]
  omega

/-- The binary serializer writes exactly `size` bytes. -/
theorem binarySerialize_length (d : List Nat) :
    (binarySerialize d).length = binarySize d := by
  simp [binarySerialize, binarySize, twoByteSerialize]
  omega

/-- The string-pair serializer writes exactly `size` bytes. -/
theorem stringPairSerialize_length (k v : List Nat) :
    (stringPairSerialize k v).length = stringPairSize k v := by
  unfold stringPairSerialize stringPairSize
  rw [List.length_append, stringSerialize_length, stringSerialize_length]

/-- Claim C3: for every well-constructed value of each wire primitive type
(one/two/four-byte integer, variable-byte integer, UTF-8 string, binary
data, string pair), deserializing its serialization succeeds and returns
the value (with the rest of the buffer untouched), and the `size` method
agrees with the number of serialized bytes. -/
theorem C3_wire_primitive_roundtrip :
    (∀ i : Nat, i < 256 → ∀ rest : List Nat,
      oneByteDeserialize (oneByteSerialize i ++ rest) = .ok (i, rest) ∧
      (oneByteSerialize i).length = 1)
    ∧ (∀ i : Nat, i < 65536 → ∀ rest : List Nat,
      twoByteDeserialize (twoByteSerialize i ++ rest) = .ok (i, rest) ∧
      (twoByteSerialize i).length = 2)
    ∧ (∀ i : Nat, i < 4294967296 → ∀ rest : List Nat,
      fourByteDeserialize (fourByteSerialize i ++ rest) = .ok (i, rest) ∧
      (fourByteSerialize i).length = 4)
    ∧ (∀ i : Nat, vbiValid i → ∀ rest : List Nat,
      vbiDeserialize (vbiSerialize i ++ rest) = .ok (i, rest) ∧
      (vbiSerialize i).length = vbiSize i)
    ∧ (∀ s : List Nat, stringWF s → ∀ rest : List Nat,
      stringDeserialize (stringSerialize s ++ rest) = .ok (s, rest) ∧
      (stringSerialize s).length = stringSize s)
    ∧ (∀ d : List Nat, binaryValid d → ∀ rest : List Nat,
      binaryDeserialize (binarySerialize d ++ rest) = .ok (d, rest) ∧
      (binarySerialize d).length = binarySize d)
    ∧ (∀ k v : List Nat, stringWF k → stringWF v → ∀ rest : List Nat,
      stringPairDeserialize (stringPairSerialize k v ++ rest) = .ok ((k, v), rest) ∧
      (stringPairSerialize k v).length = stringPairSize k v) := by
  refine ⟨?_, ?_, ?_, ?_, ?_, ?_, ?_⟩
  · intro i hi rest
    refine ⟨?_, rfl⟩
    unfold oneByteSerialize oneByteDeserialize
    simp only [List.cons_append, List.nil_append, Except.ok.injEq, Prod.mk.injEq]
    exact ⟨by omega, trivial⟩
  · exact fun i hi rest => ⟨twoByteRoundtrip i hi rest, rfl⟩
  · exact fun i hi rest => ⟨fourByteRoundtrip i hi rest, rfl⟩
  · exact fun i hi rest => ⟨vbiRoundtrip i hi rest, vbiSerialize_length i hi⟩
  · exact fun s hs rest => ⟨stringRoundtrip s hs rest, stringSerialize_length s⟩
  · exact fun d hd rest => ⟨binaryRoundtrip d hd rest, binarySerialize_length d⟩
  · exact fun k v hk hv rest =>
      ⟨stringPairRoundtrip k v hk hv rest, stringPairSerialize_length k v⟩

/-- Witness for C3 at concrete values of each wire primitive type. -/
theorem C3_wire_primitive_roundtrip_witness :
    (oneByteDeserialize (oneByteSerialize 65 ++ [7]) = .ok (65, [7]) ∧
      (oneByteSerialize 65).length = 1) ∧
    (twoByteDeserialize (twoByteSerialize 300 ++ [7]) = .ok (300, [7]) ∧
      (twoByteSerialize 300).length = 2) ∧
    (fourByteDeserialize (fourByteSerialize 70000 ++ []) = .ok (70000, []) ∧
      (fourByteSerialize 70000).length = 4) ∧
    (vbiDeserialize (vbiSerialize 200 ++ [1]) = .ok (200, [1]) ∧
      (vbiSerialize 200).length = vbiSize 200) ∧
    (stringDeserialize (stringSerialize [0x41, 0xE9] ++ [9]) =
        .ok ([0x41, 0xE9], [9]) ∧
      (stringSerialize [0x41, 0xE9]).length = stringSize [0x41, 0xE9]) ∧
    (binaryDeserialize (binarySerialize [1, 2, 3] ++ []) = .ok ([1, 2, 3], []) ∧
      (binarySerialize [1, 2, 3]).length = binarySize [1, 2, 3]) ∧
    (stringPairDeserialize (stringPairSerialize [0x48] [0x57] ++ []) =
        .ok (([0x48], [0x57]), []) ∧
      (stringPairSerialize [0x48] [0x57]).length = stringPairSize [0x48] [0x57]) :=
  ⟨C3_wire_primitive_roundtrip.1 65 (by decide) [7],
   C3_wire_primitive_roundtrip.2.1 300 (by decide) [7],
   C3_wire_primitive_roundtrip.2.2.1 70000 (by decide) [],
   C3_wire_primitive_roundtrip.2.2.2.1 200 (by decide) [1],
   C3_wire_primitive_roundtrip.2.2.2.2.1 [0x41, 0xE9]
     ⟨by decide, by decide⟩ [9],
   C3_wire_primitive_roundtrip.2.2.2.2.2.1 [1, 2, 3] (by decide) [],
   C3_wire_primitive_roundtrip.2.2.2.2.2.2 [0x48] [0x57]
     ⟨by decide, by decide⟩ ⟨by decide, by decide⟩ []⟩

/-- The 27 property codes of `packet/src/props.rs` lines 159-190
(the `apiformes` copy is identical). -/
inductive Property where
  | payloadFormatIndicator
  | messageExpiryInterval
  | contentType
  | responseTopic
  | correlationData
  | subscriptionIdentifier
  | sessionExpiryInterval
  | assignedClientIdentifier
  | serverKeepAlive
  | authenticationMethod
  | authenticationData
  | requestProblemInformation
  | willDelayInterval
  | requestResponseInformation
  | responseInformation
  | serverReference
  | reasonString
  | receiveMaximum
  | topicAliasMaximum
  | topicAlias
  | maximumQoS
  | retainAvailable
  | userProperty
  | maximumPacketSize
  | wildcardSubscriptionAvailable
  | subscriptionIdentifierAvailable
  | sharedSubscriptionAvailable
deriving DecidableEq, Repr

/-- Wire codes of the properties (the `#[repr(u32)]` discriminants). -/
def Property.code : Property → Nat
  | .payloadFormatIndicator => 0x1
  | .messageExpiryInterval => 0x2
  | .contentType => 0x3
  | .responseTopic => 0x8
  | .correlationData => 0x9
  | .subscriptionIdentifier => 0xb
  | .sessionExpiryInterval => 0x11
  | .assignedClientIdentifier => 0x12
  | .serverKeepAlive => 0x13
  | .authenticationMethod => 0x15
  | .authenticationData => 0x16
  | .requestProblemInformation => 0x17
  | .willDelayInterval => 0x18
  | .requestResponseInformation => 0x19
  | .responseInformation => 0x1a
  | .serverReference => 0x1c
  | .reasonString => 0x1f
  | .receiveMaximum => 0x21
  | .topicAliasMaximum => 0x22
  | .topicAlias => 0x23
  | .maximumQoS => 0x24
  | .retainAvailable => 0x25
  | .userProperty => 0x26
  | .maximumPacketSize => 0x27
  | .wildcardSubscriptionAvailable => 0x28
  | .subscriptionIdentifierAvailable => 0x29
  | .sharedSubscriptionAvailable => 0x2a

/-- `Property::size`: the variable-byte-int size of the code. -/
def Property.psize (p : Property) : Nat := vbiSize p.code

/-- The `PropOwner` bitmask constants (`packet/src/props.rs` lines 14-33). -/
def PropOwnerAUTH : Nat := 0x0001

def PropOwnerCONNACK : Nat := 0x0002

def PropOwnerCONNECT : Nat := 0x0004

def PropOwnerDISCONNECT : Nat := 0x0008

def PropOwnerPUBACK : Nat := 0x0010

def PropOwnerPUBCOMP : Nat := 0x0020

def PropOwnerPUBLISH : Nat := 0x0040

def PropOwnerPUBREC : Nat := 0x0080

def PropOwnerPUBREL : Nat := 0x0100

def PropOwnerSUBACK : Nat := 0x0200

def PropOwnerSUBSCRIBE : Nat := 0x0400

def PropOwnerUNSUBACK : Nat := 0x0800

def PropOwnerUNSUBSCRIBE : Nat := 0x1000

def PropOwnerWILL : Nat := 0x2000

def PropOwnerALL : Nat := 0xffff

/-- The seven value shapes a property can carry. -/
inductive MqttPropValueType where
  | bool
  | byte
  | fourBytesInt
  | string
  | stringPair
  | data
  | varInt
  | twoBytesInt
deriving DecidableEq, Repr

/-- `MqttPropValue` (via `MqttPropValueInner`): the stored value shapes. -/
inductive MqttPropValue where
  | bool (i : Nat)
  | byte (i : Nat)
  | fourBytesInt (i : Nat)
  | string (s : List Nat)
  | stringPair (k v : List Nat)
  | data (d : List Nat)
  | varInt (i : Nat)
  | twoBytesInt (i : Nat)
deriving DecidableEq, Repr

/-- `MqttPropValue::prop_type`. -/
def MqttPropValue.propType : MqttPropValue → MqttPropValueType
  | .bool _ => .bool
  | .byte _ => .byte
  | .fourBytesInt _ => .fourBytesInt
  | .string _ => .string
  | .stringPair _ _ => .stringPair
  | .data _ => .data
  | .varInt _ => .varInt
  | .twoBytesInt _ => .twoBytesInt

/-- `MqttPropValue::size`. -/
def MqttPropValue.vsize : MqttPropValue → Nat
  | .bool _ => 1
  | .byte _ => 1
  | .fourBytesInt _ => 4
  | .string s => stringSize s
  | .stringPair k v => stringPairSize k v
  | .data d => binarySize d
  | .varInt i => vbiSize i
  | .twoBytesInt _ => 2

/-- `MqttPropValue::serialize`. -/
def MqttPropValue.vserialize : MqttPropValue → List Nat
  | .bool i => oneByteSerialize i
  | .byte i => oneByteSerialize i
  | .fourBytesInt i => fourByteSerialize i
  | .string s => stringSerialize s
  | .stringPair k v => stringPairSerialize k v
  | .data d => binarySerialize d
  | .varInt i => vbiSerialize i
  | .twoBytesInt i => twoByteSerialize i

/-- `Property::auxiliary_data` (`packet/src/props.rs` lines 196-323):
(valid-owners mask, value type, allow-multiple). -/
def Property.auxiliaryData : Property → Nat × MqttPropValueType × Bool
  | .payloadFormatIndicator => (PropOwnerPUBLISH ||| PropOwnerWILL, .byte, false)
  | .messageExpiryInterval => (PropOwnerPUBLISH ||| PropOwnerWILL, .fourBytesInt, false)
  | .contentType => (PropOwnerPUBLISH ||| PropOwnerWILL, .string, false)
  | .responseTopic => (PropOwnerPUBLISH ||| PropOwnerWILL, .string, false)
  | .correlationData => (PropOwnerPUBLISH ||| PropOwnerWILL, .data, false)
  | .subscriptionIdentifier => (PropOwnerPUBLISH ||| PropOwnerSUBSCRIBE, .varInt, false)
  | .sessionExpiryInterval =>
    (PropOwnerCONNECT ||| PropOwnerCONNACK ||| PropOwnerDISCONNECT, .fourBytesInt, false)
  | .assignedClientIdentifier => (PropOwnerCONNACK, .string, false)
  | .serverKeepAlive => (PropOwnerCONNACK, .twoBytesInt, false)
  | .authenticationMethod =>
    (PropOwnerCONNECT ||| PropOwnerCONNACK ||| PropOwnerAUTH, .string, false)
  | .authenticationData =>
    (PropOwnerCONNECT ||| PropOwnerCONNACK ||| PropOwnerAUTH, .data, false)
  | .requestProblemInformation => (PropOwnerCONNECT, .bool, false)
  | .willDelayInterval => (PropOwnerWILL, .fourBytesInt, false)
  | .requestResponseInformation => (PropOwnerCONNECT, .bool, false)
  | .responseInformation => (PropOwnerCONNACK, .string, false)
  | .serverReference => (PropOwnerCONNACK ||| PropOwnerDISCONNECT, .string, false)
  | .reasonString =>
    (PropOwnerCONNACK ||| PropOwnerPUBACK ||| PropOwnerPUBREC ||| PropOwnerPUBREL |||
      PropOwnerPUBCOMP ||| PropOwnerSUBACK ||| PropOwnerUNSUBACK |||
      PropOwnerDISCONNECT ||| PropOwnerAUTH, .string, false)
  | .receiveMaximum => (PropOwnerCONNECT ||| PropOwnerCONNACK, .twoBytesInt, false)
  | .topicAliasMaximum => (PropOwnerCONNECT ||| PropOwnerCONNACK, .twoBytesInt, false)
  | .topicAlias => (PropOwnerPUBLISH, .twoBytesInt, false)
  | .maximumQoS => (PropOwnerCONNACK, .byte, false)
  | .retainAvailable => (PropOwnerCONNACK, .byte, false)
  | .userProperty =>
    (PropOwnerCONNECT ||| PropOwnerCONNACK ||| PropOwnerPUBLISH ||| PropOwnerWILL |||
      PropOwnerPUBACK ||| PropOwnerPUBREC ||| PropOwnerPUBREL ||| PropOwnerPUBCOMP |||
      PropOwnerSUBSCRIBE ||| PropOwnerSUBACK ||| PropOwnerUNSUBSCRIBE |||
      PropOwnerUNSUBACK ||| PropOwnerDISCONNECT ||| PropOwnerAUTH, .string, true)
  | .maximumPacketSize => (PropOwnerCONNECT ||| PropOwnerCONNACK, .fourBytesInt, false)
  | .wildcardSubscriptionAvailable => (PropOwnerCONNACK, .bool, false)
  | .subscriptionIdentifierAvailable => (PropOwnerCONNACK, .bool, false)
  | .sharedSubscriptionAvailable => (PropOwnerCONNACK, .bool, false)

/-- The property table `Properties` (`packet/src/props.rs` lines 35-52):
the `HashMap<Property, Vec<MqttPropValue>>` becomes an association list
(the map's iteration order is unspecified in Rust; all verified statements
about it are order independent). -/
structure Properties where
  psize : Nat
  valid : Nat
  props : List (Property × List MqttPropValue)
deriving DecidableEq, Repr

/-- `Properties::new`. -/
def Properties.new : Properties := ⟨0, PropOwnerALL, []⟩

/-- `HashMap::get` on the association list. -/
def propsGet (l : List (Property × List MqttPropValue)) (k : Property) :
    Option (List MqttPropValue) :=
  match l with
  | [] => none
  | (k2, v) :: rest => if k2 = k then some v else propsGet rest k

/-- `HashMap::insert`, returning the replaced value. -/
def propsPut (l : List (Property × List MqttPropValue)) (k : Property)
    (v : List MqttPropValue) :
    List (Property × List MqttPropValue) × Option (List MqttPropValue) :=
  match l with
  | [] => ([(k, v)], none)
  | (k2, v2) :: rest =>
    if k2 = k then ((k, v) :: rest, some v2)
    else
      let (rest2, old) := propsPut rest k v
      ((k2, v2) :: rest2, old)

/-- `HashMap::get_mut` followed by `Vec::push` (the multiple-value path). -/
def propsPush (l : List (Property × List MqttPropValue)) (k : Property)
    (v : MqttPropValue) : List (Property × List MqttPropValue) :=
  match l with
  | [] => [(k, [v])]
  | (k2, v2) :: rest =>
    if k2 = k then (k2, v2 ++ [v]) :: rest
    else (k2, v2) :: propsPush rest k v

/-- `Properties::unchecked_insert` (`packet/src/props.rs` lines 65-89):
returns the updated table and the displaced value, maintaining the
incremental `size` field. -/
def Properties.uncheckedInsert (p : Properties) (key : Property)
    (value : MqttPropValue) (multiple : Bool) :
    Properties × Option MqttPropValue :=
  if multiple then
    ({ p with
        psize := p.psize + key.psize + value.vsize,
        props := propsPush p.props key value }, none)
  else
    let r := propsPut p.props key [value]
    match r.2 with
    | some (v0 :: _) =>
      ({ p with psize := p.psize + value.vsize - v0.vsize, props := r.1 },
        some v0)
    | some [] =>
      ({ p with psize := p.psize + value.vsize, props := r.1 }, none)
    | none =>
      ({ p with psize := p.psize + value.vsize + key.psize, props := r.1 }, none)

/-- `Properties::insert` (`packet/src/props.rs` lines 54-64): type check,
narrow the owners mask, then `unchecked_insert`; a displaced value from a
single-valued key is reported as `BadProperty` (after the mutation). -/
def Properties.insert (p : Properties) (key : Property) (value : MqttPropValue) :
    Properties × Option DataParseError :=
  let aux := key.auxiliaryData
  if value.propType ≠ aux.2.1 then (p, some .badProperty)
  else
    let p2 := { p with valid := p.valid &&& aux.1 }
    let r := p2.uncheckedInsert key value aux.2.2
    match r.2 with
    | some _ => (r.1, some .badProperty)
    | none => (r.1, none)

/-- `Properties::checked_insert` (`packet/src/props.rs` lines 90-103):
also requires the caller's owner bit, and ignores a displaced value. -/
def Properties.checkedInsert (p : Properties) (key : Property)
    (value : MqttPropValue) (ty : Nat) : Properties × Option DataParseError :=
  let aux := key.auxiliaryData
  if ¬ (aux.1 &&& ty = ty) ∨ aux.2.1 ≠ value.propType then (p, some .badProperty)
  else
    let p2 := { p with valid := p.valid &&& aux.1 }
    ((p2.uncheckedInsert key value aux.2.2).1, none)

/-- `Properties::is_valid_for`. -/
def Properties.isValidFor (p : Properties) (message : Nat) : Bool :=
  p.valid &&& message = message

/-- `Properties::get`. -/
def Properties.get (p : Properties) (key : Property) : Option (List MqttPropValue) :=
  propsGet p.props key

/-- `insert` followed by `get` on the same key returns the new value. -/
theorem propsPut_get (l : List (Property × List MqttPropValue)) (k : Property)
    (v : List MqttPropValue) : propsGet (propsPut l k v).1 k = some v := by
  induction l with
  | nil => simp [propsPut, propsGet]
  | cons hd tl ih =>
    unfold propsPut
    by_cases h : hd.1 = k
    · simp [h, propsGet]
    · simp [h, propsGet, ih]

/-- `insert` reports the previously stored value. -/
theorem propsPut_old (l : List (Property × List MqttPropValue)) (k : Property)
    (v vs : List MqttPropValue) (h : propsGet l k = some vs) :
    (propsPut l k v).2 = some vs := by
  induction l with
  | nil => simp [propsGet] at h
  | cons hd tl ih =>
    unfold propsPut
    unfold propsGet at h
    by_cases h2 : hd.1 = k
    · simp [h2] at h ⊢
      exact h
    · simp [h2] at h ⊢
      exact ih h

/-- `unchecked_insert` never touches the `valid` mask. -/
theorem uncheckedInsert_valid (p : Properties) (key : Property)
    (value : MqttPropValue) (multiple : Bool) :
    (p.uncheckedInsert key value multiple).1.valid = p.valid := by
  unfold Properties.uncheckedInsert
  by_cases h : multiple
  · simp [h]
  · simp [h]
    split <;> rfl

/-- Absorption: if `k`'s bits survive `(a &&& b) &&& k = k` then they are
all contained in `b`. -/
theorem land_absorb (a b k : Nat) (h : a &&& b &&& k = k) : b &&& k = k := by
  apply Nat.eq_of_testBit_eq
  intro i
  have hb := congrArg (fun x => x.testBit i) h
  simp only [Nat.testBit_and] at hb ⊢
  cases hk : Nat.testBit k i <;> simp [hk] at hb ⊢
  exact hb.2

/-- Inserting over an existing single-valued key mutates the table and
reports `BadProperty`: full characterization of `Properties::insert` in
the duplicate-key case. -/
theorem insert_dup_effects (p : Properties) (key : Property)
    (value v0 : MqttPropValue) (vtl : List MqttPropValue)
    (hsingle : (key.auxiliaryData).2.2 = false)
    (hty : value.propType = (key.auxiliaryData).2.1)
    (hpresent : p.get key = some (v0 :: vtl)) :
    p.insert key value =
      ({ psize := p.psize + value.vsize - v0.vsize,
         valid := p.valid &&& (key.auxiliaryData).1,
         props := (propsPut p.props key [value]).1 }, some .badProperty) := by
  unfold Properties.insert
  simp only [hty, ne_eq, not_true_eq_false, if_false, ite_false]
  unfold Properties.uncheckedInsert
  rw [hsingle]
  simp only [Bool.false_eq_true, if_false, ite_false]
  rw [propsPut_old _ _ _ _ hpresent]

/-- Claim C6: for every property table, inserting a single-valued property
whose key is already present returns `BadProperty`; inserting
`UserProperty` (with its string payload) always succeeds, hence any number
of times; and after inserting a property whose static valid-owners mask
excludes a packet kind `k`, `is_valid_for(k)` is false for every such
excluded kind. -/
theorem C6_property_table_rules :
    (∀ (p : Properties) (key : Property) (value v0 : MqttPropValue)
        (vtl : List MqttPropValue),
      (key.auxiliaryData).2.2 = false → p.get key = some (v0 :: vtl) →
      (p.insert key value).2 = some .badProperty)
    ∧ (∀ (p : Properties) (value : MqttPropValue), value.propType = .string →
      (p.insert .userProperty value).2 = none)
    ∧ (∀ (p : Properties) (key : Property) (value : MqttPropValue) (k : Nat),
      value.propType = (key.auxiliaryData).2.1 →
      ¬ ((key.auxiliaryData).1 &&& k = k) →
      (p.insert key value).1.isValidFor k = false) := by
  refine ⟨?_, ?_, ?_⟩
  · intro p key value v0 vtl hsingle hpresent
    by_cases hty : value.propType = (key.auxiliaryData).2.1
    · rw [insert_dup_effects p key value v0 vtl hsingle hty hpresent]
    · unfold Properties.insert
      simp [hty]
  · intro p value hty
    unfold Properties.insert
    simp [hty, Property.auxiliaryData, Properties.uncheckedInsert]
  · intro p key value k hty hexcl
    unfold Properties.insert
    simp only [hty, ne_eq, not_true_eq_false, if_false, ite_false]
    cases hr : (({ p with valid := p.valid &&& (key.auxiliaryData).1 }).uncheckedInsert
        key value (key.auxiliaryData).2.2).2 with
    | none =>
      change (({ p with valid := p.valid &&& (key.auxiliaryData).1 }).uncheckedInsert
          key value (key.auxiliaryData).2.2).1.isValidFor k = false
      unfold Properties.isValidFor
      rw [uncheckedInsert_valid]
      simp only [decide_eq_false_iff_not]
      exact fun h => hexcl (land_absorb _ _ _ h)
    | some v =>
      change (({ p with valid := p.valid &&& (key.auxiliaryData).1 }).uncheckedInsert
          key value (key.auxiliaryData).2.2).1.isValidFor k = false
      unfold Properties.isValidFor
      rw [uncheckedInsert_valid]
      simp only [decide_eq_false_iff_not]
      exact fun h => hexcl (land_absorb _ _ _ h)

/-- Witness for C6 at concrete tables: duplicate `ContentType` is
rejected, `UserProperty` inserts twice, and inserting `MaximumQoS`
(a CONNACK-only property) makes the table invalid for CONNECT. -/
theorem C6_property_table_rules_witness :
    (((Properties.new.insert .contentType (.string [0x61])).1.insert .contentType
        (.string [0x62])).2 = some .badProperty) ∧
    (((Properties.new.insert .userProperty (.string [0x61])).1.insert .userProperty
        (.string [0x62])).2 = none) ∧
    ((Properties.new.insert .maximumQoS (.byte 0)).1.isValidFor
        PropOwnerCONNECT = false) :=
  ⟨C6_property_table_rules.1 (Properties.new.insert .contentType (.string [0x61])).1
      .contentType (.string [0x62]) (.string [0x61]) [] (by decide) (by decide),
   C6_property_table_rules.2.1 (Properties.new.insert .userProperty (.string [0x61])).1
      (.string [0x62]) (by decide),
   C6_property_table_rules.2.2 Properties.new .maximumQoS (.byte 0)
      PropOwnerCONNECT (by decide) (by decide)⟩

/-- Claim C10: `Properties::insert` is not atomic on failure.  When the
key is single valued, the value type matches and the key is already
present, the call returns `BadProperty` yet the table now stores the new
value in place of the old one and its valid-owners mask has been narrowed
by the key's mask. -/
theorem C10_insert_error_still_mutates :
    ∀ (p : Properties) (key : Property) (value v0 : MqttPropValue)
      (vtl : List MqttPropValue),
      (key.auxiliaryData).2.2 = false →
      value.propType = (key.auxiliaryData).2.1 →
      p.get key = some (v0 :: vtl) →
      (p.insert key value).2 = some .badProperty ∧
      (p.insert key value).1.get key = some [value] ∧
      (p.insert key value).1.valid = p.valid &&& (key.auxiliaryData).1 := by
  intro p key value v0 vtl hsingle hty hpresent
  rw [insert_dup_effects p key value v0 vtl hsingle hty hpresent]
  exact ⟨rfl, propsPut_get p.props key [value], rfl⟩

/-- Witness for C10: after a duplicate `ContentType` insert the error is
reported and the stored value has changed to the new one. -/
theorem C10_insert_error_still_mutates_witness :
    (((Properties.new.insert .contentType (.string [0x61])).1.insert .contentType
        (.string [0x62])).2 = some .badProperty) ∧
    (((Properties.new.insert .contentType (.string [0x61])).1.insert .contentType
        (.string [0x62])).1.get .contentType = some [.string [0x62]]) ∧
    (((Properties.new.insert .contentType (.string [0x61])).1.insert .contentType
        (.string [0x62])).1.valid =
      (Properties.new.insert .contentType (.string [0x61])).1.valid &&&
        (Property.contentType.auxiliaryData).1) :=
  C10_insert_error_still_mutates (Properties.new.insert .contentType (.string [0x61])).1
    .contentType (.string [0x62]) (.string [0x61]) [] (by decide) (by decide) (by decide)

/-- Modelled from the spec: the `QoS` enum (`qos.rs` of the packet crate is
not in the source snapshot; the spec's glossary defines quality-of-service
levels 0, 1, 2, and the code relies on its derived order `QoS0 < QoS1 <
QoS2`). -/
inductive QoS where
  | qoS0
  | qoS1
  | qoS2
deriving DecidableEq, Repr

/-- Discriminant of the C-like enum, giving the derived order. -/
def QoS.toNat : QoS → Nat
  | .qoS0 => 0
  | .qoS1 => 1
  | .qoS2 => 2

/-- The derived `PartialOrd` comparison `a < b` on `QoS`. -/
def qosLt (a b : QoS) : Bool := a.toNat < b.toNat

/-- `SubscriptionFlags` bit for `NO_LOCAL` (`server-lib/src/topics.rs`). -/
def SubFlagNO_LOCAL : Nat := 1

/-- `SubscriptionFlags` bit for `RETAIN_AS_PUBLISHED`. -/
def SubFlagRETAIN_AS_PUBLISHED : Nat := 2

/-- `SubscriptionInfo { qos, flags }` (`server-lib/src/topics.rs` lines
19-29); the bitflags are a `Nat` bitmask. -/
structure SubscriptionInfo where
  qos : QoS
  flags : Nat
deriving DecidableEq, Repr

/-- Rust `str::split('/')` on a topic string (list of code points);
always returns at least one (possibly empty) level. -/
def splitOnSlash : List Nat → List (List Nat)
  | [] => [[]]
  | c :: rest =>
    if c = 47 then [] :: splitOnSlash rest
    else
      match splitOnSlash rest with
      | [] => [[c]]
      | hd :: tl => (c :: hd) :: tl

/-- Joining with `/`, the inverse of `splitOnSlash`. -/
def joinSlash : List (List Nat) → List Nat
  | [] => []
  | [lvl] => lvl
  | lvl :: rest => lvl ++ 47 :: joinSlash rest

/-- `TopicsTable::topic_to_subtopics` (`server-lib/src/topics.rs` lines
236-243): split on `/` and replace an empty first level by `"/"`. -/
def topicToSubtopics (topic : List Nat) : List (List Nat) :=
  match splitOnSlash topic with
  | [] => []
  | s0 :: rest => (if s0 = [] then [47] else s0) :: rest

/-- `is_valid_topic` (`packet/src/topic.rs` lines 8-30): the character
loop carrying the previous character (initially `'/'`); `'#'` must follow
`/` (or start) and be last; `'+'` must follow `/` (or start) and be
followed by `/` (or the end). -/
def isValidTopicLoop (prev : Nat) : List Nat → Bool
  | [] => true
  | c :: rest =>
    if c = 35 then
      if prev ≠ 47 ∨ rest ≠ [] then false else isValidTopicLoop c rest
    else if c = 43 then
      if prev ≠ 47 ∨ rest.headD 47 ≠ 47 then false else isValidTopicLoop c rest
    else isValidTopicLoop c rest

/-- `is_valid_topic`. -/
def isValidTopic (topic : List Nat) : Bool := isValidTopicLoop 47 topic

/-- `MqttTopic::is_wildcard`: contains `#` or `+`. -/
def isWildcardTopic (topic : List Nat) : Bool := topic.any (fun c => c = 35 || c = 43)

/-- `HashMap::remove` on a `HashMap<ClientId, SubscriptionInfo>` modelled
as an association list: drop the entries keyed by the client. -/
def subsRemove (m : List (String × SubscriptionInfo)) (cid : String) :
    List (String × SubscriptionInfo) :=
  match m with
  | [] => []
  | e :: rest => if e.1 = cid then subsRemove rest cid else e :: subsRemove rest cid

/-- `HashMap::insert`, modelled extensionally as remove-then-append. -/
def subsInsert (m : List (String × SubscriptionInfo)) (cid : String)
    (info : SubscriptionInfo) : List (String × SubscriptionInfo) :=
  subsRemove m cid ++ [(cid, info)]

/-- `HashMap::get` on the association list. -/
def subsLookup (m : List (String × SubscriptionInfo)) (cid : String) :
    Option SubscriptionInfo :=
  match m with
  | [] => none
  | (k, v) :: rest => if k = cid then some v else subsLookup rest cid

/-- The subscription-tree node `Block`/`BlockInner`
(`server-lib/src/topics.rs` lines 47-53): the two client maps and the
child map (`sub_blocks`, an association list keyed by topic level). -/
inductive Block where
  | node (hashWildcard : List (String × SubscriptionInfo))
      (subscribers : List (String × SubscriptionInfo))
      (subBlocks : List (List Nat × Block))

/-- Projection: the `hash_wildcard` map. -/
def Block.hashWildcard : Block → List (String × SubscriptionInfo)
  | .node h _ _ => h

/-- Projection: the `subscribers` map. -/
def Block.subscribers : Block → List (String × SubscriptionInfo)
  | .node _ s _ => s

/-- Projection: the `sub_blocks` child map. -/
def Block.subBlocks : Block → List (List Nat × Block)
  | .node _ _ c => c

/-- `BlockInner::new`. -/
def Block.empty : Block := .node [] [] []

/-- `HashMap::get` on the child map. -/
def blockFind (bs : List (List Nat × Block)) (k : List Nat) : Option Block :=
  match bs with
  | [] => none
  | (k2, b) :: rest => if k2 = k then some b else blockFind rest k

/-- `HashMap::remove` on the child map. -/
def blockRemove (bs : List (List Nat × Block)) (k : List Nat) :
    List (List Nat × Block) :=
  match bs with
  | [] => []
  | e :: rest => if e.1 = k then blockRemove rest k else e :: blockRemove rest k

/-- `HashMap::insert` on the child map (extensional remove-then-append). -/
def blockPut (bs : List (List Nat × Block)) (k : List Nat) (b : Block) :
    List (List Nat × Block) :=
  blockRemove bs k ++ [(k, b)]

/-- `Block::visit` specialised to `topics_add`
(`server-lib/src/topics.rs` lines 141-165 and 263-288): descend along the
levels, creating missing children; a `"#"` level inserts into the current
node's `hash_wildcard`, exhausted levels insert into `subscribers`. -/
def Block.topicsAdd (b : Block) (sections : List (List Nat)) (cid : String)
    (info : SubscriptionInfo) : Block :=
  match sections with
  | [] => .node b.hashWildcard (subsInsert b.subscribers cid info) b.subBlocks
  | sec :: rest =>
    if sec = [35] then
      .node (subsInsert b.hashWildcard cid info) b.subscribers b.subBlocks
    else
      let child := (blockFind b.subBlocks sec).getD Block.empty
      .node b.hashWildcard b.subscribers
        (blockPut b.subBlocks sec (child.topicsAdd rest cid info))

/-- One iteration of `BlockInner::collect_hash_wildcard` /
`collect_subscribers` (`server-lib/src/topics.rs` lines 85-117): a vacant
entry is inserted, an occupied one is replaced only by a strictly higher
QoS. -/
def mergeEntry (acc : List (String × SubscriptionInfo)) (cid : String)
    (info : SubscriptionInfo) : List (String × SubscriptionInfo) :=
  match subsLookup acc cid with
  | none => subsInsert acc cid info
  | some e => if qosLt e.qos info.qos then subsInsert acc cid info else acc

/-- Folding a node map into the accumulator (the `for` loops of
`collect_hash_wildcard` / `collect_subscribers`). -/
def collectMap (acc : List (String × SubscriptionInfo))
    (entries : List (String × SubscriptionInfo)) :
    List (String × SubscriptionInfo) :=
  entries.foldl (fun a e => mergeEntry a e.1 e.2) acc

/-- `Block::collect_subs` (`server-lib/src/topics.rs` lines 167-190):
absorb the node's `hash_wildcard`; if levels remain, recurse into the
`"+"` child and the literal child; otherwise absorb `subscribers`. -/
def Block.collectSubs (b : Block) (acc : List (String × SubscriptionInfo))
    (sections : List (List Nat)) : List (String × SubscriptionInfo) :=
  let acc1 := collectMap acc b.hashWildcard
  match sections with
  | [] => collectMap acc1 b.subscribers
  | sec :: rest =>
    let acc2 :=
      match blockFind b.subBlocks [43] with
      | some sb => sb.collectSubs acc1 rest
      | none => acc1
    match blockFind b.subBlocks sec with
    | some sb => sb.collectSubs acc2 rest
    | none => acc2

/-- `TopicsTable` (`server-lib/src/topics.rs` lines 211-221): the root
block and the reverse index from client ids to subscribed filters. -/
structure TopicsTable where
  rootBlock : Block
  reverseIndex : List (String × List (List Nat))

/-- `TopicsTable::new`. -/
def TopicsTable.new : TopicsTable := ⟨Block.empty, []⟩

/-- `TopicsTable::reverse_index_add`. -/
def reverseIndexAdd (ri : List (String × List (List Nat))) (cid : String)
    (topic : List Nat) : List (String × List (List Nat)) :=
  match ri with
  | [] => [(cid, [topic])]
  | (k, ts) :: rest =>
    if k = cid then (k, if topic ∈ ts then ts else ts ++ [topic]) :: rest
    else (k, ts) :: reverseIndexAdd rest cid topic

/-- `TopicsTable::subscribe` (`server-lib/src/topics.rs` lines 300-309):
insert into the tree, then record the filter in the reverse index. -/
def TopicsTable.subscribe (t : TopicsTable) (cid : String) (topic : List Nat)
    (q : QoS) (flags : Nat) : TopicsTable :=
  ⟨t.rootBlock.topicsAdd (topicToSubtopics topic) cid ⟨q, flags⟩,
   reverseIndexAdd t.reverseIndex cid topic⟩

/-- `TopicsTable::get_all_subscribed` (`server-lib/src/topics.rs` lines
348-357). -/
def TopicsTable.getAllSubscribed (t : TopicsTable) (topic : List Nat) :
    List (String × SubscriptionInfo) :=
  t.rootBlock.collectSubs [] (topicToSubtopics topic)

/-- The declarative MQTT v5 filter semantics of the specification, on
level lists: `+` matches exactly one level, a final `#` matches the
(possibly empty) remainder, other levels match literally. -/
def matchLevels : List (List Nat) → List (List Nat) → Bool
  | [], ts => ts.isEmpty
  | f :: fs, ts =>
    if f = [35] then fs.isEmpty
    else
      match ts with
      | [] => false
      | t :: ts2 => (decide (f = [43]) || decide (f = t)) && matchLevels fs ts2

/-- The specification's `filter_matches` on topic strings. -/
def filterMatches (filter topic : List Nat) : Bool :=
  matchLevels (splitOnSlash filter) (splitOnSlash topic)

/-- All values stored for a client in a node map (in iteration order). -/
def entriesFor (m : List (String × SubscriptionInfo)) (cid : String) :
    List SubscriptionInfo :=
  (m.filter (fun e => e.1 = cid)).map (·.2)

/-- The per-client effect of one merge step of `collect_subs`: keep the
entry with the strictly higher QoS, preferring the existing one. -/
def mergeOne (cur : Option SubscriptionInfo) (info : SubscriptionInfo) :
    Option SubscriptionInfo :=
  match cur with
  | none => some info
  | some e => if qosLt e.qos info.qos then some info else some e

/-- All infos `collect_subs` sees for a client below a node, for the given
remaining sections: the node's `hash_wildcard` entries; then, if sections
remain, the entries from the `"+"` child and the literal child; at the
end, the node's `subscribers` entries. -/
def contrib (b : Block) (ts : List (List Nat)) (cid : String) :
    List SubscriptionInfo :=
  entriesFor b.hashWildcard cid ++
    match ts with
    | [] => entriesFor b.subscribers cid
    | sec :: rest =>
      (match blockFind b.subBlocks [43] with
       | some sb => contrib sb rest cid
       | none => []) ++
      (match blockFind b.subBlocks sec with
       | some sb => contrib sb rest cid
       | none => [])

theorem subsLookup_cons (e : String × SubscriptionInfo)
    (tl : List (String × SubscriptionInfo)) (c : String) :
    subsLookup (e :: tl) c = if e.1 = c then some e.2 else subsLookup tl c := rfl

theorem subsLookup_append (m1 m2 : List (String × SubscriptionInfo)) (c : String) :
    subsLookup (m1 ++ m2) c = (subsLookup m1 c).or (subsLookup m2 c) := by
  induction m1 with
  | nil => simp [subsLookup, Option.or]
  | cons hd tl ih =>
    rw [List.cons_append, subsLookup_cons, subsLookup_cons]
    by_cases h : hd.1 = c
    · simp [h, Option.or]
    · simp [h, ih]

theorem subsLookup_remove (m : List (String × SubscriptionInfo)) (k c : String) :
    subsLookup (subsRemove m k) c = if c = k then none else subsLookup m c := by
  induction m with
  | nil => simp [subsRemove, subsLookup]
  | cons hd tl ih =>
    unfold subsRemove
    by_cases h2 : hd.1 = k
    · rw [if_pos h2, ih]
      by_cases h3 : c = k
      · simp [h3]
      · rw [if_neg h3, if_neg h3, subsLookup_cons,
          if_neg (fun hx : hd.1 = c => h3 (hx ▸ h2.symm ▸ rfl))]
    · rw [if_neg h2, subsLookup_cons, subsLookup_cons]
      by_cases h3 : hd.1 = c
      · rw [if_pos h3, if_pos h3,
          if_neg (fun hx : c = k => h2 (h3.symm ▸ hx ▸ rfl))]
      · rw [if_neg h3, if_neg h3, ih]

theorem subsLookup_insert (m : List (String × SubscriptionInfo)) (k : String)
    (v : SubscriptionInfo) (c : String) :
    subsLookup (subsInsert m k v) c = if c = k then some v else subsLookup m c := by
  unfold subsInsert
  rw [subsLookup_append, subsLookup_remove]
  by_cases h : c = k
  · simp [h, subsLookup, Option.or]
  · simp only [if_neg h]
    rw [subsLookup_cons, if_neg (fun hx : k = c => h hx.symm)]
    show (subsLookup m c).or (subsLookup [] c) = subsLookup m c
    cases subsLookup m c <;> rfl

theorem mergeEntry_lookup (acc : List (String × SubscriptionInfo)) (k : String)
    (v : SubscriptionInfo) (c : String) :
    subsLookup (mergeEntry acc k v) c =
      if c = k then mergeOne (subsLookup acc c) v else subsLookup acc c := by
  unfold mergeEntry
  by_cases h : c = k
  · subst h
    cases hl : subsLookup acc c with
    | none =>
      show subsLookup (subsInsert acc c v) c = if c = c then mergeOne none v else none
      rw [subsLookup_insert, if_pos rfl, if_pos rfl]
      rfl
    | some e =>
      show subsLookup (if qosLt e.qos v.qos then subsInsert acc c v else acc) c =
        if c = c then mergeOne (some e) v else some e
      rw [if_pos rfl]
      by_cases hq : qosLt e.qos v.qos
      · rw [if_pos hq]
        show _ = if qosLt e.qos v.qos then some v else some e
        rw [if_pos hq, subsLookup_insert, if_pos rfl]
      · rw [if_neg hq]
        show subsLookup acc c = if qosLt e.qos v.qos then some v else some e
        rw [if_neg hq, hl]
  · rw [if_neg h]
    cases hl : subsLookup acc k with
    | none =>
      show subsLookup (subsInsert acc k v) c = subsLookup acc c
      rw [subsLookup_insert, if_neg h]
    | some e =>
      show subsLookup (if qosLt e.qos v.qos then subsInsert acc k v else acc) c =
        subsLookup acc c
      by_cases hq : qosLt e.qos v.qos
      · rw [if_pos hq, subsLookup_insert, if_neg h]
      · rw [if_neg hq]

theorem entriesFor_cons (e : String × SubscriptionInfo)
    (tl : List (String × SubscriptionInfo)) (c : String) :
    entriesFor (e :: tl) c =
      if e.1 = c then e.2 :: entriesFor tl c else entriesFor tl c := by
  unfold entriesFor
  by_cases h : e.1 = c
  · simp [List.filter_cons, h]
  · simp [List.filter_cons, h]

theorem collectMap_lookup (entries acc : List (String × SubscriptionInfo))
    (c : String) :
    subsLookup (collectMap acc entries) c =
      (entriesFor entries c).foldl mergeOne (subsLookup acc c) := by
  induction entries generalizing acc with
  | nil => rfl
  | cons hd tl ih =>
    unfold collectMap at ih ⊢
    rw [List.foldl_cons, ih, entriesFor_cons]
    by_cases h : hd.1 = c
    · rw [if_pos h, List.foldl_cons, mergeEntry_lookup, if_pos h.symm]
    · rw [if_neg h, mergeEntry_lookup, if_neg (fun hx : c = hd.1 => h hx.symm)]

theorem collectSubs_nil_def (b : Block) (acc : List (String × SubscriptionInfo)) :
    b.collectSubs acc [] = collectMap (collectMap acc b.hashWildcard) b.subscribers := rfl

theorem collectSubs_cons_def (b : Block) (acc : List (String × SubscriptionInfo))
    (sec : List Nat) (rest : List (List Nat)) :
    b.collectSubs acc (sec :: rest) =
      match blockFind b.subBlocks sec with
      | some sb =>
        sb.collectSubs
          (match blockFind b.subBlocks [43] with
           | some sb2 => sb2.collectSubs (collectMap acc b.hashWildcard) rest
           | none => collectMap acc b.hashWildcard) rest
      | none =>
        match blockFind b.subBlocks [43] with
        | some sb2 => sb2.collectSubs (collectMap acc b.hashWildcard) rest
        | none => collectMap acc b.hashWildcard := rfl

theorem contrib_nil_def (b : Block) (c : String) :
    contrib b [] c = entriesFor b.hashWildcard c ++ entriesFor b.subscribers c := rfl

theorem contrib_cons_def (b : Block) (sec : List Nat) (rest : List (List Nat)) (c : String) :
    contrib b (sec :: rest) c =
      entriesFor b.hashWildcard c ++
        ((match blockFind b.subBlocks [43] with
          | some sb => contrib sb rest c
          | none => []) ++
         (match blockFind b.subBlocks sec with
          | some sb => contrib sb rest c
          | none => [])) := rfl

theorem collectSubs_lookup (ts : List (List Nat)) (b : Block)
    (acc : List (String × SubscriptionInfo)) (c : String) :
    subsLookup (b.collectSubs acc ts) c =
      (contrib b ts c).foldl mergeOne (subsLookup acc c) := by
  induction ts generalizing b acc with
  | nil =>
    rw [collectSubs_nil_def, contrib_nil_def, collectMap_lookup, collectMap_lookup,
        List.foldl_append]
  | cons sec rest ih =>
    rw [collectSubs_cons_def, contrib_cons_def]
    cases h43 : blockFind b.subBlocks [43] with
    | none =>
      cases hsec : blockFind b.subBlocks sec with
      | none =>
        show subsLookup (collectMap acc b.hashWildcard) c =
          ((entriesFor b.hashWildcard c ++ ([] ++ [])).foldl mergeOne (subsLookup acc c))
        rw [collectMap_lookup]
        simp
      | some sb =>
        show subsLookup (sb.collectSubs (collectMap acc b.hashWildcard) rest) c =
          ((entriesFor b.hashWildcard c ++ ([] ++ contrib sb rest c)).foldl mergeOne
            (subsLookup acc c))
        rw [ih, collectMap_lookup]
        simp [List.foldl_append]
    | some sbp =>
      cases hsec : blockFind b.subBlocks sec with
      | none =>
        show subsLookup (sbp.collectSubs (collectMap acc b.hashWildcard) rest) c =
          ((entriesFor b.hashWildcard c ++ (contrib sbp rest c ++ [])).foldl mergeOne
            (subsLookup acc c))
        rw [ih, collectMap_lookup]
        simp [List.foldl_append]
      | some sb =>
        show subsLookup
            (sb.collectSubs (sbp.collectSubs (collectMap acc b.hashWildcard) rest) rest) c =
          ((entriesFor b.hashWildcard c ++ (contrib sbp rest c ++ contrib sb rest c)).foldl
            mergeOne (subsLookup acc c))
        rw [ih, ih, collectMap_lookup]
        simp [List.foldl_append]

/-- The matching relation realized by the tree: a `"#"` section matches
everything from its node on (`topics_add` stores it immediately and
`collect_subs` absorbs `hash_wildcard` at every visited node), `"+"` or a
literal match consume one topic level, an exhausted filter requires an
exhausted topic. -/
def treeMatch : List (List Nat) → List (List Nat) → Bool
  | [], [] => true
  | [], _ :: _ => false
  | f :: fs, ts =>
    if f = [35] then true
    else
      match ts with
      | [] => false
      | t :: ts2 => (decide (f = [43]) || decide (f = t)) && treeMatch fs ts2

/-- The node path at which `topics_add` actually stores a filter: descent
stops at the first `"#"` section. -/
def storedPath : List (List Nat) → List (List Nat)
  | [] => []
  | f :: r => if f = [35] then [[35]] else f :: storedPath r

/-- `"#"` occurs at most as the last section. -/
def hashOnlyLast : List (List Nat) → Bool
  | [] => true
  | [_] => true
  | f :: r => decide (f ≠ [35]) && hashOnlyLast r

/-- The client has no entry at the map where `topics_add` would store the
given sections below this block. -/
def notStored (b : Block) (fs : List (List Nat)) (cid : String) : Bool :=
  match fs with
  | [] => (subsLookup b.subscribers cid).isNone
  | f :: rest =>
    if f = [35] then (subsLookup b.hashWildcard cid).isNone
    else
      match blockFind b.subBlocks f with
      | none => true
      | some ch => notStored ch rest cid

/-- Maximum QoS discriminant over a list of subscription infos. -/
def qMaxL (l : List SubscriptionInfo) : Nat :=
  l.foldl (fun m e => max m e.qos.toNat) 0

/-- QoS discriminant of an optional entry (0 when absent). -/
def mq : Option SubscriptionInfo → Nat
  | none => 0
  | some e => e.qos.toNat

/-- Maximum QoS over the subscriptions of a client whose sections match
the topic sections in the tree sense. -/
def matchQMax (subs : List (String × List Nat × QoS × Nat)) (c : String)
    (ts : List (List Nat)) : Nat :=
  subs.foldl
    (fun m s =>
      if s.1 = c ∧ treeMatch (topicToSubtopics s.2.1) ts = true then max m s.2.2.1.toNat
      else m) 0

/-- Folding `TopicsTable::subscribe` over a list of subscriptions. -/
def subscribeAll (subs : List (String × List Nat × QoS × Nat)) (t0 : TopicsTable) :
    TopicsTable :=
  subs.foldl (fun tb s => tb.subscribe s.1 s.2.1 s.2.2.1 s.2.2.2) t0

theorem entriesFor_append (a b : List (String × SubscriptionInfo)) (c : String) :
    entriesFor (a ++ b) c = entriesFor a c ++ entriesFor b c := by
  unfold entriesFor
  rw [List.filter_append, List.map_append]

theorem entriesFor_remove (m : List (String × SubscriptionInfo)) (k c : String) :
    entriesFor (subsRemove m k) c = if c = k then [] else entriesFor m c := by
  induction m with
  | nil =>
    unfold subsRemove entriesFor
    simp
  | cons hd tl ih =>
    unfold subsRemove
    by_cases hc : c = k
    · rw [if_pos hc]
      subst hc
      by_cases hk : hd.1 = c
      · rw [if_pos hk, ih, if_pos rfl]
      · rw [if_neg hk, entriesFor_cons, if_neg hk, ih, if_pos rfl]
    · rw [if_neg hc]
      by_cases hk : hd.1 = k
      · rw [if_pos hk, ih, if_neg hc, entriesFor_cons,
            if_neg (show ¬hd.1 = c by rw [hk]; exact fun hx => hc hx.symm)]
      · rw [if_neg hk, entriesFor_cons, entriesFor_cons, ih, if_neg hc]

theorem entriesFor_insert (m : List (String × SubscriptionInfo)) (k : String)
    (v : SubscriptionInfo) (c : String) :
    entriesFor (subsInsert m k v) c = if c = k then [v] else entriesFor m c := by
  unfold subsInsert
  rw [entriesFor_append, entriesFor_remove]
  by_cases hc : c = k
  · rw [if_pos hc, if_pos hc]
    show _ = [v]
    unfold entriesFor
    simp [hc]
  · rw [if_neg hc, if_neg hc]
    have hkc : ¬k = c := fun hx => hc hx.symm
    have h1 : entriesFor [(k, v)] c = [] := by
      unfold entriesFor
      simp [hkc]
    rw [h1, List.append_nil]

theorem entriesFor_eq_nil (m : List (String × SubscriptionInfo)) (c : String)
    (h : subsLookup m c = none) : entriesFor m c = [] := by
  induction m with
  | nil => rfl
  | cons hd tl ih =>
    rw [subsLookup_cons] at h
    rw [entriesFor_cons]
    by_cases hk : hd.1 = c
    · rw [if_pos hk] at h
      exact absurd h (by simp)
    · rw [if_neg hk] at h
      rw [if_neg hk]
      exact ih h

theorem blockFind_remove (bs : List (List Nat × Block)) (k k2 : List Nat) :
    blockFind (blockRemove bs k) k2 = if k2 = k then none else blockFind bs k2 := by
  induction bs with
  | nil =>
    unfold blockRemove blockFind
    simp
  | cons hd tl ih =>
    obtain ⟨k1, b1⟩ := hd
    show blockFind (if k1 = k then blockRemove tl k else (k1, b1) :: blockRemove tl k) k2 = _
    by_cases hk : k1 = k
    · rw [if_pos hk, ih]
      by_cases hc : k2 = k
      · rw [if_pos hc, if_pos hc]
      · rw [if_neg hc, if_neg hc]
        show blockFind tl k2 = if k1 = k2 then some b1 else blockFind tl k2
        rw [if_neg (fun hx : k1 = k2 => hc (hx.symm.trans hk))]
    · rw [if_neg hk]
      show (if k1 = k2 then some b1 else blockFind (blockRemove tl k) k2) = _
      by_cases h2 : k1 = k2
      · rw [if_pos h2, if_neg (fun hx : k2 = k => hk (h2.trans hx))]
        show some b1 = if k1 = k2 then some b1 else blockFind tl k2
        rw [if_pos h2]
      · rw [if_neg h2, ih]
        by_cases hc : k2 = k
        · rw [if_pos hc, if_pos hc]
        · rw [if_neg hc, if_neg hc]
          show blockFind tl k2 = if k1 = k2 then some b1 else blockFind tl k2
          rw [if_neg h2]

theorem blockFind_append (a b : List (List Nat × Block)) (k : List Nat) :
    blockFind (a ++ b) k = (blockFind a k).or (blockFind b k) := by
  induction a with
  | nil => rfl
  | cons hd tl ih =>
    obtain ⟨k1, b1⟩ := hd
    show (if k1 = k then some b1 else blockFind (tl ++ b) k) =
      (if k1 = k then some b1 else blockFind tl k).or (blockFind b k)
    by_cases h : k1 = k
    · rw [if_pos h, if_pos h]
      rfl
    · rw [if_neg h, if_neg h, ih]

theorem blockFind_put (bs : List (List Nat × Block)) (k : List Nat) (b : Block)
    (k2 : List Nat) :
    blockFind (blockPut bs k b) k2 = if k2 = k then some b else blockFind bs k2 := by
  unfold blockPut
  rw [blockFind_append, blockFind_remove]
  by_cases hc : k2 = k
  · rw [if_pos hc, if_pos hc]
    show Option.or none (blockFind [(k, b)] k2) = some b
    show Option.or none (if k = k2 then some b else blockFind [] k2) = some b
    rw [if_pos hc.symm]
    rfl
  · rw [if_neg hc, if_neg hc]
    have h1 : blockFind [(k, b)] k2 = none := by
      show (if k = k2 then some b else blockFind [] k2) = none
      rw [if_neg (fun hx : k = k2 => hc hx.symm)]
      rfl
    rw [h1]
    cases blockFind bs k2 <;> rfl

theorem notStored_empty (fs : List (List Nat)) (c : String) :
    notStored Block.empty fs c = true := by
  cases fs with
  | nil => rfl
  | cons f rest =>
    unfold notStored
    by_cases h : f = [35]
    · rw [if_pos h]
      rfl
    · rw [if_neg h]
      rfl

theorem contrib_empty (ts : List (List Nat)) (c : String) :
    contrib Block.empty ts c = [] := by
  cases ts with
  | nil => rfl
  | cons t rest => rfl

theorem foldl_max_shift (l : List SubscriptionInfo) (a b : Nat) :
    l.foldl (fun m e => max m e.qos.toNat) (max a b) =
      max a (l.foldl (fun m e => max m e.qos.toNat) b) := by
  induction l generalizing b with
  | nil => rfl
  | cons hd tl ih =>
    rw [List.foldl_cons, List.foldl_cons]
    show List.foldl _ (max (max a b) hd.qos.toNat) tl = _
    rw [Nat.max_assoc, ih]

theorem qMaxL_cons (e : SubscriptionInfo) (l : List SubscriptionInfo) :
    qMaxL (e :: l) = max e.qos.toNat (qMaxL l) := by
  unfold qMaxL
  rw [List.foldl_cons]
  show List.foldl _ (max 0 e.qos.toNat) l = _
  rw [Nat.zero_max, show e.qos.toNat = max e.qos.toNat 0 from (Nat.max_zero _).symm,
      foldl_max_shift]
  omega

theorem qMaxL_append (a b : List SubscriptionInfo) :
    qMaxL (a ++ b) = max (qMaxL a) (qMaxL b) := by
  unfold qMaxL
  rw [List.foldl_append]
  rw [show List.foldl (fun m e => max m e.qos.toNat) 0 a = max (qMaxL a) 0 from
        (Nat.max_zero _).symm, foldl_max_shift]
  omega

theorem mergeOne_isSome (o : Option SubscriptionInfo) (v : SubscriptionInfo) :
    (mergeOne o v).isSome = true := by
  cases o with
  | none => rfl
  | some e =>
    show (if qosLt e.qos v.qos then some v else some e).isSome = true
    by_cases h : qosLt e.qos v.qos
    · rw [if_pos h]
      rfl
    · rw [if_neg h]
      rfl

theorem mergeOne_mq (o : Option SubscriptionInfo) (v : SubscriptionInfo) :
    mq (mergeOne o v) = max (mq o) v.qos.toNat := by
  cases o with
  | none =>
    show v.qos.toNat = max 0 v.qos.toNat
    rw [Nat.zero_max]
  | some e =>
    show mq (if qosLt e.qos v.qos then some v else some e) = max (mq (some e)) v.qos.toNat
    by_cases h : qosLt e.qos v.qos
    · rw [if_pos h]
      unfold qosLt at h
      show v.qos.toNat = max e.qos.toNat v.qos.toNat
      simp at h
      omega
    · rw [if_neg h]
      unfold qosLt at h
      show e.qos.toNat = max e.qos.toNat v.qos.toNat
      simp at h
      omega

theorem foldl_mergeOne_isSome (l : List SubscriptionInfo)
    (o : Option SubscriptionInfo) :
    (l.foldl mergeOne o).isSome = (o.isSome || decide (l ≠ [])) := by
  induction l generalizing o with
  | nil => simp
  | cons hd tl ih =>
    rw [List.foldl_cons, ih, mergeOne_isSome]
    simp

theorem foldl_mergeOne_mq (l : List SubscriptionInfo) (o : Option SubscriptionInfo) :
    mq (l.foldl mergeOne o) = max (mq o) (qMaxL l) := by
  induction l generalizing o with
  | nil =>
    show mq o = max (mq o) 0
    rw [Nat.max_zero]
  | cons hd tl ih =>
    rw [List.foldl_cons, ih, mergeOne_mq, qMaxL_cons, Nat.max_assoc]

/-- The contribution of an optional child block. -/
def childContrib (o : Option Block) (ts : List (List Nat)) (c : String) :
    List SubscriptionInfo :=
  match o with
  | some sb => contrib sb ts c
  | none => []

theorem topicsAdd_nil_def (b : Block) (cid : String) (info : SubscriptionInfo) :
    b.topicsAdd [] cid info =
      .node b.hashWildcard (subsInsert b.subscribers cid info) b.subBlocks := rfl

theorem topicsAdd_cons_def (b : Block) (sec : List Nat) (rest : List (List Nat))
    (cid : String) (info : SubscriptionInfo) :
    b.topicsAdd (sec :: rest) cid info =
      if sec = [35] then
        .node (subsInsert b.hashWildcard cid info) b.subscribers b.subBlocks
      else
        .node b.hashWildcard b.subscribers
          (blockPut b.subBlocks sec
            (((blockFind b.subBlocks sec).getD Block.empty).topicsAdd rest cid info)) := rfl

theorem childContrib_some (sb : Block) (ts : List (List Nat)) (c : String) :
    childContrib (some sb) ts c = contrib sb ts c := rfl

theorem childContrib_none (ts : List (List Nat)) (c : String) :
    childContrib none ts c = [] := rfl

theorem childContrib_getD (o : Option Block) (ts : List (List Nat)) (c : String) :
    childContrib o ts c = contrib (o.getD Block.empty) ts c := by
  cases o with
  | none =>
    rw [childContrib_none]
    exact (contrib_empty ts c).symm
  | some sb => rfl

theorem contrib_cons_child (b : Block) (sec : List Nat) (rest : List (List Nat))
    (c : String) :
    contrib b (sec :: rest) c =
      entriesFor b.hashWildcard c ++
        (childContrib (blockFind b.subBlocks [43]) rest c ++
         childContrib (blockFind b.subBlocks sec) rest c) := rfl

theorem treeMatch_nil_nil : treeMatch [] [] = true := rfl

theorem treeMatch_nil_cons (t : List Nat) (ts : List (List Nat)) :
    treeMatch [] (t :: ts) = false := rfl

theorem treeMatch_hash (fs2 ts : List (List Nat)) :
    treeMatch ([35] :: fs2) ts = true := by
  cases ts <;> rfl

theorem treeMatch_cons_nil (f : List Nat) (hf : f ≠ [35]) (fs2 : List (List Nat)) :
    treeMatch (f :: fs2) [] = false := by
  unfold treeMatch
  rw [if_neg hf]

theorem treeMatch_cons_cons (f : List Nat) (hf : f ≠ [35]) (fs2 : List (List Nat))
    (t : List Nat) (ts2 : List (List Nat)) :
    treeMatch (f :: fs2) (t :: ts2) =
      ((decide (f = [43]) || decide (f = t)) && treeMatch fs2 ts2) := by
  conv_lhs => rw [treeMatch]
  rw [if_neg hf]

theorem topicsAdd_contrib_ne (fs : List (List Nat)) (b : Block) (ts : List (List Nat))
    (cid : String) (info : SubscriptionInfo) (c : String) (hne : c ≠ cid) :
    contrib (b.topicsAdd fs cid info) ts c = contrib b ts c := by
  induction fs generalizing b ts with
  | nil =>
    rw [topicsAdd_nil_def]
    cases ts with
    | nil =>
      show entriesFor b.hashWildcard c ++
          entriesFor (subsInsert b.subscribers cid info) c = contrib b [] c
      rw [entriesFor_insert, if_neg hne, contrib_nil_def]
    | cons t ts2 =>
      show entriesFor b.hashWildcard c ++
          (childContrib (blockFind b.subBlocks [43]) ts2 c ++
           childContrib (blockFind b.subBlocks t) ts2 c) = contrib b (t :: ts2) c
      rw [contrib_cons_child]
  | cons f fs2 ih =>
    rw [topicsAdd_cons_def]
    by_cases hf : f = [35]
    · rw [if_pos hf]
      cases ts with
      | nil =>
        show entriesFor (subsInsert b.hashWildcard cid info) c ++
            entriesFor b.subscribers c = contrib b [] c
        rw [entriesFor_insert, if_neg hne, contrib_nil_def]
      | cons t ts2 =>
        show entriesFor (subsInsert b.hashWildcard cid info) c ++
            (childContrib (blockFind b.subBlocks [43]) ts2 c ++
             childContrib (blockFind b.subBlocks t) ts2 c) = contrib b (t :: ts2) c
        rw [entriesFor_insert, if_neg hne, contrib_cons_child]
    · rw [if_neg hf]
      cases ts with
      | nil =>
        show entriesFor b.hashWildcard c ++ entriesFor b.subscribers c = contrib b [] c
        rw [contrib_nil_def]
      | cons t ts2 =>
        show entriesFor b.hashWildcard c ++
            (childContrib
              (blockFind
                (blockPut b.subBlocks f
                  (((blockFind b.subBlocks f).getD Block.empty).topicsAdd fs2 cid info))
                [43]) ts2 c ++
             childContrib
              (blockFind
                (blockPut b.subBlocks f
                  (((blockFind b.subBlocks f).getD Block.empty).topicsAdd fs2 cid info))
                t) ts2 c) = contrib b (t :: ts2) c
        rw [blockFind_put, blockFind_put, contrib_cons_child]
        have hx : childContrib
            (some (((blockFind b.subBlocks f).getD Block.empty).topicsAdd fs2 cid info))
            ts2 c = childContrib (blockFind b.subBlocks f) ts2 c := by
          rw [childContrib_some, ih, childContrib_getD]
        by_cases h43 : ([43] : List Nat) = f
        · rw [if_pos h43, hx, h43]
          by_cases ht : t = f
          · rw [if_pos ht, hx, ht]
          · rw [if_neg ht]
        · rw [if_neg h43]
          by_cases ht : t = f
          · rw [if_pos ht, hx, ht]
          · rw [if_neg ht]

theorem topicsAdd_contrib (fs : List (List Nat)) (b : Block) (ts : List (List Nat))
    (cid : String) (info : SubscriptionInfo) (hfresh : notStored b fs cid = true) :
    (contrib (b.topicsAdd fs cid info) ts cid ≠ [] ↔
      (treeMatch fs ts = true ∨ contrib b ts cid ≠ [])) ∧
    qMaxL (contrib (b.topicsAdd fs cid info) ts cid) =
      (if treeMatch fs ts = true then max (qMaxL (contrib b ts cid)) info.qos.toNat
       else qMaxL (contrib b ts cid)) := by
  revert hfresh
  induction fs generalizing b ts with
  | nil =>
    intro hfresh
    have hnone : subsLookup b.subscribers cid = none := by
      unfold notStored at hfresh
      exact Option.isNone_iff_eq_none.mp hfresh
    have hE : entriesFor b.subscribers cid = [] := entriesFor_eq_nil _ _ hnone
    rw [topicsAdd_nil_def]
    cases ts with
    | nil =>
      have hnc : contrib (Block.node b.hashWildcard (subsInsert b.subscribers cid info)
          b.subBlocks) [] cid = entriesFor b.hashWildcard cid ++ [info] := by
        show entriesFor b.hashWildcard cid ++
            entriesFor (subsInsert b.subscribers cid info) cid = _
        rw [entriesFor_insert, if_pos rfl]
      rw [hnc, contrib_nil_def, hE, List.append_nil, treeMatch_nil_nil]
      constructor
      · simp
      · rw [if_pos rfl, qMaxL_append, qMaxL_cons]
        have h0 : qMaxL [] = 0 := rfl
        rw [h0]
        omega
    | cons t ts2 =>
      have hnc : contrib (Block.node b.hashWildcard (subsInsert b.subscribers cid info)
          b.subBlocks) (t :: ts2) cid = contrib b (t :: ts2) cid := by
        show entriesFor b.hashWildcard cid ++
            (childContrib (blockFind b.subBlocks [43]) ts2 cid ++
             childContrib (blockFind b.subBlocks t) ts2 cid) = _
        rw [contrib_cons_child]
      rw [hnc, treeMatch_nil_cons]
      constructor
      · simp
      · rw [if_neg (by simp)]
  | cons f fs2 ih =>
    intro hfresh
    rw [topicsAdd_cons_def]
    by_cases hf : f = [35]
    · rw [if_pos hf]
      have hnone : subsLookup b.hashWildcard cid = none := by
        unfold notStored at hfresh
        rw [if_pos hf] at hfresh
        exact Option.isNone_iff_eq_none.mp hfresh
      have hE : entriesFor b.hashWildcard cid = [] := entriesFor_eq_nil _ _ hnone
      subst hf
      cases ts with
      | nil =>
        have hnc : contrib (Block.node (subsInsert b.hashWildcard cid info) b.subscribers
            b.subBlocks) [] cid = info :: contrib b [] cid := by
          show entriesFor (subsInsert b.hashWildcard cid info) cid ++
              entriesFor b.subscribers cid = _
          rw [entriesFor_insert, if_pos rfl, contrib_nil_def, hE]
          rfl
        rw [hnc, treeMatch_hash]
        constructor
        · simp
        · rw [if_pos rfl, qMaxL_cons]
          omega
      | cons t ts2 =>
        have hnc : contrib (Block.node (subsInsert b.hashWildcard cid info) b.subscribers
            b.subBlocks) (t :: ts2) cid = info :: contrib b (t :: ts2) cid := by
          show entriesFor (subsInsert b.hashWildcard cid info) cid ++
              (childContrib (blockFind b.subBlocks [43]) ts2 cid ++
               childContrib (blockFind b.subBlocks t) ts2 cid) = _
          rw [entriesFor_insert, if_pos rfl, contrib_cons_child, hE]
          rfl
        rw [hnc, treeMatch_hash]
        constructor
        · simp
        · rw [if_pos rfl, qMaxL_cons]
          omega
    · rw [if_neg hf]
      have hfr : notStored ((blockFind b.subBlocks f).getD Block.empty) fs2 cid = true := by
        unfold notStored at hfresh
        rw [if_neg hf] at hfresh
        cases hbf : blockFind b.subBlocks f with
        | none => exact notStored_empty fs2 cid
        | some ch0 =>
          rw [hbf] at hfresh
          exact hfresh
      cases ts with
      | nil =>
        have hnc : contrib (Block.node b.hashWildcard b.subscribers
            (blockPut b.subBlocks f
              (((blockFind b.subBlocks f).getD Block.empty).topicsAdd fs2 cid info)))
            [] cid = contrib b [] cid := by
          show entriesFor b.hashWildcard cid ++ entriesFor b.subscribers cid = _
          rw [contrib_nil_def]
        rw [hnc, treeMatch_cons_nil f hf]
        constructor
        · simp
        · rw [if_neg (by simp)]
      | cons t ts2 =>
        obtain ⟨ih1, ih2⟩ := ih ((blockFind b.subBlocks f).getD Block.empty) ts2 hfr
        have hnc : contrib (Block.node b.hashWildcard b.subscribers
            (blockPut b.subBlocks f
              (((blockFind b.subBlocks f).getD Block.empty).topicsAdd fs2 cid info)))
            (t :: ts2) cid =
            entriesFor b.hashWildcard cid ++
              (childContrib
                (if ([43] : List Nat) = f then
                  some (((blockFind b.subBlocks f).getD Block.empty).topicsAdd fs2 cid info)
                 else blockFind b.subBlocks [43]) ts2 cid ++
               childContrib
                (if t = f then
                  some (((blockFind b.subBlocks f).getD Block.empty).topicsAdd fs2 cid info)
                 else blockFind b.subBlocks t) ts2 cid) := by
          show entriesFor b.hashWildcard cid ++
              (childContrib
                (blockFind (blockPut b.subBlocks f
                  (((blockFind b.subBlocks f).getD Block.empty).topicsAdd fs2 cid info))
                  [43]) ts2 cid ++
               childContrib
                (blockFind (blockPut b.subBlocks f
                  (((blockFind b.subBlocks f).getD Block.empty).topicsAdd fs2 cid info))
                  t) ts2 cid) = _
          rw [blockFind_put, blockFind_put]
        rw [hnc, contrib_cons_child, treeMatch_cons_cons f hf]
        by_cases h43 : ([43] : List Nat) = f
        · have hd1 : decide (f = [43]) = true := by
            rw [← h43]
            simp
          have hb : ((decide (f = [43]) || decide (f = t)) && treeMatch fs2 ts2) =
              treeMatch fs2 ts2 := by
            rw [hd1]
            simp
          have e43 : childContrib (blockFind b.subBlocks [43]) ts2 cid =
              contrib ((blockFind b.subBlocks f).getD Block.empty) ts2 cid := by
            rw [h43, childContrib_getD]
          rw [if_pos h43, hb]
          by_cases ht : t = f
          · have et : childContrib (blockFind b.subBlocks t) ts2 cid =
                contrib ((blockFind b.subBlocks f).getD Block.empty) ts2 cid := by
              rw [ht, childContrib_getD]
            rw [if_pos ht, childContrib_some, e43, et]
            cases htm : treeMatch fs2 ts2 with
            | true =>
              rw [htm] at ih1 ih2
              constructor
              · simp only [ne_eq, List.append_eq_nil]
                simp only [ne_eq] at ih1
                tauto
              · rw [if_pos rfl] at ih2 ⊢
                rw [qMaxL_append, qMaxL_append, qMaxL_append, qMaxL_append, ih2]
                omega
            | false =>
              rw [htm] at ih1 ih2
              constructor
              · simp only [ne_eq, List.append_eq_nil]
                simp only [ne_eq] at ih1
                tauto
              · rw [if_neg (by simp)] at ih2
                rw [if_neg (by simp)]
                rw [qMaxL_append, qMaxL_append, qMaxL_append, qMaxL_append, ih2]
          · rw [if_neg ht, childContrib_some, e43]
            cases htm : treeMatch fs2 ts2 with
            | true =>
              rw [htm] at ih1 ih2
              constructor
              · simp only [ne_eq, List.append_eq_nil]
                simp only [ne_eq] at ih1
                tauto
              · rw [if_pos rfl] at ih2 ⊢
                rw [qMaxL_append, qMaxL_append, qMaxL_append, qMaxL_append, ih2]
                omega
            | false =>
              rw [htm] at ih1 ih2
              constructor
              · simp only [ne_eq, List.append_eq_nil]
                simp only [ne_eq] at ih1
                tauto
              · rw [if_neg (by simp)] at ih2
                rw [if_neg (by simp)]
                rw [qMaxL_append, qMaxL_append, qMaxL_append, qMaxL_append, ih2]
        · have hd1 : decide (f = [43]) = false := by
            simp only [decide_eq_false_iff_not]
            exact fun hx => h43 hx.symm
          rw [if_neg h43]
          by_cases ht : t = f
          · have et : childContrib (blockFind b.subBlocks t) ts2 cid =
                contrib ((blockFind b.subBlocks f).getD Block.empty) ts2 cid := by
              rw [ht, childContrib_getD]
            have hd2 : decide (f = t) = true := by
              rw [ht]
              simp
            have hb : ((decide (f = [43]) || decide (f = t)) && treeMatch fs2 ts2) =
                treeMatch fs2 ts2 := by
              rw [hd1, hd2]
              simp
            rw [hb, if_pos ht, childContrib_some, et]
            cases htm : treeMatch fs2 ts2 with
            | true =>
              rw [htm] at ih1 ih2
              constructor
              · simp only [ne_eq, List.append_eq_nil]
                simp only [ne_eq] at ih1
                tauto
              · rw [if_pos rfl] at ih2 ⊢
                rw [qMaxL_append, qMaxL_append, qMaxL_append, qMaxL_append, ih2]
                omega
            | false =>
              rw [htm] at ih1 ih2
              constructor
              · simp only [ne_eq, List.append_eq_nil]
                simp only [ne_eq] at ih1
                tauto
              · rw [if_neg (by simp)] at ih2
                rw [if_neg (by simp)]
                rw [qMaxL_append, qMaxL_append, qMaxL_append, qMaxL_append, ih2]
          · have hd2 : decide (f = t) = false := by
              simp only [decide_eq_false_iff_not]
              exact fun hx => ht hx.symm
            have hb : ((decide (f = [43]) || decide (f = t)) && treeMatch fs2 ts2) =
                false := by
              rw [hd1, hd2]
              simp
            rw [if_neg ht, hb]
            constructor
            · simp
            · rw [if_neg (by simp)]

theorem notStored_topicsAdd (r2 : List (List Nat)) (b : Block) (fs : List (List Nat))
    (c cid : String) (info : SubscriptionInfo)
    (hns : notStored b fs c = true)
    (hd : c ≠ cid ∨ storedPath fs ≠ storedPath r2) :
    notStored (b.topicsAdd r2 cid info) fs c = true := by
  induction r2 generalizing b fs with
  | nil =>
    rw [topicsAdd_nil_def]
    cases fs with
    | nil =>
      show (subsLookup (subsInsert b.subscribers cid info) c).isNone = true
      have hc : c ≠ cid := by
        rcases hd with h | h
        · exact h
        · exact absurd rfl h
      rw [subsLookup_insert, if_neg hc]
      exact hns
    | cons f rest => exact hns
  | cons f2 r2tl ih =>
    rw [topicsAdd_cons_def]
    by_cases hf2 : f2 = [35]
    · rw [if_pos hf2]
      cases fs with
      | nil => exact hns
      | cons f rest =>
        by_cases hf : f = [35]
        · have hc : c ≠ cid := by
            rcases hd with h | h
            · exact h
            · exfalso
              apply h
              unfold storedPath
              rw [if_pos hf, if_pos hf2]
          unfold notStored
          rw [if_pos hf]
          show (subsLookup (subsInsert b.hashWildcard cid info) c).isNone = true
          rw [subsLookup_insert, if_neg hc]
          unfold notStored at hns
          rw [if_pos hf] at hns
          exact hns
        · unfold notStored
          rw [if_neg hf]
          unfold notStored at hns
          rw [if_neg hf] at hns
          exact hns
    · rw [if_neg hf2]
      cases fs with
      | nil => exact hns
      | cons f rest =>
        by_cases hf : f = [35]
        · unfold notStored
          rw [if_pos hf]
          unfold notStored at hns
          rw [if_pos hf] at hns
          exact hns
        · unfold notStored
          rw [if_neg hf]
          unfold notStored at hns
          rw [if_neg hf] at hns
          show (match blockFind (blockPut b.subBlocks f2
              (((blockFind b.subBlocks f2).getD Block.empty).topicsAdd r2tl cid info)) f with
            | none => true
            | some ch => notStored ch rest c) = true
          rw [blockFind_put]
          by_cases hff : f = f2
          · rw [if_pos hff]
            show notStored (((blockFind b.subBlocks f2).getD Block.empty).topicsAdd r2tl
                cid info) rest c = true
            have hd2 : c ≠ cid ∨ storedPath rest ≠ storedPath r2tl := by
              rcases hd with h | h
              · exact Or.inl h
              · right
                intro hx
                apply h
                unfold storedPath
                rw [if_neg hf, if_neg hf2, hx, hff]
            apply ih
            · rw [← hff]
              cases hbf : blockFind b.subBlocks f with
              | none => exact notStored_empty rest c
              | some ch0 =>
                rw [hbf] at hns
                exact hns
            · exact hd2
          · rw [if_neg hff]
            exact hns

theorem matchFold_shift (subs : List (String × List Nat × QoS × Nat)) (c : String)
    (ts : List (List Nat)) (a q0 : Nat) :
    subs.foldl
        (fun m s =>
          if s.1 = c ∧ treeMatch (topicToSubtopics s.2.1) ts = true then max m s.2.2.1.toNat
          else m) (max a q0) =
      max a (subs.foldl
        (fun m s =>
          if s.1 = c ∧ treeMatch (topicToSubtopics s.2.1) ts = true then max m s.2.2.1.toNat
          else m) q0) := by
  induction subs generalizing q0 with
  | nil => rfl
  | cons hd tl ih =>
    rw [List.foldl_cons, List.foldl_cons]
    by_cases hp : hd.1 = c ∧ treeMatch (topicToSubtopics hd.2.1) ts = true
    · rw [if_pos hp, if_pos hp, Nat.max_assoc, ih]
    · rw [if_neg hp, if_neg hp, ih]

theorem matchQMax_cons (s0 : String × List Nat × QoS × Nat)
    (tl : List (String × List Nat × QoS × Nat)) (c : String) (ts : List (List Nat)) :
    matchQMax (s0 :: tl) c ts =
      if s0.1 = c ∧ treeMatch (topicToSubtopics s0.2.1) ts = true then
        max s0.2.2.1.toNat (matchQMax tl c ts)
      else matchQMax tl c ts := by
  unfold matchQMax
  rw [List.foldl_cons]
  by_cases hp : s0.1 = c ∧ treeMatch (topicToSubtopics s0.2.1) ts = true
  · rw [if_pos hp, if_pos hp]
    show List.foldl _ (max 0 s0.2.2.1.toNat) tl = _
    rw [Nat.zero_max]
    conv_lhs => rw [show s0.2.2.1.toNat = max s0.2.2.1.toNat 0 from (Nat.max_zero _).symm]
    rw [matchFold_shift]
  · rw [if_neg hp, if_neg hp]

theorem subscribeAll_contrib (subs : List (String × List Nat × QoS × Nat))
    (t0 : TopicsTable) (ts : List (List Nat)) (c : String)
    (hf : ∀ s ∈ subs, notStored t0.rootBlock (topicToSubtopics s.2.1) s.1 = true)
    (hp : subs.Pairwise (fun s1 s2 => s1.1 ≠ s2.1 ∨
        storedPath (topicToSubtopics s1.2.1) ≠ storedPath (topicToSubtopics s2.2.1))) :
    (contrib (subscribeAll subs t0).rootBlock ts c ≠ [] ↔
      (contrib t0.rootBlock ts c ≠ [] ∨
        ∃ s ∈ subs, s.1 = c ∧ treeMatch (topicToSubtopics s.2.1) ts = true)) ∧
    qMaxL (contrib (subscribeAll subs t0).rootBlock ts c) =
      max (qMaxL (contrib t0.rootBlock ts c)) (matchQMax subs c ts) := by
  revert hf hp
  induction subs generalizing t0 with
  | nil =>
    intro hf hp
    constructor
    · show contrib t0.rootBlock ts c ≠ [] ↔ _
      constructor
      · intro h
        exact Or.inl h
      · rintro (h | ⟨s, hs, h1, h2⟩)
        · exact h
        · exact absurd hs (List.not_mem_nil s)
    · show qMaxL (contrib t0.rootBlock ts c) = max _ (matchQMax [] c ts)
      have h0 : matchQMax [] c ts = 0 := rfl
      rw [h0, Nat.max_zero]
  | cons s0 tl ih =>
    intro hf hp
    have hstep : subscribeAll (s0 :: tl) t0 =
        subscribeAll tl (t0.subscribe s0.1 s0.2.1 s0.2.2.1 s0.2.2.2) := rfl
    rw [hstep]
    have hroot : (t0.subscribe s0.1 s0.2.1 s0.2.2.1 s0.2.2.2).rootBlock =
        t0.rootBlock.topicsAdd (topicToSubtopics s0.2.1) s0.1 ⟨s0.2.2.1, s0.2.2.2⟩ := rfl
    have hf1 : ∀ s ∈ tl,
        notStored (t0.subscribe s0.1 s0.2.1 s0.2.2.1 s0.2.2.2).rootBlock
          (topicToSubtopics s.2.1) s.1 = true := by
      intro s hs
      rw [hroot]
      apply notStored_topicsAdd
      · exact hf s (List.mem_cons_of_mem _ hs)
      · rcases List.rel_of_pairwise_cons hp hs with h | h
        · exact Or.inl (fun hx => h hx.symm)
        · exact Or.inr (fun hx => h hx.symm)
    obtain ⟨k1, k2⟩ := ih (t0.subscribe s0.1 s0.2.1 s0.2.2.1 s0.2.2.2) hf1 hp.of_cons
    have hfr0 : notStored t0.rootBlock (topicToSubtopics s0.2.1) s0.1 = true :=
      hf s0 (List.mem_cons_self _ _)
    by_cases hc : c = s0.1
    · subst hc
      obtain ⟨p1, p2⟩ := topicsAdd_contrib (topicToSubtopics s0.2.1) t0.rootBlock ts s0.1
        ⟨s0.2.2.1, s0.2.2.2⟩ hfr0
      constructor
      · rw [k1, hroot, p1]
        simp only [List.mem_cons]
        constructor
        · rintro ((htm | hold) | ⟨s, hs, h1, h2⟩)
          · exact Or.inr ⟨s0, Or.inl rfl, rfl, htm⟩
          · exact Or.inl hold
          · exact Or.inr ⟨s, Or.inr hs, h1, h2⟩
        · rintro (hold | ⟨s, (rfl | hs), h1, h2⟩)
          · exact Or.inl (Or.inr hold)
          · exact Or.inl (Or.inl h2)
          · exact Or.inr ⟨s, hs, h1, h2⟩
      · rw [k2, hroot, p2, matchQMax_cons]
        by_cases htm : treeMatch (topicToSubtopics s0.2.1) ts = true
        · rw [if_pos htm, if_pos ⟨rfl, htm⟩]
          have hq : ({ qos := s0.2.2.1, flags := s0.2.2.2 } : SubscriptionInfo).qos.toNat =
              s0.2.2.1.toNat := rfl
          rw [hq]
          omega
        · rw [if_neg htm, if_neg (fun hx => htm hx.2)]
    · have hne : contrib (t0.subscribe s0.1 s0.2.1 s0.2.2.1 s0.2.2.2).rootBlock ts c =
          contrib t0.rootBlock ts c := by
        rw [hroot]
        exact topicsAdd_contrib_ne _ _ _ _ _ _ hc
      constructor
      · rw [k1, hne]
        simp only [List.mem_cons]
        constructor
        · rintro (hold | ⟨s, hs, h1, h2⟩)
          · exact Or.inl hold
          · exact Or.inr ⟨s, Or.inr hs, h1, h2⟩
        · rintro (hold | ⟨s, (rfl | hs), h1, h2⟩)
          · exact Or.inl hold
          · exact absurd h1.symm hc
          · exact Or.inr ⟨s, hs, h1, h2⟩
      · rw [k2, hne, matchQMax_cons]
        rw [if_neg (fun hx => hc hx.1.symm)]

theorem splitOnSlash_ne_nil (l : List Nat) : splitOnSlash l ≠ [] := by
  cases l with
  | nil => simp [splitOnSlash]
  | cons c rest =>
    unfold splitOnSlash
    by_cases h : c = 47
    · rw [if_pos h]
      simp
    · rw [if_neg h]
      cases splitOnSlash rest <;> simp

theorem splitOnSlash_no47 (l : List Nat) : ∀ e ∈ splitOnSlash l, 47 ∉ e := by
  induction l with
  | nil =>
    intro e he
    rw [show splitOnSlash [] = [[]] from rfl] at he
    rcases List.mem_cons.mp he with rfl | he2
    · simp
    · exact absurd he2 (List.not_mem_nil e)
  | cons c rest ih =>
    by_cases h47 : c = 47
    · have hs : splitOnSlash (c :: rest) = [] :: splitOnSlash rest := by
        rw [splitOnSlash, if_pos h47]
      rw [hs]
      intro e he
      rcases List.mem_cons.mp he with rfl | he2
      · simp
      · exact ih e he2
    · cases hsp : splitOnSlash rest with
      | nil => exact absurd hsp (splitOnSlash_ne_nil rest)
      | cons hd tl =>
        have hs : splitOnSlash (c :: rest) = (c :: hd) :: tl := by
          rw [splitOnSlash, if_neg h47, hsp]
        rw [hs]
        intro e he
        rcases List.mem_cons.mp he with rfl | he2
        · intro hmem
          rcases List.mem_cons.mp hmem with h1 | h2
          · exact h47 h1.symm
          · exact ih hd (by rw [hsp]; exact List.mem_cons_self _ _) h2
        · exact ih e (by rw [hsp]; exact List.mem_cons_of_mem _ he2)

theorem joinSlash_split (l : List Nat) : joinSlash (splitOnSlash l) = l := by
  induction l with
  | nil => rfl
  | cons c rest ih =>
    by_cases h47 : c = 47
    · have hs : splitOnSlash (c :: rest) = [] :: splitOnSlash rest := by
        rw [splitOnSlash, if_pos h47]
      rw [hs]
      cases hsp : splitOnSlash rest with
      | nil => exact absurd hsp (splitOnSlash_ne_nil rest)
      | cons hd tl =>
        show ([] : List Nat) ++ 47 :: joinSlash (hd :: tl) = c :: rest
        rw [List.nil_append, h47]
        rw [hsp] at ih
        rw [ih]
    · cases hsp : splitOnSlash rest with
      | nil => exact absurd hsp (splitOnSlash_ne_nil rest)
      | cons hd tl =>
        have hs : splitOnSlash (c :: rest) = (c :: hd) :: tl := by
          rw [splitOnSlash, if_neg h47, hsp]
        rw [hs]
        rw [hsp] at ih
        cases tl with
        | nil =>
          show c :: hd = c :: rest
          have hx : hd = rest := ih
          rw [hx]
        | cons t2 tl2 =>
          show (c :: hd) ++ 47 :: joinSlash (t2 :: tl2) = c :: rest
          have ih2 : hd ++ 47 :: joinSlash (t2 :: tl2) = rest := ih
          rw [List.cons_append, ih2]

theorem hashOnlyLast_tail (x : List Nat) (xs : List (List Nat))
    (h : hashOnlyLast (x :: xs) = true) : hashOnlyLast xs = true := by
  cases xs with
  | nil => rfl
  | cons y ys =>
    have h2 : (decide (x ≠ [35]) && hashOnlyLast (y :: ys)) = true := h
    rw [Bool.and_eq_true] at h2
    exact h2.2

theorem tts_def (l : List Nat) :
    ∃ h t, splitOnSlash l = h :: t ∧
      topicToSubtopics l = (if h = [] then [47] else h) :: t := by
  cases hsp : splitOnSlash l with
  | nil => exact absurd hsp (splitOnSlash_ne_nil l)
  | cons h t =>
    refine ⟨h, t, rfl, ?_⟩
    unfold topicToSubtopics
    rw [hsp]

theorem valid_hashOnlyLast (l : List Nat) : ∀ prev, isValidTopicLoop prev l = true →
    hashOnlyLast (splitOnSlash l) = true := by
  induction l with
  | nil =>
    intro prev hv
    rfl
  | cons c rest ih =>
    intro prev hv
    rw [isValidTopicLoop] at hv
    by_cases h35 : c = 35
    · rw [if_pos h35] at hv
      by_cases hcond : prev ≠ 47 ∨ rest ≠ []
      · rw [if_pos hcond] at hv
        exact absurd hv (by simp)
      · push_neg at hcond
        obtain ⟨hprev, hrest⟩ := hcond
        subst hrest
        subst h35
        rfl
    · rw [if_neg h35] at hv
      have hrest : isValidTopicLoop c rest = true := by
        by_cases h43 : c = 43
        · rw [if_pos h43] at hv
          by_cases hcond : prev ≠ 47 ∨ rest.headD 47 ≠ 47
          · rw [if_pos hcond] at hv
            exact absurd hv (by simp)
          · rw [if_neg hcond] at hv
            exact hv
        · rw [if_neg h43] at hv
          exact hv
      have ih2 := ih c hrest
      by_cases h47 : c = 47
      · have hs : splitOnSlash (c :: rest) = [] :: splitOnSlash rest := by
          rw [splitOnSlash, if_pos h47]
        rw [hs]
        cases hsp : splitOnSlash rest with
        | nil => exact absurd hsp (splitOnSlash_ne_nil rest)
        | cons hd tl =>
          rw [hsp] at ih2
          show (decide (([] : List Nat) ≠ [35]) && hashOnlyLast (hd :: tl)) = true
          rw [ih2]
          rfl
      · cases hsp : splitOnSlash rest with
        | nil => exact absurd hsp (splitOnSlash_ne_nil rest)
        | cons hd tl =>
          have hs : splitOnSlash (c :: rest) = (c :: hd) :: tl := by
            rw [splitOnSlash, if_neg h47, hsp]
          rw [hs]
          rw [hsp] at ih2
          cases tl with
          | nil => rfl
          | cons t2 tl2 =>
            show (decide (c :: hd ≠ [35]) && hashOnlyLast (t2 :: tl2)) = true
            have h1 : hashOnlyLast (t2 :: tl2) = true := hashOnlyLast_tail _ _ ih2
            have h2 : decide (c :: hd ≠ [35]) = true := by
              simp only [decide_eq_true_eq]
              intro hx
              injection hx with hc hx2
              exact h35 hc
            rw [h1, h2]
            rfl

theorem matchLevels_hash (fs2 ts : List (List Nat)) :
    matchLevels ([35] :: fs2) ts = fs2.isEmpty := by
  cases ts with
  | nil => rfl
  | cons t ts2 => rfl

theorem matchLevels_cons_nil (f : List Nat) (hf : f ≠ [35]) (fs2 : List (List Nat)) :
    matchLevels (f :: fs2) [] = false := by
  conv_lhs => rw [matchLevels]
  rw [if_neg hf]

theorem matchLevels_cons_cons (f : List Nat) (hf : f ≠ [35]) (fs2 : List (List Nat))
    (t : List Nat) (ts2 : List (List Nat)) :
    matchLevels (f :: fs2) (t :: ts2) =
      ((decide (f = [43]) || decide (f = t)) && matchLevels fs2 ts2) := by
  conv_lhs => rw [matchLevels]
  rw [if_neg hf]

theorem treeMatch_eq_matchLevels (fs : List (List Nat)) :
    hashOnlyLast fs = true → ∀ ts, treeMatch fs ts = matchLevels fs ts := by
  induction fs with
  | nil =>
    intro h ts
    cases ts with
    | nil => rfl
    | cons t ts2 => rfl
  | cons f fs2 ih =>
    intro h ts
    by_cases hf : f = [35]
    · subst hf
      have hfs2 : fs2 = [] := by
        cases fs2 with
        | nil => rfl
        | cons g gs =>
          have h2 : (decide (([35] : List Nat) ≠ [35]) && hashOnlyLast (g :: gs)) = true := h
          rw [show decide (([35] : List Nat) ≠ [35]) = false from rfl] at h2
          exact absurd h2 (by simp)
      subst hfs2
      rw [treeMatch_hash, matchLevels_hash]
      rfl
    · cases ts with
      | nil => rw [treeMatch_cons_nil f hf, matchLevels_cons_nil f hf]
      | cons t ts2 =>
        rw [treeMatch_cons_cons f hf, matchLevels_cons_cons f hf,
            ih (hashOnlyLast_tail f fs2 h) ts2]

theorem rename_head_treeMatch (f0 t0 : List Nat) (fr tr : List (List Nat))
    (h47f : 47 ∉ f0) (h47t : 47 ∉ t0) :
    treeMatch ((if f0 = [] then [47] else f0) :: fr)
        ((if t0 = [] then [47] else t0) :: tr) =
      treeMatch (f0 :: fr) (t0 :: tr) := by
  by_cases hf0 : f0 = []
  · rw [if_pos hf0]
    subst hf0
    have h35a : ([47] : List Nat) ≠ [35] := by decide
    have h35b : ([] : List Nat) ≠ [35] := by decide
    rw [treeMatch_cons_cons _ h35a, treeMatch_cons_cons _ h35b]
    by_cases ht0 : t0 = []
    · rw [if_pos ht0]
      subst ht0
      rfl
    · rw [if_neg ht0]
      have e2 : decide (([47] : List Nat) = t0) = false := by
        simp only [decide_eq_false_iff_not]
        intro hx
        rw [← hx] at h47t
        exact h47t (by simp)
      have e4 : decide (([] : List Nat) = t0) = false := by
        simp only [decide_eq_false_iff_not]
        exact fun hx => ht0 hx.symm
      rw [e2, e4]
      rfl
  · rw [if_neg hf0]
    by_cases hf35 : f0 = [35]
    · rw [hf35, treeMatch_hash, treeMatch_hash]
    · rw [treeMatch_cons_cons _ hf35, treeMatch_cons_cons _ hf35]
      by_cases ht0 : t0 = []
      · rw [if_pos ht0]
        subst ht0
        have e2 : decide (f0 = [47]) = false := by
          simp only [decide_eq_false_iff_not]
          intro hx
          rw [hx] at h47f
          exact h47f (by simp)
        have e4 : decide (f0 = ([] : List Nat)) = false := by
          simp only [decide_eq_false_iff_not]
          exact hf0
        rw [e2, e4]
      · rw [if_neg ht0]

theorem storedPath_eq (l : List (List Nat)) : hashOnlyLast l = true →
    storedPath l = l := by
  induction l with
  | nil =>
    intro h
    rfl
  | cons x xs ih =>
    intro h
    by_cases hx : x = [35]
    · subst hx
      cases xs with
      | nil => rfl
      | cons y ys =>
        have h2 : (decide (([35] : List Nat) ≠ [35]) && hashOnlyLast (y :: ys)) = true := h
        rw [show decide (([35] : List Nat) ≠ [35]) = false from rfl] at h2
        exact absurd h2 (by simp)
    · show (if x = [35] then [[35]] else x :: storedPath xs) = x :: xs
      rw [if_neg hx, ih (hashOnlyLast_tail x xs h)]

theorem hashOnlyLast_tts (f : List Nat) (hv : isValidTopic f = true) :
    hashOnlyLast (topicToSubtopics f) = true := by
  obtain ⟨f0, fr, hsf, htf⟩ := tts_def f
  have h := valid_hashOnlyLast f 47 hv
  rw [htf]
  rw [hsf] at h
  by_cases hf0 : f0 = []
  · rw [if_pos hf0]
    subst hf0
    cases fr with
    | nil => rfl
    | cons y ys =>
      show (decide (([47] : List Nat) ≠ [35]) && hashOnlyLast (y :: ys)) = true
      rw [hashOnlyLast_tail _ _ h]
      rfl
  · rw [if_neg hf0]
    exact h

theorem topicToSubtopics_inj (f g : List Nat)
    (h : topicToSubtopics f = topicToSubtopics g) : f = g := by
  obtain ⟨f0, fr, hsf, htf⟩ := tts_def f
  obtain ⟨g0, gr, hsg, htg⟩ := tts_def g
  rw [htf, htg, List.cons.injEq] at h
  obtain ⟨hh, htl⟩ := h
  have hf47 : 47 ∉ f0 := splitOnSlash_no47 f f0 (by rw [hsf]; exact List.mem_cons_self _ _)
  have hg47 : 47 ∉ g0 := splitOnSlash_no47 g g0 (by rw [hsg]; exact List.mem_cons_self _ _)
  have hheads : f0 = g0 := by
    by_cases hf0 : f0 = [] <;> by_cases hg0 : g0 = []
    · rw [hf0, hg0]
    · rw [if_pos hf0, if_neg hg0] at hh
      rw [← hh] at hg47
      exact absurd (by simp : (47 : Nat) ∈ [47]) hg47
    · rw [if_neg hf0, if_pos hg0] at hh
      rw [hh] at hf47
      exact absurd (by simp : (47 : Nat) ∈ [47]) hf47
    · rw [if_neg hf0, if_neg hg0] at hh
      exact hh
  have hsplit : splitOnSlash f = splitOnSlash g := by rw [hsf, hsg, hheads, htl]
  have hj : joinSlash (splitOnSlash f) = joinSlash (splitOnSlash g) := by rw [hsplit]
  rw [joinSlash_split, joinSlash_split] at hj
  exact hj

theorem treeMatch_tts (f t : List Nat) (hv : isValidTopic f = true) :
    treeMatch (topicToSubtopics f) (topicToSubtopics t) = filterMatches f t := by
  obtain ⟨f0, fr, hsf, htf⟩ := tts_def f
  obtain ⟨t0, tr, hst, htt⟩ := tts_def t
  have hf47 : 47 ∉ f0 := splitOnSlash_no47 f f0 (by rw [hsf]; exact List.mem_cons_self _ _)
  have ht47 : 47 ∉ t0 := splitOnSlash_no47 t t0 (by rw [hst]; exact List.mem_cons_self _ _)
  rw [htf, htt, rename_head_treeMatch f0 t0 fr tr hf47 ht47]
  unfold filterMatches
  rw [hsf, hst]
  have hhol : hashOnlyLast (f0 :: fr) = true := by
    have h := valid_hashOnlyLast f 47 hv
    rw [hsf] at h
    exact h
  exact treeMatch_eq_matchLevels (f0 :: fr) hhol (t0 :: tr)

theorem matchQMax_spec_aux (c : String) (t : List Nat)
    (subs : List (String × List Nat × QoS × Nat)) :
    (∀ s ∈ subs, isValidTopic s.2.1 = true) → ∀ a : Nat,
    subs.foldl
        (fun m s =>
          if s.1 = c ∧ treeMatch (topicToSubtopics s.2.1) (topicToSubtopics t) = true
          then max m s.2.2.1.toNat else m) a =
      (subs.filter (fun s => decide (s.1 = c) && filterMatches s.2.1 t)).foldl
        (fun m s => max m s.2.2.1.toNat) a := by
  induction subs with
  | nil =>
    intro hv a
    rfl
  | cons hd tl ih =>
    intro hv a
    rw [List.foldl_cons, List.filter_cons]
    by_cases hp : hd.1 = c ∧ treeMatch (topicToSubtopics hd.2.1) (topicToSubtopics t) = true
    · have hcond : (decide (hd.1 = c) && filterMatches hd.2.1 t) = true := by
        rw [Bool.and_eq_true]
        refine ⟨by simp [hp.1], ?_⟩
        rw [← treeMatch_tts hd.2.1 t (hv hd (List.mem_cons_self _ _))]
        exact hp.2
      rw [if_pos hp, if_pos hcond, List.foldl_cons]
      exact ih (fun s hs => hv s (List.mem_cons_of_mem _ hs)) _
    · have hcond : (decide (hd.1 = c) && filterMatches hd.2.1 t) = false := by
        cases hb : (decide (hd.1 = c) && filterMatches hd.2.1 t) with
        | false => rfl
        | true =>
          exfalso
          rw [Bool.and_eq_true] at hb
          refine hp ⟨by simpa using hb.1, ?_⟩
          rw [treeMatch_tts hd.2.1 t (hv hd (List.mem_cons_self _ _))]
          exact hb.2
      rw [if_neg hp, if_neg (by rw [hcond]; simp)]
      exact ih (fun s hs => hv s (List.mem_cons_of_mem _ hs)) _

theorem matchQMax_eq_spec (subs : List (String × List Nat × QoS × Nat)) (c : String)
    (t : List Nat) (hv : ∀ s ∈ subs, isValidTopic s.2.1 = true) :
    matchQMax subs c (topicToSubtopics t) =
      (subs.filter (fun s => decide (s.1 = c) && filterMatches s.2.1 t)).foldl
        (fun m s => max m s.2.2.1.toNat) 0 := by
  unfold matchQMax
  exact matchQMax_spec_aux c t subs hv 0

/-- C1: after inserting any finite set of subscriptions with valid filters and
pairwise-distinct `(clientId, filter)` pairs through `TopicsTable::subscribe`,
`get_all_subscribed(t)` contains a client exactly when one of its filters
matches `t` under MQTT v5 semantics (`+` one level, trailing `#` any
remainder), and the QoS returned for such a client is the maximum QoS over all
of its matching filters. -/
theorem C1_subscription_matching
    (subs : List (String × List Nat × QoS × Nat)) (t : List Nat) (c : String)
    (hv : ∀ s ∈ subs, isValidTopic s.2.1 = true)
    (hdis : subs.Pairwise (fun s1 s2 => (s1.1, s1.2.1) ≠ (s2.1, s2.2.1))) :
    ((subsLookup ((subscribeAll subs TopicsTable.new).getAllSubscribed t) c).isSome =
        true ↔
      ∃ s ∈ subs, s.1 = c ∧ filterMatches s.2.1 t = true) ∧
    (∀ info, subsLookup ((subscribeAll subs TopicsTable.new).getAllSubscribed t) c =
        some info →
      info.qos.toNat =
        (subs.filter (fun s => decide (s.1 = c) && filterMatches s.2.1 t)).foldl
          (fun m s => max m s.2.2.1.toNat) 0) := by
  have hp : subs.Pairwise (fun s1 s2 => s1.1 ≠ s2.1 ∨
      storedPath (topicToSubtopics s1.2.1) ≠ storedPath (topicToSubtopics s2.2.1)) := by
    refine hdis.imp_of_mem ?_
    intro s1 s2 h1 h2 hne
    by_cases hcid : s1.1 = s2.1
    · right
      rw [storedPath_eq _ (hashOnlyLast_tts _ (hv s1 h1)),
          storedPath_eq _ (hashOnlyLast_tts _ (hv s2 h2))]
      intro hx
      exact hne (by rw [hcid, topicToSubtopics_inj _ _ hx])
    · exact Or.inl hcid
  have hfnew : ∀ s ∈ subs, notStored TopicsTable.new.rootBlock
      (topicToSubtopics s.2.1) s.1 = true := fun s _ => notStored_empty _ _
  obtain ⟨K1, K2⟩ := subscribeAll_contrib subs TopicsTable.new (topicToSubtopics t) c
    hfnew hp
  have hroot0 : TopicsTable.new.rootBlock = Block.empty := rfl
  rw [hroot0, contrib_empty] at K1 K2
  have hL : subsLookup ((subscribeAll subs TopicsTable.new).getAllSubscribed t) c =
      (contrib (subscribeAll subs TopicsTable.new).rootBlock (topicToSubtopics t) c).foldl
        mergeOne none := by
    show subsLookup ((subscribeAll subs TopicsTable.new).rootBlock.collectSubs []
        (topicToSubtopics t)) c = _
    rw [collectSubs_lookup]
    rfl
  have hex : (∃ s ∈ subs, s.1 = c ∧
      treeMatch (topicToSubtopics s.2.1) (topicToSubtopics t) = true) ↔
      (∃ s ∈ subs, s.1 = c ∧ filterMatches s.2.1 t = true) := by
    constructor
    · rintro ⟨s, hs, h1, h2⟩
      exact ⟨s, hs, h1, by rw [← treeMatch_tts s.2.1 t (hv s hs)]; exact h2⟩
    · rintro ⟨s, hs, h1, h2⟩
      exact ⟨s, hs, h1, by rw [treeMatch_tts s.2.1 t (hv s hs)]; exact h2⟩
  constructor
  · rw [hL, foldl_mergeOne_isSome]
    show (false || decide (contrib _ _ c ≠ [])) = true ↔ _
    rw [Bool.false_or, decide_eq_true_eq, K1]
    constructor
    · rintro (hbad | hex2)
      · exact absurd rfl hbad
      · exact hex.mp hex2
    · intro h2
      exact Or.inr (hex.mpr h2)
  · intro info hinfo
    have hmq : mq (some info) =
        qMaxL (contrib (subscribeAll subs TopicsTable.new).rootBlock
          (topicToSubtopics t) c) := by
      rw [← hinfo, hL, foldl_mergeOne_mq]
      show max (mq none) _ = _
      rw [show mq none = 0 from rfl, Nat.zero_max]
    have hq : info.qos.toNat = matchQMax subs c (topicToSubtopics t) := by
      have h2 := hmq
      rw [K2, show qMaxL [] = 0 from rfl, Nat.zero_max] at h2
      exact h2
    rw [hq]
    exact matchQMax_eq_spec subs c t hv

theorem C1_subscription_matching_witness :
    ((subsLookup ((subscribeAll
        [("alice", [97, 47, 43], QoS.qoS1, 0), ("alice", [97, 47, 35], QoS.qoS2, 1),
         ("bob", [98], QoS.qoS0, 0)] TopicsTable.new).getAllSubscribed
        [97, 47, 98]) "alice").isSome = true ↔
      ∃ s ∈ [("alice", [97, 47, 43], QoS.qoS1, 0), ("alice", [97, 47, 35], QoS.qoS2, 1),
          ("bob", [98], QoS.qoS0, 0)],
        s.1 = "alice" ∧ filterMatches s.2.1 [97, 47, 98] = true) ∧
    (∀ info, subsLookup ((subscribeAll
        [("alice", [97, 47, 43], QoS.qoS1, 0), ("alice", [97, 47, 35], QoS.qoS2, 1),
         ("bob", [98], QoS.qoS0, 0)] TopicsTable.new).getAllSubscribed
        [97, 47, 98]) "alice" = some info →
      info.qos.toNat =
        ([("alice", [97, 47, 43], QoS.qoS1, 0), ("alice", [97, 47, 35], QoS.qoS2, 1),
          ("bob", [98], QoS.qoS0, 0)].filter
            (fun s => decide (s.1 = "alice") && filterMatches s.2.1 [97, 47, 98])).foldl
          (fun m s => max m s.2.2.1.toNat) 0) :=
  C1_subscription_matching
    [("alice", [97, 47, 43], QoS.qoS1, 0), ("alice", [97, 47, 35], QoS.qoS2, 1),
     ("bob", [98], QoS.qoS0, 0)] [97, 47, 98] "alice" (by decide) (by decide)

/-- `SubAckReasonCode` (`packet/src/reason.rs` lines 296-309). -/
inductive SubAckReasonCode where
  | grantedQoS0
  | grantedQoS1
  | grantedQoS2
  | unspecifiedError
  | implementationSpecificError
  | notAuthorized
  | topicFilterInvalid
  | packetIdentifierInUse
  | quotaExceeded
  | sharedSubscriptionsNotSupported
  | subscriptionIdentifiersNotSupported
  | wildcardSubscriptionsNotSupported
deriving DecidableEq, Repr

/-- `RetainHandling` (`packet/src/subscribe.rs` lines 17-21). -/
inductive RetainHandling where
  | send
  | sendIfNotExisting
  | doNotSend
deriving DecidableEq, Repr

/-- `SubscriptionOptions` wire bits (`packet/src/subscribe.rs` lines 33-43). -/
def SubOptQOS1 : Nat := 1

/-- `SubscriptionOptions::QOS2`. -/
def SubOptQOS2 : Nat := 2

/-- `SubscriptionOptions::NO_LOCAL`. -/
def SubOptNO_LOCAL : Nat := 4

/-- `SubscriptionOptions::RETAIN_AS_PUBLISHED`. -/
def SubOptRETAIN_AS_PUBLISHED : Nat := 8

/-- `SubscriptionOptions::RETAIN_HANDLING1`. -/
def SubOptRETAIN_HANDLING1 : Nat := 16

/-- `SubscriptionOptions::RETAIN_HANDLING2`. -/
def SubOptRETAIN_HANDLING2 : Nat := 32

/-- `TryInto<QoS> for SubscriptionOptions` (`packet/src/subscribe.rs` lines
95-108): both QoS bits set is `BadQoS`, otherwise the set bit picks the level. -/
def optionsToQoS (o : Nat) : Except DataParseError QoS :=
  if o &&& 3 = 3 then .error .badQoS
  else if o &&& 3 = 1 then .ok .qoS1
  else if o &&& 3 = 2 then .ok .qoS2
  else .ok .qoS0

/-- `TryInto<RetainHandling> for SubscriptionOptions`
(`packet/src/subscribe.rs` lines 76-93). -/
def optionsToRetainHandling (o : Nat) : Except DataParseError RetainHandling :=
  if o &&& 48 = 48 then .error .badRetainHandle
  else if o &&& 48 = 16 then .ok .sendIfNotExisting
  else if o &&& 48 = 32 then .ok .doNotSend
  else .ok .send

/-- `SubscriptionOptions::deserialize` (`packet/src/subscribe.rs` lines
51-60): read one byte, reject undefined bits (`from_bits` returns `None`,
mapped to `BadConnectMessage`), then sanity-check the QoS and retain-handling
fields. -/
def subOptionsDeserialize (buf : List Nat) : Except DataParseError (Nat × List Nat) :=
  match buf with
  | [] => .error (.insufficientBuffer 1 0)
  | b :: rest =>
    let raw := b % 256
    if raw &&& 63 ≠ raw then .error .badConnectMessage
    else
      match optionsToQoS raw with
      | .error e => .error e
      | .ok _ =>
        match optionsToRetainHandling raw with
        | .error e => .error e
        | .ok _ => .ok (raw, rest)

/-- The `SubscriptionFlags` accumulated by `Dispatcher::process_subscribe`
(`server-lib/src/dispatcher.rs` lines 173-178). -/
def subscribeFlagsOf (options : Nat) : Nat :=
  (if options &&& SubOptNO_LOCAL ≠ 0 then SubFlagNO_LOCAL else 0) +
  (if options &&& SubOptRETAIN_AS_PUBLISHED ≠ 0 then SubFlagRETAIN_AS_PUBLISHED else 0)

/-- The `for (topic, options) in sub.topics_iter()` loop of
`Dispatcher::process_subscribe` (`server-lib/src/dispatcher.rs` lines
156-187): `(*options).try_into()?` failures abort the whole call; a QoS above
QoS0 or a retain handling other than `DoNotSend` append
`ImplementationSpecificError` and skip the entry; otherwise the filter is
inserted via `TopicsTable::subscribe` and the granted-QoS code (here always
`GrantedQoS0`) is appended. -/
def processSubscribeTopics (tt : TopicsTable) (client : String)
    (topics : List (List Nat × Nat)) (codes : List SubAckReasonCode) :
    Except DataParseError (TopicsTable × List SubAckReasonCode) :=
  match topics with
  | [] => .ok (tt, codes)
  | (topic, options) :: rest =>
    match optionsToQoS options with
    | .error e => .error e
    | .ok q =>
      match q with
      | .qoS0 =>
        match optionsToRetainHandling options with
        | .error e => .error e
        | .ok rh =>
          match rh with
          | .doNotSend =>
            processSubscribeTopics
              (tt.subscribe client topic q (subscribeFlagsOf options)) client rest
              (codes ++ [.grantedQoS0])
          | _ =>
            processSubscribeTopics tt client rest
              (codes ++ [.implementationSpecificError])
      | _ =>
        processSubscribeTopics tt client rest
          (codes ++ [.implementationSpecificError])

/-- Outcome of `Dispatcher::process_subscribe`: normal completion with the new
table and the SUBACK reason codes, the graceful `self.unimplemented` error, or
a propagated parse error. -/
inductive SubscribeOutcome where
  | done (tt : TopicsTable) (codes : List SubAckReasonCode)
  | unimplementedErr
  | parseErr (e : DataParseError)

/-- `Dispatcher::process_subscribe` (`server-lib/src/dispatcher.rs` lines
135-196): a `SubscriptionIdentifier` property aborts with the
`self.unimplemented` error, then the topic loop runs. -/
def processSubscribe (tt : TopicsTable) (client : String) (props : List Property)
    (topics : List (List Nat × Nat)) : SubscribeOutcome :=
  if props.any (fun k => decide (k = Property.subscriptionIdentifier)) then
    .unimplementedErr
  else
    match processSubscribeTopics tt client topics [] with
    | .error e => .parseErr e
    | .ok (tt2, codes) => .done tt2 codes

/-- Outcome of `Dispatcher::process_publish`: delivery completed (with the
clients the message was sent to, in iteration order), the graceful
`self.unimplemented` error, or the `unimplemented!()` panic. -/
inductive PublishOutcome where
  | delivered (sent : List String)
  | unimplementedErr
  | panic
deriving DecidableEq, Repr

/-- `PublishFlags` wire bits (`apiformes/src/packets/publish.rs` lines 13-20). -/
def PubFlagRETAIN : Nat := 1

/-- `PublishFlags::QOS1`. -/
def PubFlagQOS1 : Nat := 2

/-- `PublishFlags::QOS2`. -/
def PubFlagQOS2 : Nat := 4

/-- `PublishFlags::DUP`. -/
def PubFlagDUP : Nat := 8

/-- `TryInto<QoS> for PublishFlags` (`apiformes/src/packets/publish.rs` lines
51-64), used by `Publish::qos`. -/
def publishQoSOf (flags : Nat) : Except DataParseError QoS :=
  if flags &&& 6 = 6 then .error .badQoS
  else if flags &&& 6 = 2 then .ok .qoS1
  else if flags &&& 6 = 4 then .ok .qoS2
  else .ok .qoS0

/-- The delivery loop of `Dispatcher::process_publish`
(`server-lib/src/dispatcher.rs` lines 110-131): skip the publisher itself when
`NO_LOCAL` is set; `RETAIN_AS_PUBLISHED` on a matching subscription hits
`unimplemented!()`; a connected subscriber at QoS0 is sent the message, any
other QoS hits `unimplemented!()`. -/
def deliverLoop (client : String) (connected : List String)
    (subs : List (String × SubscriptionInfo)) (sent : List String) : PublishOutcome :=
  match subs with
  | [] => .delivered sent
  | (target, info) :: rest =>
    if target = client ∧ info.flags &&& SubFlagNO_LOCAL ≠ 0 then
      deliverLoop client connected rest sent
    else if info.flags &&& SubFlagRETAIN_AS_PUBLISHED ≠ 0 then .panic
    else if target ∈ connected then
      match info.qos with
      | .qoS0 => deliverLoop client connected rest (sent ++ [target])
      | _ => .panic
    else deliverLoop client connected rest sent

/-- `Dispatcher::process_publish` (`server-lib/src/dispatcher.rs` lines
52-133): QoS1/QoS2 publishes and the DUP or RETAIN flags take the graceful
`self.unimplemented` path, as do the `MessageExpiryInterval`, `TopicAlias` and
`SubscriptionIdentifier` properties; otherwise every subscription returned by
`get_all_subscribed` is delivered to. -/
def processPublish (client : String) (connected : List String) (tt : TopicsTable)
    (topic : List Nat) (flags : Nat) (props : List Property) : PublishOutcome :=
  match publishQoSOf flags with
  | .error _ => .panic
  | .ok q =>
    match q with
    | .qoS0 =>
      if flags &&& (PubFlagDUP + PubFlagRETAIN) ≠ 0 then .unimplementedErr
      else if props.any (fun k => decide (k = Property.messageExpiryInterval) ||
          decide (k = Property.topicAlias) ||
          decide (k = Property.subscriptionIdentifier)) then
        .unimplementedErr
      else deliverLoop client connected (tt.getAllSubscribed topic) []
    | _ => .unimplementedErr

/-- C7 counterexample: the options byte `0x28` requests
`RETAIN_AS_PUBLISHED` — an option whose delivery path is `unimplemented!()` —
together with retain handling `DoNotSend`; the claim requires such an
unsupported option to be answered with `ImplementationSpecificError` and not
inserted, but `process_subscribe` grants the entry and inserts the filter. -/
theorem C7_counterexample :
    processSubscribeTopics TopicsTable.new "alice"
        [([97], SubOptRETAIN_AS_PUBLISHED + SubOptRETAIN_HANDLING2)] [] =
      .ok (TopicsTable.new.subscribe "alice" [97] QoS.qoS0 SubFlagRETAIN_AS_PUBLISHED,
           [SubAckReasonCode.grantedQoS0]) ∧
    subsLookup ((TopicsTable.new.subscribe "alice" [97] QoS.qoS0
        SubFlagRETAIN_AS_PUBLISHED).getAllSubscribed [97]) "alice" =
      some ⟨QoS.qoS0, SubFlagRETAIN_AS_PUBLISHED⟩ := by
  constructor
  · rfl
  · rfl

/-- C7 (amended: the dispatcher validates only the requested QoS and the
retain-handling field; other options such as `NO_LOCAL` and
`RETAIN_AS_PUBLISHED` are accepted and stored): for each `(filter, options)`
entry, a parse error in the options aborts the call; a requested QoS above
QoS0, or a retain handling other than `DoNotSend`, appends
`ImplementationSpecificError` and leaves the index unchanged; otherwise the
filter is inserted for the client via `TopicsTable::subscribe` and
`GrantedQoS0` is appended. -/
theorem C7_subscribe_validation (tt : TopicsTable) (client : String)
    (topic : List Nat) (options : Nat) (rest : List (List Nat × Nat))
    (codes : List SubAckReasonCode) :
    (∀ q, optionsToQoS options = .ok q → q ≠ QoS.qoS0 →
      processSubscribeTopics tt client ((topic, options) :: rest) codes =
        processSubscribeTopics tt client rest
          (codes ++ [SubAckReasonCode.implementationSpecificError])) ∧
    (∀ rh, optionsToQoS options = .ok QoS.qoS0 →
      optionsToRetainHandling options = .ok rh → rh ≠ RetainHandling.doNotSend →
      processSubscribeTopics tt client ((topic, options) :: rest) codes =
        processSubscribeTopics tt client rest
          (codes ++ [SubAckReasonCode.implementationSpecificError])) ∧
    (optionsToQoS options = .ok QoS.qoS0 →
      optionsToRetainHandling options = .ok RetainHandling.doNotSend →
      processSubscribeTopics tt client ((topic, options) :: rest) codes =
        processSubscribeTopics
          (tt.subscribe client topic QoS.qoS0 (subscribeFlagsOf options)) client rest
          (codes ++ [SubAckReasonCode.grantedQoS0])) := by
  refine ⟨?_, ?_, ?_⟩
  · intro q hq hne
    conv_lhs => rw [processSubscribeTopics]
    rw [hq]
    cases q with
    | qoS0 => exact absurd rfl hne
    | qoS1 => rfl
    | qoS2 => rfl
  · intro rh h0 hrh hne
    conv_lhs => rw [processSubscribeTopics]
    rw [h0, hrh]
    cases rh with
    | doNotSend => exact absurd rfl hne
    | send => rfl
    | sendIfNotExisting => rfl
  · intro h0 hrh
    conv_lhs => rw [processSubscribeTopics]
    rw [h0, hrh]

theorem C7_subscribe_validation_witness :
    processSubscribeTopics TopicsTable.new "alice" [([98], 32)] [] =
      processSubscribeTopics
        (TopicsTable.new.subscribe "alice" [98] QoS.qoS0 (subscribeFlagsOf 32))
        "alice" [] ([] ++ [SubAckReasonCode.grantedQoS0]) :=
  (C7_subscribe_validation TopicsTable.new "alice" [98] 32 [] []).2.2 rfl rfl

/-- C8: the spec requires an empty topic filter to be rejected on subscribe
and an empty publish topic to match nothing, but
`TopicsTable::subscribe` has no empty-filter check: subscribing the empty
filter records it in the reverse index and inserts the client at the node
`topic_to_subtopics` maps the empty string to, and `get_all_subscribed` of the
empty topic then returns that client. -/
theorem C8_empty_filter_inserted :
    subsLookup ((TopicsTable.new.subscribe "alice" [] QoS.qoS0 0).getAllSubscribed [])
        "alice" = some ⟨QoS.qoS0, 0⟩ ∧
    (TopicsTable.new.subscribe "alice" [] QoS.qoS0 0).reverseIndex ≠
      TopicsTable.new.reverseIndex := by
  constructor
  · rfl
  · decide

/-- C9: a client-reachable panic: the options byte `0x28`
(`RETAIN_AS_PUBLISHED | RETAIN_HANDLING2`) deserializes successfully,
`process_subscribe` accepts it — storing the `RETAIN_AS_PUBLISHED` flag and
answering `GrantedQoS0` — and a subsequent matching publish reaches the
`unimplemented!()` macro in `process_publish`'s delivery loop. -/
theorem C9_publish_panic_reachable :
    subOptionsDeserialize [SubOptRETAIN_AS_PUBLISHED + SubOptRETAIN_HANDLING2] =
      .ok (40, []) ∧
    processSubscribe TopicsTable.new "bob" []
        [([97], SubOptRETAIN_AS_PUBLISHED + SubOptRETAIN_HANDLING2)] =
      .done (TopicsTable.new.subscribe "bob" [97] QoS.qoS0 SubFlagRETAIN_AS_PUBLISHED)
        [SubAckReasonCode.grantedQoS0] ∧
    processPublish "alice" ["alice", "bob"]
        (TopicsTable.new.subscribe "bob" [97] QoS.qoS0 SubFlagRETAIN_AS_PUBLISHED)
        [97] 0 [] = .panic := by
  refine ⟨rfl, rfl, ?_⟩
  rfl

/-- The flattening of a property table into `(key, value)` pairs, in
iteration order (`Properties::iter`, `packet/src/props.rs` lines 110-115). -/
def propsPairs : List (Property × List MqttPropValue) → List (Property × MqttPropValue)
  | [] => []
  | (k, vs) :: rest => vs.map (fun v => (k, v)) ++ propsPairs rest

/-- The bytes of the serialized `(key, value)` pairs: each key as a
variable byte int (`Property::serialize`), then the value. -/
def propPairsSerialize : List (Property × MqttPropValue) → List Nat
  | [] => []
  | (k, v) :: rest => vbiSerialize k.code ++ v.vserialize ++ propPairsSerialize rest

/-- The byte count the pairs contribute (`key.size() + value.size()` summed). -/
def propPairsSize : List (Property × MqttPropValue) → Nat
  | [] => 0
  | (k, v) :: rest => k.psize + v.vsize + propPairsSize rest

/-- `Properties::serialize` (`packet/src/props.rs` lines 119-127): the
stored `size` as a variable byte int, then the pairs. -/
def Properties.serializeBytes (p : Properties) : List Nat :=
  vbiSerialize p.psize ++ propPairsSerialize (propsPairs p.props)

/-- `Properties::size` (`packet/src/props.rs` lines 141-143). -/
def Properties.sizeTotal (p : Properties) : Nat := vbiSize p.psize + p.psize

/-- Values as `MqttPropValue`'s constructors produce them: integers within
their machine width, strings accepted by `MqttUtf8String::new`, data within
the binary bound, `VarInt` values accepted by `MqttVariableBytesInt::new`. -/
def MqttPropValue.wf : MqttPropValue → Prop
  | .bool i => i < 256
  | .byte i => i < 256
  | .fourBytesInt i => i < 4294967296
  | .string s => stringWF s
  | .stringPair k v => stringWF k ∧ stringWF v
  | .data d => binaryValid d
  | .varInt i => vbiValid i
  | .twoBytesInt i => i < 65536

/-- Tables as maintained by the insert operations: the stored `size` is
the byte count of the pairs, it is in variable-byte-int range, and every
value is well formed. -/
def Properties.wfSize (p : Properties) : Prop :=
  p.psize = propPairsSize (propsPairs p.props) ∧ vbiValid p.psize ∧
    ∀ kv ∈ propsPairs p.props, kv.2.wf

/-- `ConnAck` (`packet/src/connack.rs` lines 34-41); the flags byte and the
reason code are carried as their wire byte. -/
structure ConnAckPkt where
  flags : Nat
  reasonCode : Nat
  props : Properties
deriving DecidableEq, Repr

/-- `ConnAck::partial_size`. -/
def ConnAckPkt.partialSize (p : ConnAckPkt) : Nat := 1 + 1 + p.props.sizeTotal

/-- `ConnAck::serialize` (`packet/src/connack.rs` lines 87-95). -/
def ConnAckPkt.serializeBytes (p : ConnAckPkt) : List Nat :=
  vbiSerialize p.partialSize ++
    (oneByteSerialize p.flags ++ oneByteSerialize p.reasonCode ++ p.props.serializeBytes)

/-- `ConnAck::size`. -/
def ConnAckPkt.sizeTotal (p : ConnAckPkt) : Nat := vbiSize p.partialSize + p.partialSize

/-- `PubAck` (`packet/src/puback.rs` lines 12-19); `PubRec`, `PubRel` and
`PubComp` have the identical layout and byte format. -/
structure PubAckPkt where
  packetIdentifier : Nat
  reasonCode : Nat
  props : Properties
deriving DecidableEq, Repr

/-- `PubAck::partial_size` (also PubRec/PubRel/PubComp). -/
def PubAckPkt.partialSize (p : PubAckPkt) : Nat := 2 + 1 + p.props.sizeTotal

/-- `PubAck::serialize` (also PubRec/PubRel/PubComp). -/
def PubAckPkt.serializeBytes (p : PubAckPkt) : List Nat :=
  vbiSerialize p.partialSize ++
    (twoByteSerialize p.packetIdentifier ++ oneByteSerialize p.reasonCode ++
      p.props.serializeBytes)

/-- `PubAck::size` (also PubRec/PubRel/PubComp). -/
def PubAckPkt.sizeTotal (p : PubAckPkt) : Nat := vbiSize p.partialSize + p.partialSize

/-- Serialization of a reason-code payload (one byte each). -/
def reasonCodesSerialize : List Nat → List Nat
  | [] => []
  | r :: rest => oneByteSerialize r ++ reasonCodesSerialize rest

/-- `SubAck` (`packet/src/suback.rs` lines 12-21); `UnsubAck` has the
identical layout and byte format. -/
structure SubAckPkt where
  packetIdentifier : Nat
  props : Properties
  reasonCodes : List Nat
deriving DecidableEq, Repr

/-- `SubAck::partial_size` (each reason code is one byte). -/
def SubAckPkt.partialSize (p : SubAckPkt) : Nat :=
  2 + p.props.sizeTotal + p.reasonCodes.length

/-- `SubAck::serialize` (`packet/src/suback.rs` lines 60-70). -/
def SubAckPkt.serializeBytes (p : SubAckPkt) : List Nat :=
  vbiSerialize p.partialSize ++
    (twoByteSerialize p.packetIdentifier ++ p.props.serializeBytes ++
      reasonCodesSerialize p.reasonCodes)

/-- `SubAck::size`. -/
def SubAckPkt.sizeTotal (p : SubAckPkt) : Nat := vbiSize p.partialSize + p.partialSize

/-- Serialization of a SUBSCRIBE payload: each topic string followed by its
options byte. -/
def subTopicsSerialize : List (List Nat × Nat) → List Nat
  | [] => []
  | (t, o) :: rest => stringSerialize t ++ oneByteSerialize o ++ subTopicsSerialize rest

/-- `Subscribe` (`packet/src/subscribe.rs` lines 110-118): identifier,
properties and the `(topic, options)` payload. -/
structure SubscribePkt where
  packetIdentifier : Nat
  props : Properties
  topics : List (List Nat × Nat)
deriving DecidableEq, Repr

/-- `Subscribe::partial_size` (`k.size() + v.size()` per payload entry). -/
def SubscribePkt.partialSize (p : SubscribePkt) : Nat :=
  2 + p.props.sizeTotal + (p.topics.map (fun t => stringSize t.1 + 1)).sum

/-- `Subscribe::serialize` (`packet/src/subscribe.rs` lines 169-180). -/
def SubscribePkt.serializeBytes (p : SubscribePkt) : List Nat :=
  vbiSerialize p.partialSize ++
    (twoByteSerialize p.packetIdentifier ++ p.props.serializeBytes ++
      subTopicsSerialize p.topics)

/-- `Subscribe::size`. -/
def SubscribePkt.sizeTotal (p : SubscribePkt) : Nat := vbiSize p.partialSize + p.partialSize

/-- Serialization of an UNSUBSCRIBE payload: the topic strings. -/
def unsubTopicsSerialize : List (List Nat) → List Nat
  | [] => []
  | t :: rest => stringSerialize t ++ unsubTopicsSerialize rest

/-- `Unsubscribe` (`packet/src/unsubscribe.rs` lines 12-19). -/
structure UnsubscribePkt where
  packetIdentifier : Nat
  props : Properties
  topics : List (List Nat)
deriving DecidableEq, Repr

/-- `Unsubscribe::partial_size`. -/
def UnsubscribePkt.partialSize (p : UnsubscribePkt) : Nat :=
  2 + p.props.sizeTotal + (p.topics.map stringSize).sum

/-- `Unsubscribe::serialize` (`packet/src/unsubscribe.rs` lines 59-68). -/
def UnsubscribePkt.serializeBytes (p : UnsubscribePkt) : List Nat :=
  vbiSerialize p.partialSize ++
    (twoByteSerialize p.packetIdentifier ++ p.props.serializeBytes ++
      unsubTopicsSerialize p.topics)

/-- `Unsubscribe::size`. -/
def UnsubscribePkt.sizeTotal (p : UnsubscribePkt) : Nat :=
  vbiSize p.partialSize + p.partialSize

/-- `Disconnect` (`packet/src/disconnect.rs` lines 12-17); `Auth` has the
identical layout and byte format. -/
structure DisconnectPkt where
  reasonCode : Nat
  props : Properties
deriving DecidableEq, Repr

/-- `Disconnect::partial_size` (also Auth). -/
def DisconnectPkt.partialSize (p : DisconnectPkt) : Nat := 1 + p.props.sizeTotal

/-- `Disconnect::serialize` (`packet/src/disconnect.rs` lines 47-54, also
Auth). -/
def DisconnectPkt.serializeBytes (p : DisconnectPkt) : List Nat :=
  vbiSerialize p.partialSize ++
    (oneByteSerialize p.reasonCode ++ p.props.serializeBytes)

/-- `Disconnect::size` (also Auth). -/
def DisconnectPkt.sizeTotal (p : DisconnectPkt) : Nat :=
  vbiSize p.partialSize + p.partialSize

/-- `Publish` (`apiformes/src/packets/publish.rs` lines 67-86): the flags
live in the fixed header; the packet identifier is present only for QoS > 0. -/
structure PublishPkt where
  flags : Nat
  topicName : List Nat
  packetIdentifier : Option Nat
  props : Properties
  payload : List Nat
deriving DecidableEq, Repr

/-- `Publish::partial_size` (`apiformes/src/packets/publish.rs` lines
150-159). -/
def PublishPkt.partialSize (p : PublishPkt) : Nat :=
  stringSize p.topicName +
    (match p.packetIdentifier with
     | some _ => 2
     | none => 0) +
    p.props.sizeTotal + p.payload.length

/-- `Publish::serialize` (`apiformes/src/packets/publish.rs` lines 166-176);
the flags byte itself is written by `Packet::serialize`. -/
def PublishPkt.serializeBytes (p : PublishPkt) : List Nat :=
  vbiSerialize p.partialSize ++
    (stringSerialize p.topicName ++
      (match p.packetIdentifier with
       | some i => twoByteSerialize i
       | none => []) ++
      p.props.serializeBytes ++ p.payload)

/-- `Publish::size`. -/
def PublishPkt.sizeTotal (p : PublishPkt) : Nat := vbiSize p.partialSize + p.partialSize

/-- `Will` (`apiformes/src/packets/connect.rs` lines 82-89). -/
structure WillPkt where
  props : Properties
  topic : List Nat
  payload : List Nat
deriving DecidableEq, Repr

/-- `Will::size` (`apiformes/src/packets/connect.rs` lines 141-143). -/
def WillPkt.sizeTotal (w : WillPkt) : Nat :=
  w.props.sizeTotal + stringSize w.topic + binarySize w.payload

/-- `Will::serialize` (`apiformes/src/packets/connect.rs` lines 124-128). -/
def WillPkt.serializeBytes (w : WillPkt) : List Nat :=
  w.props.serializeBytes ++ stringSerialize w.topic ++ binarySerialize w.payload

/-- `Connect` (`apiformes/src/packets/connect.rs` lines 147-169). -/
structure ConnectPkt where
  flags : Nat
  keepAlive : Nat
  props : Properties
  clientid : List Nat
  willInfo : Option WillPkt
  username : Option (List Nat)
  password : Option (List Nat)
deriving DecidableEq, Repr

/-- `Connect::partial_size` (`apiformes/src/packets/connect.rs` lines
249-258): `7` covers the `"MQTT"` string and the version byte. -/
def ConnectPkt.partialSize (p : ConnectPkt) : Nat :=
  7 + 1 + 2 + p.props.sizeTotal + stringSize p.clientid +
    (match p.willInfo with
     | some w => w.sizeTotal
     | none => 0) +
    (match p.username with
     | some u => stringSize u
     | none => 0) +
    (match p.password with
     | some pw => binarySize pw
     | none => 0)

/-- The code points of the protocol name `"MQTT"`. -/
def mqttName : List Nat := [77, 81, 84, 84]

/-- `Connect::serialize` (`apiformes/src/packets/connect.rs` lines 265-295). -/
def ConnectPkt.serializeBytes (p : ConnectPkt) : List Nat :=
  vbiSerialize p.partialSize ++
    (stringSerialize mqttName ++ oneByteSerialize 5 ++ oneByteSerialize p.flags ++
      twoByteSerialize p.keepAlive ++ p.props.serializeBytes ++
      stringSerialize p.clientid ++
      (match p.willInfo with
       | some w => w.serializeBytes
       | none => []) ++
      (match p.username with
       | some u => stringSerialize u
       | none => []) ++
      (match p.password with
       | some pw => binarySerialize pw
       | none => []))

/-- `Connect::size`. -/
def ConnectPkt.sizeTotal (p : ConnectPkt) : Nat := vbiSize p.partialSize + p.partialSize

/-- `Packet` (`packet/src/packet.rs` lines 10-26); `PubRec`/`PubRel`/
`PubComp` reuse the `PubAck` layout and `UnsubAck` the `SubAck` layout,
`Ping` carries no fields. -/
inductive MqttPacket where
  | connect (p : ConnectPkt)
  | connAck (p : ConnAckPkt)
  | publish (p : PublishPkt)
  | pubAck (p : PubAckPkt)
  | pubRec (p : PubAckPkt)
  | pubRel (p : PubAckPkt)
  | pubComp (p : PubAckPkt)
  | subscribe (p : SubscribePkt)
  | subAck (p : SubAckPkt)
  | unsubscribe (p : UnsubscribePkt)
  | unsubAck (p : SubAckPkt)
  | pingReq
  | pingRes
  | disconnect (p : DisconnectPkt)
  | auth (p : DisconnectPkt)
deriving DecidableEq, Repr

/-- The fixed-header byte `(type << 4) | flags` written by
`Packet::serialize` (`packet/src/packet.rs` lines 38-146,
`packet/src/packet_type.rs` lines 7-24 and 73-79): PubRel, Subscribe and
Unsubscribe carry fixed flags `0b0010`, Publish carries its own flag bits. -/
def MqttPacket.headerByte : MqttPacket → Nat
  | .connect _ => 1 * 16
  | .connAck _ => 2 * 16
  | .publish p => 3 * 16 ||| p.flags
  | .pubAck _ => 4 * 16
  | .pubRec _ => 5 * 16
  | .pubRel _ => 6 * 16 ||| 2
  | .pubComp _ => 7 * 16
  | .subscribe _ => 8 * 16 ||| 2
  | .subAck _ => 9 * 16
  | .unsubscribe _ => 10 * 16 ||| 2
  | .unsubAck _ => 11 * 16
  | .pingReq => 12 * 16
  | .pingRes => 13 * 16
  | .disconnect _ => 14 * 16
  | .auth _ => 15 * 16

/-- The remaining length each kind declares (`partial_size`); `Ping`
(`packet/src/ping.rs` lines 24-27) writes the literal length byte `0`. -/
def MqttPacket.partialSize : MqttPacket → Nat
  | .connect p => p.partialSize
  | .connAck p => p.partialSize
  | .publish p => p.partialSize
  | .pubAck p => p.partialSize
  | .pubRec p => p.partialSize
  | .pubRel p => p.partialSize
  | .pubComp p => p.partialSize
  | .subscribe p => p.partialSize
  | .subAck p => p.partialSize
  | .unsubscribe p => p.partialSize
  | .unsubAck p => p.partialSize
  | .pingReq => 0
  | .pingRes => 0
  | .disconnect p => p.partialSize
  | .auth p => p.partialSize

/-- The bytes each kind writes after the fixed-header byte. -/
def MqttPacket.kindBytes : MqttPacket → List Nat
  | .connect p => p.serializeBytes
  | .connAck p => p.serializeBytes
  | .publish p => p.serializeBytes
  | .pubAck p => p.serializeBytes
  | .pubRec p => p.serializeBytes
  | .pubRel p => p.serializeBytes
  | .pubComp p => p.serializeBytes
  | .subscribe p => p.serializeBytes
  | .subAck p => p.serializeBytes
  | .unsubscribe p => p.serializeBytes
  | .unsubAck p => p.serializeBytes
  | .pingReq => oneByteSerialize 0
  | .pingRes => oneByteSerialize 0
  | .disconnect p => p.serializeBytes
  | .auth p => p.serializeBytes

/-- `Packet::serialize` (`packet/src/packet.rs` lines 38-146): the header
byte, then the kind's bytes. -/
def MqttPacket.serializeBytes (p : MqttPacket) : List Nat :=
  oneByteSerialize p.headerByte ++ p.kindBytes

/-- `Packet::size` (`packet/src/packet.rs` lines 180-198): one header byte
plus the kind's `size()`; `Ping::fixed_size` is 1. -/
def MqttPacket.sizeTotal : MqttPacket → Nat
  | .connect p => 1 + p.sizeTotal
  | .connAck p => 1 + p.sizeTotal
  | .publish p => 1 + p.sizeTotal
  | .pubAck p => 1 + p.sizeTotal
  | .pubRec p => 1 + p.sizeTotal
  | .pubRel p => 1 + p.sizeTotal
  | .pubComp p => 1 + p.sizeTotal
  | .subscribe p => 1 + p.sizeTotal
  | .subAck p => 1 + p.sizeTotal
  | .unsubscribe p => 1 + p.sizeTotal
  | .unsubAck p => 1 + p.sizeTotal
  | .pingReq => 1 + 1
  | .pingRes => 1 + 1
  | .disconnect p => 1 + p.sizeTotal
  | .auth p => 1 + p.sizeTotal

/-- Constructible packets: every property table the packet holds satisfies
the size invariant, and the declared remaining length fits in a variable
byte int (`MqttVariableBytesInt::new` succeeds). -/
def MqttPacket.wfSize : MqttPacket → Prop
  | .connect p =>
    p.props.wfSize ∧
      (match p.willInfo with
       | some w => w.props.wfSize
       | none => True)
  | .connAck p => p.props.wfSize
  | .publish p => p.props.wfSize
  | .pubAck p => p.props.wfSize
  | .pubRec p => p.props.wfSize
  | .pubRel p => p.props.wfSize
  | .pubComp p => p.props.wfSize
  | .subscribe p => p.props.wfSize
  | .subAck p => p.props.wfSize
  | .unsubscribe p => p.props.wfSize
  | .unsubAck p => p.props.wfSize
  | .pingReq => True
  | .pingRes => True
  | .disconnect p => p.props.wfSize
  | .auth p => p.props.wfSize

/-- The body a packet kind writes after its remaining-length VBI. -/
def MqttPacket.bodyBytes : MqttPacket → List Nat
  | .connect p =>
    stringSerialize mqttName ++ oneByteSerialize 5 ++ oneByteSerialize p.flags ++
      twoByteSerialize p.keepAlive ++ p.props.serializeBytes ++
      stringSerialize p.clientid ++
      (match p.willInfo with
       | some w => w.serializeBytes
       | none => []) ++
      (match p.username with
       | some u => stringSerialize u
       | none => []) ++
      (match p.password with
       | some pw => binarySerialize pw
       | none => [])
  | .connAck p =>
    oneByteSerialize p.flags ++ oneByteSerialize p.reasonCode ++ p.props.serializeBytes
  | .publish p =>
    stringSerialize p.topicName ++
      (match p.packetIdentifier with
       | some i => twoByteSerialize i
       | none => []) ++
      p.props.serializeBytes ++ p.payload
  | .pubAck p =>
    twoByteSerialize p.packetIdentifier ++ oneByteSerialize p.reasonCode ++
      p.props.serializeBytes
  | .pubRec p =>
    twoByteSerialize p.packetIdentifier ++ oneByteSerialize p.reasonCode ++
      p.props.serializeBytes
  | .pubRel p =>
    twoByteSerialize p.packetIdentifier ++ oneByteSerialize p.reasonCode ++
      p.props.serializeBytes
  | .pubComp p =>
    twoByteSerialize p.packetIdentifier ++ oneByteSerialize p.reasonCode ++
      p.props.serializeBytes
  | .subscribe p =>
    twoByteSerialize p.packetIdentifier ++ p.props.serializeBytes ++
      subTopicsSerialize p.topics
  | .subAck p =>
    twoByteSerialize p.packetIdentifier ++ p.props.serializeBytes ++
      reasonCodesSerialize p.reasonCodes
  | .unsubscribe p =>
    twoByteSerialize p.packetIdentifier ++ p.props.serializeBytes ++
      unsubTopicsSerialize p.topics
  | .unsubAck p =>
    twoByteSerialize p.packetIdentifier ++ p.props.serializeBytes ++
      reasonCodesSerialize p.reasonCodes
  | .pingReq => []
  | .pingRes => []
  | .disconnect p => oneByteSerialize p.reasonCode ++ p.props.serializeBytes
  | .auth p => oneByteSerialize p.reasonCode ++ p.props.serializeBytes

theorem propValue_serialize_length (v : MqttPropValue) (h : v.wf) :
    v.vserialize.length = v.vsize := by
  cases v with
  | bool i => rfl
  | byte i => rfl
  | fourBytesInt i => rfl
  | string s => exact stringSerialize_length s
  | stringPair k v2 => exact stringPairSerialize_length k v2
  | data d => exact binarySerialize_length d
  | varInt i => exact vbiSerialize_length i h
  | twoBytesInt i => rfl

theorem property_code_valid (k : Property) : vbiValid k.code := by
  cases k <;> decide

theorem property_serialize_length (k : Property) :
    (vbiSerialize k.code).length = k.psize :=
  vbiSerialize_length k.code (property_code_valid k)

theorem propPairsSerialize_length (l : List (Property × MqttPropValue))
    (h : ∀ kv ∈ l, kv.2.wf) :
    (propPairsSerialize l).length = propPairsSize l := by
  induction l with
  | nil => rfl
  | cons hd tl ih =>
    obtain ⟨k, v⟩ := hd
    show (vbiSerialize k.code ++ v.vserialize ++ propPairsSerialize tl).length =
      k.psize + v.vsize + propPairsSize tl
    rw [List.length_append, List.length_append, property_serialize_length k,
        propValue_serialize_length v (h (k, v) (List.mem_cons_self _ _)),
        ih (fun kv hkv => h kv (List.mem_cons_of_mem _ hkv))]

theorem props_serializeBytes_length (p : Properties) (h : p.wfSize) :
    p.serializeBytes.length = p.sizeTotal := by
  obtain ⟨h1, h2, h3⟩ := h
  show (vbiSerialize p.psize ++ propPairsSerialize (propsPairs p.props)).length =
    vbiSize p.psize + p.psize
  rw [List.length_append, vbiSerialize_length p.psize h2,
      propPairsSerialize_length _ h3, ← h1]

theorem reasonCodesSerialize_length (l : List Nat) :
    (reasonCodesSerialize l).length = l.length := by
  induction l with
  | nil => rfl
  | cons r rest ih =>
    show (oneByteSerialize r ++ reasonCodesSerialize rest).length = rest.length + 1
    rw [List.length_append, ih]
    show 1 + rest.length = rest.length + 1
    omega

theorem subTopicsSerialize_length (l : List (List Nat × Nat)) :
    (subTopicsSerialize l).length = (l.map (fun t => stringSize t.1 + 1)).sum := by
  induction l with
  | nil => rfl
  | cons hd tl ih =>
    obtain ⟨t, o⟩ := hd
    show (stringSerialize t ++ oneByteSerialize o ++ subTopicsSerialize tl).length =
      (((t, o) :: tl).map (fun e => stringSize e.1 + 1)).sum
    rw [List.length_append, List.length_append, stringSerialize_length, ih,
        List.map_cons, List.sum_cons]
    simp [oneByteSerialize]

theorem unsubTopicsSerialize_length (l : List (List Nat)) :
    (unsubTopicsSerialize l).length = (l.map stringSize).sum := by
  induction l with
  | nil => rfl
  | cons t tl ih =>
    show (stringSerialize t ++ unsubTopicsSerialize tl).length =
      ((t :: tl).map stringSize).sum
    rw [List.length_append, stringSerialize_length, ih, List.map_cons, List.sum_cons]

theorem willPkt_length (w : WillPkt) (h : w.props.wfSize) :
    w.serializeBytes.length = w.sizeTotal := by
  show (w.props.serializeBytes ++ stringSerialize w.topic ++
    binarySerialize w.payload).length = _
  rw [List.length_append, List.length_append, props_serializeBytes_length _ h,
      stringSerialize_length, binarySerialize_length]
  rfl

/-- C2: for every constructible packet value of every control-packet kind,
`serialize` writes the fixed-header byte, then the remaining length as a
variable byte int, then a body of exactly that many bytes, and `size()`
equals the total number of bytes written. -/
theorem C2_packet_framing (p : MqttPacket) (hwf : p.wfSize)
    (hb : vbiValid p.partialSize) :
    p.serializeBytes =
        oneByteSerialize p.headerByte ++ (vbiSerialize p.partialSize ++ p.bodyBytes) ∧
    p.bodyBytes.length = p.partialSize ∧
    p.sizeTotal = 1 + (vbiSize p.partialSize + p.partialSize) ∧
    p.serializeBytes.length = p.sizeTotal := by
  cases p with
  | connect q =>
    have hvbi : (vbiSerialize q.partialSize).length = vbiSize q.partialSize :=
      vbiSerialize_length _ hb
    have hbody : (MqttPacket.bodyBytes (.connect q)).length = q.partialSize := by
      obtain ⟨h1, h2⟩ := hwf
      have hwl : (match q.willInfo with
          | some w => w.serializeBytes
          | none => ([] : List Nat)).length =
          (match q.willInfo with
           | some w => w.sizeTotal
           | none => 0) := by
        cases hw : q.willInfo with
        | none => rfl
        | some w =>
          rw [hw] at h2
          exact willPkt_length w h2
      have hul : (match q.username with
          | some u => stringSerialize u
          | none => ([] : List Nat)).length =
          (match q.username with
           | some u => stringSize u
           | none => 0) := by
        cases q.username with
        | none => rfl
        | some u => exact stringSerialize_length u
      have hpl : (match q.password with
          | some pw => binarySerialize pw
          | none => ([] : List Nat)).length =
          (match q.password with
           | some pw => binarySize pw
           | none => 0) := by
        cases q.password with
        | none => rfl
        | some pw => exact binarySerialize_length pw
      show (stringSerialize mqttName ++ oneByteSerialize 5 ++ oneByteSerialize q.flags ++
        twoByteSerialize q.keepAlive ++ q.props.serializeBytes ++
        stringSerialize q.clientid ++
        (match q.willInfo with
         | some w => w.serializeBytes
         | none => []) ++
        (match q.username with
         | some u => stringSerialize u
         | none => []) ++
        (match q.password with
         | some pw => binarySerialize pw
         | none => [])).length = q.partialSize
      rw [List.length_append, List.length_append, List.length_append,
          List.length_append, List.length_append, List.length_append,
          List.length_append, List.length_append, stringSerialize_length,
          stringSerialize_length, props_serializeBytes_length _ h1, hwl, hul, hpl]
      have hm : stringSize mqttName = 6 := rfl
      rw [hm]
      show 6 + 1 + 1 + 2 + q.props.sizeTotal + stringSize q.clientid + _ + _ + _ = _
      unfold ConnectPkt.partialSize
      omega
    refine ⟨rfl, hbody, rfl, ?_⟩
    show (oneByteSerialize (MqttPacket.headerByte (.connect q)) ++
      (vbiSerialize q.partialSize ++ MqttPacket.bodyBytes (.connect q))).length =
      1 + q.sizeTotal
    rw [List.length_append, List.length_append, hvbi, hbody]
    rfl
  | connAck q =>
    have hvbi : (vbiSerialize q.partialSize).length = vbiSize q.partialSize :=
      vbiSerialize_length _ hb
    have hbody : (MqttPacket.bodyBytes (.connAck q)).length = q.partialSize := by
      show (oneByteSerialize q.flags ++ oneByteSerialize q.reasonCode ++
        q.props.serializeBytes).length = q.partialSize
      rw [List.length_append, List.length_append, props_serializeBytes_length _ hwf]
      rfl
    refine ⟨rfl, hbody, rfl, ?_⟩
    show (oneByteSerialize (MqttPacket.headerByte (.connAck q)) ++
      (vbiSerialize q.partialSize ++ MqttPacket.bodyBytes (.connAck q))).length =
      1 + q.sizeTotal
    rw [List.length_append, List.length_append, hvbi, hbody]
    rfl
  | publish q =>
    have hvbi : (vbiSerialize q.partialSize).length = vbiSize q.partialSize :=
      vbiSerialize_length _ hb
    have hbody : (MqttPacket.bodyBytes (.publish q)).length = q.partialSize := by
      have hil : (match q.packetIdentifier with
          | some i => twoByteSerialize i
          | none => ([] : List Nat)).length =
          (match q.packetIdentifier with
           | some _ => 2
           | none => 0) := by
        cases q.packetIdentifier with
        | none => rfl
        | some i => rfl
      show (stringSerialize q.topicName ++
        (match q.packetIdentifier with
         | some i => twoByteSerialize i
         | none => []) ++
        q.props.serializeBytes ++ q.payload).length = q.partialSize
      rw [List.length_append, List.length_append, List.length_append,
          stringSerialize_length, hil, props_serializeBytes_length _ hwf]
      unfold PublishPkt.partialSize
      omega
    refine ⟨rfl, hbody, rfl, ?_⟩
    show (oneByteSerialize (MqttPacket.headerByte (.publish q)) ++
      (vbiSerialize q.partialSize ++ MqttPacket.bodyBytes (.publish q))).length =
      1 + q.sizeTotal
    rw [List.length_append, List.length_append, hvbi, hbody]
    rfl
  | pubAck q =>
    have hvbi : (vbiSerialize q.partialSize).length = vbiSize q.partialSize :=
      vbiSerialize_length _ hb
    have hbody : (MqttPacket.bodyBytes (.pubAck q)).length = q.partialSize := by
      show (twoByteSerialize q.packetIdentifier ++ oneByteSerialize q.reasonCode ++
        q.props.serializeBytes).length = q.partialSize
      rw [List.length_append, List.length_append, props_serializeBytes_length _ hwf]
      rfl
    refine ⟨rfl, hbody, rfl, ?_⟩
    show (oneByteSerialize (MqttPacket.headerByte (.pubAck q)) ++
      (vbiSerialize q.partialSize ++ MqttPacket.bodyBytes (.pubAck q))).length =
      1 + q.sizeTotal
    rw [List.length_append, List.length_append, hvbi, hbody]
    rfl
  | pubRec q =>
    have hvbi : (vbiSerialize q.partialSize).length = vbiSize q.partialSize :=
      vbiSerialize_length _ hb
    have hbody : (MqttPacket.bodyBytes (.pubRec q)).length = q.partialSize := by
      show (twoByteSerialize q.packetIdentifier ++ oneByteSerialize q.reasonCode ++
        q.props.serializeBytes).length = q.partialSize
      rw [List.length_append, List.length_append, props_serializeBytes_length _ hwf]
      rfl
    refine ⟨rfl, hbody, rfl, ?_⟩
    show (oneByteSerialize (MqttPacket.headerByte (.pubRec q)) ++
      (vbiSerialize q.partialSize ++ MqttPacket.bodyBytes (.pubRec q))).length =
      1 + q.sizeTotal
    rw [List.length_append, List.length_append, hvbi, hbody]
    rfl
  | pubRel q =>
    have hvbi : (vbiSerialize q.partialSize).length = vbiSize q.partialSize :=
      vbiSerialize_length _ hb
    have hbody : (MqttPacket.bodyBytes (.pubRel q)).length = q.partialSize := by
      show (twoByteSerialize q.packetIdentifier ++ oneByteSerialize q.reasonCode ++
        q.props.serializeBytes).length = q.partialSize
      rw [List.length_append, List.length_append, props_serializeBytes_length _ hwf]
      rfl
    refine ⟨rfl, hbody, rfl, ?_⟩
    show (oneByteSerialize (MqttPacket.headerByte (.pubRel q)) ++
      (vbiSerialize q.partialSize ++ MqttPacket.bodyBytes (.pubRel q))).length =
      1 + q.sizeTotal
    rw [List.length_append, List.length_append, hvbi, hbody]
    rfl
  | pubComp q =>
    have hvbi : (vbiSerialize q.partialSize).length = vbiSize q.partialSize :=
      vbiSerialize_length _ hb
    have hbody : (MqttPacket.bodyBytes (.pubComp q)).length = q.partialSize := by
      show (twoByteSerialize q.packetIdentifier ++ oneByteSerialize q.reasonCode ++
        q.props.serializeBytes).length = q.partialSize
      rw [List.length_append, List.length_append, props_serializeBytes_length _ hwf]
      rfl
    refine ⟨rfl, hbody, rfl, ?_⟩
    show (oneByteSerialize (MqttPacket.headerByte (.pubComp q)) ++
      (vbiSerialize q.partialSize ++ MqttPacket.bodyBytes (.pubComp q))).length =
      1 + q.sizeTotal
    rw [List.length_append, List.length_append, hvbi, hbody]
    rfl
  | subscribe q =>
    have hvbi : (vbiSerialize q.partialSize).length = vbiSize q.partialSize :=
      vbiSerialize_length _ hb
    have hbody : (MqttPacket.bodyBytes (.subscribe q)).length = q.partialSize := by
      show (twoByteSerialize q.packetIdentifier ++ q.props.serializeBytes ++
        subTopicsSerialize q.topics).length = q.partialSize
      rw [List.length_append, List.length_append, props_serializeBytes_length _ hwf,
          subTopicsSerialize_length]
      rw [show (twoByteSerialize q.packetIdentifier).length = 2 from rfl]
      unfold SubscribePkt.partialSize
      omega
    refine ⟨rfl, hbody, rfl, ?_⟩
    show (oneByteSerialize (MqttPacket.headerByte (.subscribe q)) ++
      (vbiSerialize q.partialSize ++ MqttPacket.bodyBytes (.subscribe q))).length =
      1 + q.sizeTotal
    rw [List.length_append, List.length_append, hvbi, hbody]
    rfl
  | subAck q =>
    have hvbi : (vbiSerialize q.partialSize).length = vbiSize q.partialSize :=
      vbiSerialize_length _ hb
    have hbody : (MqttPacket.bodyBytes (.subAck q)).length = q.partialSize := by
      show (twoByteSerialize q.packetIdentifier ++ q.props.serializeBytes ++
        reasonCodesSerialize q.reasonCodes).length = q.partialSize
      rw [List.length_append, List.length_append, props_serializeBytes_length _ hwf,
          reasonCodesSerialize_length]
      rw [show (twoByteSerialize q.packetIdentifier).length = 2 from rfl]
      unfold SubAckPkt.partialSize
      omega
    refine ⟨rfl, hbody, rfl, ?_⟩
    show (oneByteSerialize (MqttPacket.headerByte (.subAck q)) ++
      (vbiSerialize q.partialSize ++ MqttPacket.bodyBytes (.subAck q))).length =
      1 + q.sizeTotal
    rw [List.length_append, List.length_append, hvbi, hbody]
    rfl
  | unsubscribe q =>
    have hvbi : (vbiSerialize q.partialSize).length = vbiSize q.partialSize :=
      vbiSerialize_length _ hb
    have hbody : (MqttPacket.bodyBytes (.unsubscribe q)).length = q.partialSize := by
      show (twoByteSerialize q.packetIdentifier ++ q.props.serializeBytes ++
        unsubTopicsSerialize q.topics).length = q.partialSize
      rw [List.length_append, List.length_append, props_serializeBytes_length _ hwf,
          unsubTopicsSerialize_length]
      rw [show (twoByteSerialize q.packetIdentifier).length = 2 from rfl]
      unfold UnsubscribePkt.partialSize
      omega
    refine ⟨rfl, hbody, rfl, ?_⟩
    show (oneByteSerialize (MqttPacket.headerByte (.unsubscribe q)) ++
      (vbiSerialize q.partialSize ++ MqttPacket.bodyBytes (.unsubscribe q))).length =
      1 + q.sizeTotal
    rw [List.length_append, List.length_append, hvbi, hbody]
    rfl
  | unsubAck q =>
    have hvbi : (vbiSerialize q.partialSize).length = vbiSize q.partialSize :=
      vbiSerialize_length _ hb
    have hbody : (MqttPacket.bodyBytes (.unsubAck q)).length = q.partialSize := by
      show (twoByteSerialize q.packetIdentifier ++ q.props.serializeBytes ++
        reasonCodesSerialize q.reasonCodes).length = q.partialSize
      rw [List.length_append, List.length_append, props_serializeBytes_length _ hwf,
          reasonCodesSerialize_length]
      rw [show (twoByteSerialize q.packetIdentifier).length = 2 from rfl]
      unfold SubAckPkt.partialSize
      omega
    refine ⟨rfl, hbody, rfl, ?_⟩
    show (oneByteSerialize (MqttPacket.headerByte (.unsubAck q)) ++
      (vbiSerialize q.partialSize ++ MqttPacket.bodyBytes (.unsubAck q))).length =
      1 + q.sizeTotal
    rw [List.length_append, List.length_append, hvbi, hbody]
    rfl
  | pingReq =>
    have h0 : vbiSerialize 0 = [0] := vbiSerialize_small 0 (by omega)
    refine ⟨?_, rfl, rfl, rfl⟩
    show oneByteSerialize (MqttPacket.headerByte .pingReq) ++ oneByteSerialize 0 =
      oneByteSerialize (MqttPacket.headerByte .pingReq) ++ (vbiSerialize 0 ++ [])
    rw [h0, List.append_nil]
    rfl
  | pingRes =>
    have h0 : vbiSerialize 0 = [0] := vbiSerialize_small 0 (by omega)
    refine ⟨?_, rfl, rfl, rfl⟩
    show oneByteSerialize (MqttPacket.headerByte .pingRes) ++ oneByteSerialize 0 =
      oneByteSerialize (MqttPacket.headerByte .pingRes) ++ (vbiSerialize 0 ++ [])
    rw [h0, List.append_nil]
    rfl
  | disconnect q =>
    have hvbi : (vbiSerialize q.partialSize).length = vbiSize q.partialSize :=
      vbiSerialize_length _ hb
    have hbody : (MqttPacket.bodyBytes (.disconnect q)).length = q.partialSize := by
      show (oneByteSerialize q.reasonCode ++ q.props.serializeBytes).length =
        q.partialSize
      rw [List.length_append, props_serializeBytes_length _ hwf]
      rfl
    refine ⟨rfl, hbody, rfl, ?_⟩
    show (oneByteSerialize (MqttPacket.headerByte (.disconnect q)) ++
      (vbiSerialize q.partialSize ++ MqttPacket.bodyBytes (.disconnect q))).length =
      1 + q.sizeTotal
    rw [List.length_append, List.length_append, hvbi, hbody]
    rfl
  | auth q =>
    have hvbi : (vbiSerialize q.partialSize).length = vbiSize q.partialSize :=
      vbiSerialize_length _ hb
    have hbody : (MqttPacket.bodyBytes (.auth q)).length = q.partialSize := by
      show (oneByteSerialize q.reasonCode ++ q.props.serializeBytes).length =
        q.partialSize
      rw [List.length_append, props_serializeBytes_length _ hwf]
      rfl
    refine ⟨rfl, hbody, rfl, ?_⟩
    show (oneByteSerialize (MqttPacket.headerByte (.auth q)) ++
      (vbiSerialize q.partialSize ++ MqttPacket.bodyBytes (.auth q))).length =
      1 + q.sizeTotal
    rw [List.length_append, List.length_append, hvbi, hbody]
    rfl

theorem C2_packet_framing_witness :
    (MqttPacket.subscribe ⟨10, Properties.new, [([97, 47, 98], 0)]⟩).serializeBytes =
        oneByteSerialize
          (MqttPacket.subscribe ⟨10, Properties.new, [([97, 47, 98], 0)]⟩).headerByte ++
          (vbiSerialize
            (MqttPacket.subscribe ⟨10, Properties.new, [([97, 47, 98], 0)]⟩).partialSize ++
           (MqttPacket.subscribe ⟨10, Properties.new, [([97, 47, 98], 0)]⟩).bodyBytes) ∧
    (MqttPacket.subscribe ⟨10, Properties.new, [([97, 47, 98], 0)]⟩).bodyBytes.length =
      (MqttPacket.subscribe ⟨10, Properties.new, [([97, 47, 98], 0)]⟩).partialSize ∧
    (MqttPacket.subscribe ⟨10, Properties.new, [([97, 47, 98], 0)]⟩).sizeTotal =
      1 + (vbiSize
        (MqttPacket.subscribe ⟨10, Properties.new, [([97, 47, 98], 0)]⟩).partialSize +
        (MqttPacket.subscribe ⟨10, Properties.new, [([97, 47, 98], 0)]⟩).partialSize) ∧
    (MqttPacket.subscribe ⟨10, Properties.new, [([97, 47, 98], 0)]⟩).serializeBytes.length =
      (MqttPacket.subscribe ⟨10, Properties.new, [([97, 47, 98], 0)]⟩).sizeTotal :=
  C2_packet_framing (.subscribe ⟨10, Properties.new, [([97, 47, 98], 0)]⟩)
    ⟨rfl, by decide, fun kv h => absurd h (List.not_mem_nil kv)⟩ (by decide)

/-- The code table of `Property::deserialize` (`packet/src/props.rs` lines
331-361); unknown codes are rejected with `BadProperty` by the caller. -/
def Property.fromCode (i : Nat) : Option Property :=
  if i = 0x1 then some .payloadFormatIndicator
  else if i = 0x2 then some .messageExpiryInterval
  else if i = 0x3 then some .contentType
  else if i = 0x8 then some .responseTopic
  else if i = 0x9 then some .correlationData
  else if i = 0xb then some .subscriptionIdentifier
  else if i = 0x11 then some .sessionExpiryInterval
  else if i = 0x12 then some .assignedClientIdentifier
  else if i = 0x13 then some .serverKeepAlive
  else if i = 0x15 then some .authenticationMethod
  else if i = 0x16 then some .authenticationData
  else if i = 0x17 then some .requestProblemInformation
  else if i = 0x18 then some .willDelayInterval
  else if i = 0x19 then some .requestResponseInformation
  else if i = 0x1a then some .responseInformation
  else if i = 0x1c then some .serverReference
  else if i = 0x1f then some .reasonString
  else if i = 0x21 then some .receiveMaximum
  else if i = 0x22 then some .topicAliasMaximum
  else if i = 0x23 then some .topicAlias
  else if i = 0x24 then some .maximumQoS
  else if i = 0x25 then some .retainAvailable
  else if i = 0x26 then some .userProperty
  else if i = 0x27 then some .maximumPacketSize
  else if i = 0x28 then some .wildcardSubscriptionAvailable
  else if i = 0x29 then some .subscriptionIdentifierAvailable
  else if i = 0x2a then some .sharedSubscriptionAvailable
  else none

/-- `Property::deserialize`: a variable byte int looked up in the code
table. -/
def propertyDeserialize (buf : List Nat) :
    Except DataParseError (Property × List Nat) :=
  match vbiDeserialize buf with
  | .error e => .error e
  | .ok (i, rest) =>
    match Property.fromCode i with
    | some k => .ok (k, rest)
    | none => .error .badProperty

/-- `MqttPropValue::deserialize` (`packet/src/props.rs` lines 514-533):
decode by the expected value type. -/
def propValueDeserialize (buf : List Nat) (ty : MqttPropValueType) :
    Except DataParseError (MqttPropValue × List Nat) :=
  match ty with
  | .bool =>
    match oneByteDeserialize buf with
    | .error e => .error e
    | .ok (i, rest) => .ok (.bool i, rest)
  | .byte =>
    match oneByteDeserialize buf with
    | .error e => .error e
    | .ok (i, rest) => .ok (.byte i, rest)
  | .fourBytesInt =>
    match fourByteDeserialize buf with
    | .error e => .error e
    | .ok (i, rest) => .ok (.fourBytesInt i, rest)
  | .string =>
    match stringDeserialize buf with
    | .error e => .error e
    | .ok (s, rest) => .ok (.string s, rest)
  | .stringPair =>
    match stringPairDeserialize buf with
    | .error e => .error e
    | .ok (kv, rest) => .ok (.stringPair kv.1 kv.2, rest)
  | .data =>
    match binaryDeserialize buf with
    | .error e => .error e
    | .ok (d, rest) => .ok (.data d, rest)
  | .varInt =>
    match vbiDeserialize buf with
    | .error e => .error e
    | .ok (i, rest) => .ok (.varInt i, rest)
  | .twoBytesInt =>
    match twoByteDeserialize buf with
    | .error e => .error e
    | .ok (i, rest) => .ok (.twoBytesInt i, rest)

/-- The `while size != 0` loop of `Properties::deserialize`
(`packet/src/props.rs` lines 128-139): key, value by the key's type, then
`insert` (whose error propagates); `size` is decremented with the wrapping
`usize` arithmetic made explicit.  The fuel argument only bounds the
recursion; every iteration consumes at least the key's byte, so the callers'
fuel of one more than the buffer length is never exhausted. -/
def propsDeserializeGo :
    Nat → List Nat → Nat → Properties → Except DataParseError (Properties × List Nat)
  | 0, _, _, _ => .error .badProperty
  | fuel + 1, buf, size, table =>
    if size = 0 then .ok (table, buf)
    else
      match propertyDeserialize buf with
      | .error e => .error e
      | .ok (key, buf2) =>
        match propValueDeserialize buf2 key.auxiliaryData.2.1 with
        | .error e => .error e
        | .ok (value, buf3) =>
          match table.insert key value with
          | (_, some e) => .error e
          | (t2, none) =>
            propsDeserializeGo fuel buf3
              ((size + 18446744073709551616 - (key.psize + value.vsize)) %
                18446744073709551616) t2

/-- `Properties::deserialize` (`packet/src/props.rs` lines 128-139): read
the declared byte size, run the insert loop inside the `take(size)` window;
bytes of the window the loop did not consume remain in the stream. -/
def Properties.deserializeBytes (buf : List Nat) :
    Except DataParseError (Properties × List Nat) :=
  match vbiDeserialize buf with
  | .error e => .error e
  | .ok (size, rest) =>
    match propsDeserializeGo ((rest.take size).length + 1) (rest.take size) size
        Properties.new with
    | .error e => .error e
    | .ok (table, leftover) => .ok (table, leftover ++ rest.drop size)

/-- `Will::deserialize` (`apiformes/src/packets/connect.rs` lines 129-140):
properties (checked against the WILL owner), then topic, then payload. -/
def willDeserialize (buf : List Nat) : Except DataParseError (WillPkt × List Nat) :=
  match Properties.deserializeBytes buf with
  | .error e => .error e
  | .ok (props, b2) =>
    if props.isValidFor PropOwnerWILL then
      match stringDeserialize b2 with
      | .error e => .error e
      | .ok (topic, b3) =>
        match binaryDeserialize b3 with
        | .error e => .error e
        | .ok (payload, b4) => .ok (⟨props, topic, payload⟩, b4)
    else .error .badProperty

/-- `ConnectFlags::deserialize` (`apiformes/src/packets/connect.rs` lines
36-50): one byte; `from_bits` rejects the reserved bit 0
(`BadConnectMessage`), the QoS sanity check rejects both will-QoS bits
(`BadQoS`), and a will-QoS/will-retain bit without `WILL` is
`BadConnectMessage`. -/
def connectFlagsDeserialize (buf : List Nat) :
    Except DataParseError (Nat × List Nat) :=
  match buf with
  | [] => .error (.insufficientBuffer 1 0)
  | b :: rest =>
    let raw := b % 256
    if raw &&& 1 ≠ 0 then .error .badConnectMessage
    else if raw &&& 24 = 24 then .error .badQoS
    else if raw &&& 56 ≠ 0 ∧ raw &&& 4 = 0 then .error .badConnectMessage
    else .ok (raw, rest)

/-- The CONNECT body following the remaining-length VBI
(`Connect::serialize`, `apiformes/src/packets/connect.rs` lines 269-294). -/
def ConnectPkt.body (p : ConnectPkt) : List Nat :=
  stringSerialize mqttName ++ oneByteSerialize 5 ++ oneByteSerialize p.flags ++
    twoByteSerialize p.keepAlive ++ p.props.serializeBytes ++
    stringSerialize p.clientid ++
    (match p.willInfo with
     | some w => w.serializeBytes
     | none => []) ++
    (match p.username with
     | some u => stringSerialize u
     | none => []) ++
    (match p.password with
     | some pw => binarySerialize pw
     | none => [])

/-- The field parse of `Connect::deserialize` inside the `take(length)`
window (`apiformes/src/packets/connect.rs` lines 302-340). -/
def connectBodyDeserialize (buf : List Nat) :
    Except DataParseError (ConnectPkt × List Nat) :=
  match stringDeserialize buf with
  | .error e => .error e
  | .ok (protocolName, b1) =>
    if protocolName ≠ mqttName then .error .badConnectMessage
    else
      match oneByteDeserialize b1 with
      | .error e => .error e
      | .ok (version, b2) =>
        if version ≠ 5 then .error .unsupportedMqttVersion
        else
          match connectFlagsDeserialize b2 with
          | .error e => .error e
          | .ok (flags, b3) =>
            match twoByteDeserialize b3 with
            | .error e => .error e
            | .ok (keepAlive, b4) =>
              match Properties.deserializeBytes b4 with
              | .error e => .error e
              | .ok (props, b5) =>
                if ¬ props.isValidFor PropOwnerCONNECT then .error .badProperty
                else
                  match stringDeserialize b5 with
                  | .error e => .error e
                  | .ok (clientid, b6) =>
                    match
                      (if flags &&& 4 ≠ 0 then
                        match willDeserialize b6 with
                        | .error e => .error e
                        | .ok (w, b7) => .ok (some w, b7)
                       else .ok (none, b6) :
                        Except DataParseError (Option WillPkt × List Nat)) with
                    | .error e => .error e
                    | .ok (willInfo, b7) =>
                      match
                        (if flags &&& 128 ≠ 0 then
                          match stringDeserialize b7 with
                          | .error e => .error e
                          | .ok (u, b8) => .ok (some u, b8)
                         else .ok (none, b7) :
                          Except DataParseError (Option (List Nat) × List Nat)) with
                      | .error e => .error e
                      | .ok (username, b8) =>
                        match
                          (if flags &&& 64 ≠ 0 then
                            match binaryDeserialize b8 with
                            | .error e => .error e
                            | .ok (pw, b9) => .ok (some pw, b9)
                           else .ok (none, b8) :
                            Except DataParseError (Option (List Nat) × List Nat)) with
                        | .error e => .error e
                        | .ok (password, b9) =>
                          .ok (⟨flags, keepAlive, props, clientid, willInfo,
                            username, password⟩, b9)

/-- `Connect::deserialize` (`apiformes/src/packets/connect.rs` lines
296-349): remaining length, buffer bound, the field parse inside the
window, and the final `partial_size() == length` check. -/
def connectDeserialize (buf : List Nat) :
    Except DataParseError (ConnectPkt × List Nat) :=
  match vbiDeserialize buf with
  | .error e => .error e
  | .ok (length, r1) =>
    if r1.length < length then .error (.insufficientBuffer length r1.length)
    else
      match connectBodyDeserialize (r1.take length) with
      | .error e => .error e
      | .ok (packet, leftover) =>
        if packet.partialSize = length then .ok (packet, leftover ++ r1.drop length)
        else .error .badConnectMessage

theorem vbiSize_pos (i : Nat) : 1 ≤ vbiSize i := by
  unfold vbiSize
  split_ifs <;> omega

theorem property_fromCode_code (k : Property) : Property.fromCode k.code = some k := by
  cases k <;> rfl

theorem propertyDeserialize_roundtrip (k : Property) (rest : List Nat) :
    propertyDeserialize (vbiSerialize k.code ++ rest) = .ok (k, rest) := by
  unfold propertyDeserialize
  rw [vbiRoundtrip k.code (property_code_valid k)]
  show (match Property.fromCode k.code with
    | some k2 => Except.ok (k2, rest)
    | none => Except.error DataParseError.badProperty) = .ok (k, rest)
  rw [property_fromCode_code]

theorem propValue_roundtrip (v : MqttPropValue) (h : v.wf) (rest : List Nat) :
    propValueDeserialize (v.vserialize ++ rest) v.propType = .ok (v, rest) := by
  cases v with
  | bool i =>
    show Except.ok (MqttPropValue.bool (i % 256), rest) = .ok (.bool i, rest)
    rw [Nat.mod_eq_of_lt h]
  | byte i =>
    show Except.ok (MqttPropValue.byte (i % 256), rest) = .ok (.byte i, rest)
    rw [Nat.mod_eq_of_lt h]
  | fourBytesInt i =>
    show (match fourByteDeserialize (fourByteSerialize i ++ rest) with
      | .error e => Except.error e
      | .ok (x, r) => Except.ok (MqttPropValue.fourBytesInt x, r)) =
      .ok (.fourBytesInt i, rest)
    rw [fourByteRoundtrip i h]
  | string s =>
    show (match stringDeserialize (stringSerialize s ++ rest) with
      | .error e => Except.error e
      | .ok (x, r) => Except.ok (MqttPropValue.string x, r)) = .ok (.string s, rest)
    rw [stringRoundtrip s h]
  | stringPair k2 v2 =>
    show (match stringPairDeserialize (stringPairSerialize k2 v2 ++ rest) with
      | .error e => Except.error e
      | .ok (kv, r) => Except.ok (MqttPropValue.stringPair kv.1 kv.2, r)) =
      .ok (.stringPair k2 v2, rest)
    rw [stringPairRoundtrip k2 v2 h.1 h.2]
  | data d =>
    show (match binaryDeserialize (binarySerialize d ++ rest) with
      | .error e => Except.error e
      | .ok (x, r) => Except.ok (MqttPropValue.data x, r)) = .ok (.data d, rest)
    rw [binaryRoundtrip d h]
  | varInt i =>
    show (match vbiDeserialize (vbiSerialize i ++ rest) with
      | .error e => Except.error e
      | .ok (x, r) => Except.ok (MqttPropValue.varInt x, r)) = .ok (.varInt i, rest)
    rw [vbiRoundtrip i h]
  | twoBytesInt i =>
    show (match twoByteDeserialize (twoByteSerialize i ++ rest) with
      | .error e => Except.error e
      | .ok (x, r) => Except.ok (MqttPropValue.twoBytesInt x, r)) =
      .ok (.twoBytesInt i, rest)
    rw [twoByteRoundtrip i h]

/-- The sequence of `Properties::insert` calls the deserializer performs,
stopping at the first error. -/
def insertAll (t : Properties) :
    List (Property × MqttPropValue) → Properties × Option DataParseError
  | [] => (t, none)
  | kv :: rest =>
    match t.insert kv.1 kv.2 with
    | (t2, none) => insertAll t2 rest
    | (t2, some e) => (t2, some e)

/-- A table is canonical when its stored size matches its pairs, fits in a
variable byte int, its values are well formed and typed by their keys, and
re-inserting its pairs into a fresh table reproduces it (which is how every
table is constructed). -/
def Properties.canonical (p : Properties) : Prop :=
  p.psize = propPairsSize (propsPairs p.props) ∧
  vbiValid p.psize ∧
  (∀ kv ∈ propsPairs p.props, kv.2.wf ∧ kv.2.propType = kv.1.auxiliaryData.2.1) ∧
  insertAll Properties.new (propsPairs p.props) = (p, none)

theorem propsGo_cons (fuel : Nat) (k : Property) (v : MqttPropValue)
    (tail : List Nat) (size : Nat) (t t2 : Properties)
    (hwf : v.wf) (hty : v.propType = k.auxiliaryData.2.1)
    (hins : t.insert k v = (t2, none))
    (hsz : size ≠ 0) (hle : k.psize + v.vsize ≤ size)
    (hbig : size < 18446744073709551616) :
    propsDeserializeGo (fuel + 1) (vbiSerialize k.code ++ v.vserialize ++ tail) size t =
      propsDeserializeGo fuel tail (size - (k.psize + v.vsize)) t2 := by
  show (if size = 0 then Except.ok (t, vbiSerialize k.code ++ v.vserialize ++ tail)
    else _) = _
  rw [if_neg hsz, List.append_assoc, propertyDeserialize_roundtrip]
  show (match propValueDeserialize (v.vserialize ++ tail) k.auxiliaryData.2.1 with
    | .error e => Except.error e
    | .ok (value, buf3) =>
      match t.insert k value with
      | (_, some e) => Except.error e
      | (t3, none) =>
        propsDeserializeGo fuel buf3
          ((size + 18446744073709551616 - (k.psize + value.vsize)) %
            18446744073709551616) t3) = _
  rw [← hty, propValue_roundtrip v hwf]
  show (match t.insert k v with
    | (_, some e) => Except.error e
    | (t3, none) =>
      propsDeserializeGo fuel tail
        ((size + 18446744073709551616 - (k.psize + v.vsize)) %
          18446744073709551616) t3) = _
  rw [hins]
  show propsDeserializeGo fuel tail
    ((size + 18446744073709551616 - (k.psize + v.vsize)) % 18446744073709551616) t2 = _
  congr 1
  omega

theorem propsGo_run (pl : List (Property × MqttPropValue)) :
    ∀ (fuel : Nat) (extra : List Nat) (t tf : Properties),
    (propPairsSerialize pl).length < fuel →
    (∀ kv ∈ pl, kv.2.wf ∧ kv.2.propType = kv.1.auxiliaryData.2.1) →
    propPairsSize pl < 18446744073709551616 →
    insertAll t pl = (tf, none) →
    propsDeserializeGo fuel (propPairsSerialize pl ++ extra) (propPairsSize pl) t =
      .ok (tf, extra) := by
  induction pl with
  | nil =>
    intro fuel extra t tf hlen hwf hbig hins
    cases fuel with
    | zero => exact absurd hlen (by omega)
    | succ f =>
      have ht : t = tf := by
        have h2 : (t, (none : Option DataParseError)) = (tf, none) := hins
        exact (Prod.mk.injEq _ _ _ _).mp h2 |>.1
      subst ht
      rfl
  | cons kv rest ih =>
    intro fuel extra t tf hlen hwf hbig hins
    obtain ⟨k, v⟩ := kv
    cases fuel with
    | zero => exact absurd hlen (by omega)
    | succ f =>
      have hkv := hwf (k, v) (List.mem_cons_self _ _)
      cases hins2 : t.insert k v with
      | mk t2 oe =>
        cases oe with
        | some e =>
          exfalso
          have h2 : insertAll t ((k, v) :: rest) = (t2, some e) := by
            show (match t.insert k v with
              | (t3, none) => insertAll t3 rest
              | (t3, some e2) => (t3, some e2)) = _
            rw [hins2]
          rw [hins] at h2
          exact absurd ((Prod.mk.injEq _ _ _ _).mp h2).2 (by simp)
        | none =>
          have hins3 : insertAll t2 rest = (tf, none) := by
            have h2 : insertAll t ((k, v) :: rest) =
                insertAll t2 rest := by
              show (match t.insert k v with
                | (t3, none) => insertAll t3 rest
                | (t3, some e2) => (t3, some e2)) = _
              rw [hins2]
            rw [← h2, hins]
          have heq : propPairsSize ((k, v) :: rest) =
              k.psize + v.vsize + propPairsSize rest := rfl
          have hk : k.psize = vbiSize k.code := rfl
          have hkp := vbiSize_pos k.code
          have hsz2 : k.psize + v.vsize + propPairsSize rest ≠ 0 := by omega
          have hbig2 : k.psize + v.vsize + propPairsSize rest <
              18446744073709551616 := by omega
          have hlen2 : (propPairsSerialize rest).length < f := by
            have h3 : (propPairsSerialize ((k, v) :: rest)).length =
                (vbiSerialize k.code).length + v.vserialize.length +
                  (propPairsSerialize rest).length := by
              show (vbiSerialize k.code ++ v.vserialize ++ propPairsSerialize rest).length = _
              rw [List.length_append, List.length_append]
            have h4 := vbiSerialize_length k.code (property_code_valid k)
            omega
          show propsDeserializeGo (f + 1)
            ((vbiSerialize k.code ++ v.vserialize ++ propPairsSerialize rest) ++ extra)
            (k.psize + v.vsize + propPairsSize rest) t = .ok (tf, extra)
          rw [List.append_assoc (vbiSerialize k.code ++ v.vserialize)]
          rw [propsGo_cons f k v (propPairsSerialize rest ++ extra)
            (k.psize + v.vsize + propPairsSize rest) t t2 hkv.1 hkv.2 hins2
            hsz2 (by omega) hbig2]
          rw [show k.psize + v.vsize + propPairsSize rest - (k.psize + v.vsize) =
            propPairsSize rest from by omega]
          exact ih f extra t2 tf hlen2
            (fun kv2 hkv2 => hwf kv2 (List.mem_cons_of_mem _ hkv2))
            (by omega) hins3

theorem propsRoundtrip (p : Properties) (hc : p.canonical) (rest : List Nat) :
    Properties.deserializeBytes (p.serializeBytes ++ rest) = .ok (p, rest) := by
  obtain ⟨hps, hvb, hwf, hins⟩ := hc
  have hlen : (propPairsSerialize (propsPairs p.props)).length =
      propPairsSize (propsPairs p.props) :=
    propPairsSerialize_length _ (fun kv hkv => (hwf kv hkv).1)
  have hbig : propPairsSize (propsPairs p.props) < 18446744073709551616 := by
    have hb2 : p.psize ≤ 0xfffffff := hvb
    omega
  have hrun : propsDeserializeGo
      ((propPairsSerialize (propsPairs p.props)).length + 1)
      (propPairsSerialize (propsPairs p.props))
      (propPairsSize (propsPairs p.props)) Properties.new = .ok (p, []) := by
    conv_lhs => rw [← List.append_nil (propPairsSerialize (propsPairs p.props))]
    exact propsGo_run (propsPairs p.props)
      ((propPairsSerialize (propsPairs p.props) ++ []).length + 1) [] Properties.new p
      (by rw [List.append_nil]; omega) hwf hbig hins
  show Properties.deserializeBytes
    ((vbiSerialize p.psize ++ propPairsSerialize (propsPairs p.props)) ++ rest) =
    .ok (p, rest)
  rw [List.append_assoc]
  unfold Properties.deserializeBytes
  rw [vbiRoundtrip p.psize hvb]
  show (match propsDeserializeGo
      (((propPairsSerialize (propsPairs p.props) ++ rest).take p.psize).length + 1)
      ((propPairsSerialize (propsPairs p.props) ++ rest).take p.psize) p.psize
      Properties.new with
    | .error e => Except.error e
    | .ok (table, leftover) =>
      Except.ok (table,
        leftover ++ (propPairsSerialize (propsPairs p.props) ++ rest).drop p.psize)) =
    .ok (p, rest)
  have htake : (propPairsSerialize (propsPairs p.props) ++ rest).take p.psize =
      propPairsSerialize (propsPairs p.props) := by
    rw [hps, ← hlen, List.take_left]
  have hdrop : (propPairsSerialize (propsPairs p.props) ++ rest).drop p.psize = rest := by
    rw [hps, ← hlen, List.drop_left]
  rw [htake, hdrop, hps, hrun]
  show Except.ok (p, [] ++ rest) = Except.ok (p, rest)
  rw [List.nil_append]

theorem willRoundtrip (w : WillPkt) (hc : w.props.canonical)
    (hv : w.props.isValidFor PropOwnerWILL = true)
    (ht : stringWF w.topic) (hp : binaryValid w.payload) (rest : List Nat) :
    willDeserialize (w.serializeBytes ++ rest) = .ok (w, rest) := by
  obtain ⟨props, topic, payload⟩ := w
  show willDeserialize ((props.serializeBytes ++ stringSerialize topic ++
    binarySerialize payload) ++ rest) = .ok (⟨props, topic, payload⟩, rest)
  rw [List.append_assoc, List.append_assoc]
  unfold willDeserialize
  rw [propsRoundtrip props hc]
  show (if props.isValidFor PropOwnerWILL then
    (match stringDeserialize (stringSerialize topic ++ (binarySerialize payload ++ rest)) with
     | .error e => Except.error e
     | .ok (topic2, b3) =>
       match binaryDeserialize b3 with
       | .error e => Except.error e
       | .ok (payload2, b4) =>
         Except.ok ((⟨props, topic2, payload2⟩ : WillPkt), b4))
    else Except.error DataParseError.badProperty) = .ok (⟨props, topic, payload⟩, rest)
  rw [if_pos hv, stringRoundtrip topic ht]
  show (match binaryDeserialize (binarySerialize payload ++ rest) with
    | .error e => Except.error e
    | .ok (payload2, b4) =>
      Except.ok ((⟨props, topic, payload2⟩ : WillPkt), b4)) =
    .ok (⟨props, topic, payload⟩, rest)
  rw [binaryRoundtrip payload hp]

/-- The flag bytes `ConnectFlags::from_bits` accepts and the subsequent
checks in `Connect::deserialize` let through: within a byte, reserved bit
clear, not both will-QoS bits, and no will-QoS/will-retain bit unless
`WILL` is set. -/
def connectFlagsWf (f : Nat) : Prop :=
  f < 256 ∧ f &&& 1 = 0 ∧ f &&& 24 ≠ 24 ∧ (f &&& 56 ≠ 0 → f &&& 4 ≠ 0)

instance (f : Nat) : Decidable (connectFlagsWf f) := by
  unfold connectFlagsWf
  infer_instance

theorem connectFlags_roundtrip (f : Nat) (h : connectFlagsWf f) (rest : List Nat) :
    connectFlagsDeserialize (f :: rest) = .ok (f, rest) := by
  obtain ⟨h0, h1, h2, h3⟩ := h
  have hmod : f % 256 = f := Nat.mod_eq_of_lt h0
  show (if f % 256 &&& 1 ≠ 0 then Except.error DataParseError.badConnectMessage
    else if f % 256 &&& 24 = 24 then Except.error DataParseError.badQoS
    else if f % 256 &&& 56 ≠ 0 ∧ f % 256 &&& 4 = 0 then
      Except.error DataParseError.badConnectMessage
    else Except.ok (f % 256, rest)) = .ok (f, rest)
  rw [hmod, if_neg (fun hx => hx h1), if_neg h2,
    if_neg (fun hx => h3 hx.1 hx.2)]

theorem connectFlags_reserved (b : Nat) (rest : List Nat)
    (h : (b % 256) &&& 1 ≠ 0) :
    connectFlagsDeserialize (b :: rest) = .error .badConnectMessage := by
  show (if b % 256 &&& 1 ≠ 0 then Except.error DataParseError.badConnectMessage
    else if b % 256 &&& 24 = 24 then Except.error DataParseError.badQoS
    else if b % 256 &&& 56 ≠ 0 ∧ b % 256 &&& 4 = 0 then
      Except.error DataParseError.badConnectMessage
    else Except.ok (b % 256, rest)) = .error .badConnectMessage
  rw [if_pos h]

theorem connectFlags_bothQoS (b : Nat) (rest : List Nat)
    (h1 : (b % 256) &&& 1 = 0) (h2 : (b % 256) &&& 24 = 24) :
    connectFlagsDeserialize (b :: rest) = .error .badQoS := by
  show (if b % 256 &&& 1 ≠ 0 then Except.error DataParseError.badConnectMessage
    else if b % 256 &&& 24 = 24 then Except.error DataParseError.badQoS
    else if b % 256 &&& 56 ≠ 0 ∧ b % 256 &&& 4 = 0 then
      Except.error DataParseError.badConnectMessage
    else Except.ok (b % 256, rest)) = .error .badQoS
  rw [if_neg (fun hx => hx h1), if_pos h2]

theorem connectFlags_willBits (b : Nat) (rest : List Nat)
    (h1 : (b % 256) &&& 1 = 0) (h2 : (b % 256) &&& 24 ≠ 24)
    (h3 : (b % 256) &&& 56 ≠ 0) (h4 : (b % 256) &&& 4 = 0) :
    connectFlagsDeserialize (b :: rest) = .error .badConnectMessage := by
  show (if b % 256 &&& 1 ≠ 0 then Except.error DataParseError.badConnectMessage
    else if b % 256 &&& 24 = 24 then Except.error DataParseError.badQoS
    else if b % 256 &&& 56 ≠ 0 ∧ b % 256 &&& 4 = 0 then
      Except.error DataParseError.badConnectMessage
    else Except.ok (b % 256, rest)) = .error .badConnectMessage
  rw [if_neg (fun hx => hx h1), if_neg h2, if_pos ⟨h3, h4⟩]

theorem willOptParse (flags : Nat) (wo : Option WillPkt) (tail : List Nat)
    (hiff : wo.isSome = true ↔ flags &&& 4 ≠ 0)
    (hw : ∀ w, wo = some w →
      w.props.canonical ∧ w.props.isValidFor PropOwnerWILL = true ∧
        stringWF w.topic ∧ binaryValid w.payload) :
    (if flags &&& 4 ≠ 0 then
      match willDeserialize ((match wo with
        | some w => w.serializeBytes
        | none => []) ++ tail) with
      | .error e => Except.error e
      | .ok (w, b7) => Except.ok (some w, b7)
     else Except.ok (none, (match wo with
        | some w => w.serializeBytes
        | none => []) ++ tail)) =
      (Except.ok (wo, tail) : Except DataParseError (Option WillPkt × List Nat)) := by
  cases wo with
  | none =>
    have h4 : ¬(flags &&& 4 ≠ 0) := fun hx => by
      have h5 := hiff.mpr hx
      simp at h5
    rw [if_neg h4]
    show Except.ok (none, [] ++ tail) = _
    rw [List.nil_append]
  | some w =>
    rw [if_pos (hiff.mp rfl)]
    show (match willDeserialize (w.serializeBytes ++ tail) with
      | .error e => Except.error e
      | .ok (w2, b7) => Except.ok (some w2, b7)) = _
    obtain ⟨hw1, hw2, hw3, hw4⟩ := hw w rfl
    rw [willRoundtrip w hw1 hw2 hw3 hw4]

theorem stringOptParse (flags m : Nat) (uo : Option (List Nat)) (tail : List Nat)
    (hiff : uo.isSome = true ↔ flags &&& m ≠ 0)
    (hw : ∀ u, uo = some u → stringWF u) :
    (if flags &&& m ≠ 0 then
      match stringDeserialize ((match uo with
        | some u => stringSerialize u
        | none => []) ++ tail) with
      | .error e => Except.error e
      | .ok (u, b8) => Except.ok (some u, b8)
     else Except.ok (none, (match uo with
        | some u => stringSerialize u
        | none => []) ++ tail)) =
      (Except.ok (uo, tail) : Except DataParseError (Option (List Nat) × List Nat)) := by
  cases uo with
  | none =>
    have h4 : ¬(flags &&& m ≠ 0) := fun hx => by
      have h5 := hiff.mpr hx
      simp at h5
    rw [if_neg h4]
    show Except.ok (none, [] ++ tail) = _
    rw [List.nil_append]
  | some u =>
    rw [if_pos (hiff.mp rfl)]
    show (match stringDeserialize (stringSerialize u ++ tail) with
      | .error e => Except.error e
      | .ok (u2, b8) => Except.ok (some u2, b8)) = _
    rw [stringRoundtrip u (hw u rfl)]

theorem binaryOptParse (flags m : Nat) (uo : Option (List Nat)) (tail : List Nat)
    (hiff : uo.isSome = true ↔ flags &&& m ≠ 0)
    (hw : ∀ d, uo = some d → binaryValid d) :
    (if flags &&& m ≠ 0 then
      match binaryDeserialize ((match uo with
        | some d => binarySerialize d
        | none => []) ++ tail) with
      | .error e => Except.error e
      | .ok (d, b9) => Except.ok (some d, b9)
     else Except.ok (none, (match uo with
        | some d => binarySerialize d
        | none => []) ++ tail)) =
      (Except.ok (uo, tail) : Except DataParseError (Option (List Nat) × List Nat)) := by
  cases uo with
  | none =>
    have h4 : ¬(flags &&& m ≠ 0) := fun hx => by
      have h5 := hiff.mpr hx
      simp at h5
    rw [if_neg h4]
    show Except.ok (none, [] ++ tail) = _
    rw [List.nil_append]
  | some d =>
    rw [if_pos (hiff.mp rfl)]
    show (match binaryDeserialize (binarySerialize d ++ tail) with
      | .error e => Except.error e
      | .ok (d2, b9) => Except.ok (some d2, b9)) = _
    rw [binaryRoundtrip d (hw d rfl)]

/-- Packets as `build_connect` and the `with_*` builders produce them:
every field is constructible, the flag bits agree with the optional
fields, and the remaining length is in variable-byte-int range. -/
def ConnectPkt.canonicalWf (p : ConnectPkt) : Prop :=
  connectFlagsWf p.flags ∧
  p.keepAlive < 65536 ∧
  p.props.canonical ∧
  p.props.isValidFor PropOwnerCONNECT = true ∧
  stringWF p.clientid ∧
  (∀ w, p.willInfo = some w →
    w.props.canonical ∧ w.props.isValidFor PropOwnerWILL = true ∧
      stringWF w.topic ∧ binaryValid w.payload) ∧
  (p.willInfo.isSome = true ↔ p.flags &&& 4 ≠ 0) ∧
  (∀ u, p.username = some u → stringWF u) ∧
  (p.username.isSome = true ↔ p.flags &&& 128 ≠ 0) ∧
  (∀ pw, p.password = some pw → binaryValid pw) ∧
  (p.password.isSome = true ↔ p.flags &&& 64 ≠ 0) ∧
  vbiValid p.partialSize

theorem connectBodyParse (p : ConnectPkt) (h : p.canonicalWf) (extra : List Nat) :
    connectBodyDeserialize (p.body ++ extra) = .ok (p, extra) := by
  obtain ⟨flags, keepAlive, props, clientid, willInfo, username, password⟩ := p
  obtain ⟨hf, hka, hpc, hpv, hcid, hwillwf, hwiff, huserwf, huiff, hpasswf, hpiff, hvbi⟩ := h
  have hm : stringWF mqttName := by
    refine ⟨?_, rfl⟩
    intro c hc
    fin_cases hc <;> decide
  have hf1 : flags % 256 = flags := Nat.mod_eq_of_lt hf.1
  rcases willInfo with _ | w
  · rcases username with _ | u
    · rcases password with _ | pw
      · simp at hwiff huiff hpiff
        unfold ConnectPkt.body
        simp only [List.append_assoc]
        unfold connectBodyDeserialize
        simp [stringRoundtrip mqttName hm, oneByteSerialize, oneByteDeserialize,
          hf1, connectFlags_roundtrip flags hf, twoByteRoundtrip keepAlive hka,
          propsRoundtrip props hpc, hpv, stringRoundtrip clientid hcid,
          hwiff, huiff, hpiff]
      · have hpw := hpasswf pw rfl
        simp at hwiff huiff hpiff
        unfold ConnectPkt.body
        simp only [List.append_assoc]
        unfold connectBodyDeserialize
        simp [stringRoundtrip mqttName hm, oneByteSerialize, oneByteDeserialize,
          hf1, connectFlags_roundtrip flags hf, twoByteRoundtrip keepAlive hka,
          propsRoundtrip props hpc, hpv, stringRoundtrip clientid hcid,
          hwiff, huiff, hpiff, binaryRoundtrip pw hpw]
    · have hu := huserwf u rfl
      rcases password with _ | pw
      · simp at hwiff huiff hpiff
        unfold ConnectPkt.body
        simp only [List.append_assoc]
        unfold connectBodyDeserialize
        simp [stringRoundtrip mqttName hm, oneByteSerialize, oneByteDeserialize,
          hf1, connectFlags_roundtrip flags hf, twoByteRoundtrip keepAlive hka,
          propsRoundtrip props hpc, hpv, stringRoundtrip clientid hcid,
          hwiff, huiff, hpiff, stringRoundtrip u hu]
      · have hpw := hpasswf pw rfl
        simp at hwiff huiff hpiff
        unfold ConnectPkt.body
        simp only [List.append_assoc]
        unfold connectBodyDeserialize
        simp [stringRoundtrip mqttName hm, oneByteSerialize, oneByteDeserialize,
          hf1, connectFlags_roundtrip flags hf, twoByteRoundtrip keepAlive hka,
          propsRoundtrip props hpc, hpv, stringRoundtrip clientid hcid,
          hwiff, huiff, hpiff, stringRoundtrip u hu, binaryRoundtrip pw hpw]
  · obtain ⟨hw1, hw2, hw3, hw4⟩ := hwillwf w rfl
    rcases username with _ | u
    · rcases password with _ | pw
      · simp at hwiff huiff hpiff
        unfold ConnectPkt.body
        simp only [List.append_assoc]
        unfold connectBodyDeserialize
        simp [stringRoundtrip mqttName hm, oneByteSerialize, oneByteDeserialize,
          hf1, connectFlags_roundtrip flags hf, twoByteRoundtrip keepAlive hka,
          propsRoundtrip props hpc, hpv, stringRoundtrip clientid hcid,
          hwiff, huiff, hpiff, willRoundtrip w hw1 hw2 hw3 hw4]
      · have hpw := hpasswf pw rfl
        simp at hwiff huiff hpiff
        unfold ConnectPkt.body
        simp only [List.append_assoc]
        unfold connectBodyDeserialize
        simp [stringRoundtrip mqttName hm, oneByteSerialize, oneByteDeserialize,
          hf1, connectFlags_roundtrip flags hf, twoByteRoundtrip keepAlive hka,
          propsRoundtrip props hpc, hpv, stringRoundtrip clientid hcid,
          hwiff, huiff, hpiff, willRoundtrip w hw1 hw2 hw3 hw4,
          binaryRoundtrip pw hpw]
    · have hu := huserwf u rfl
      rcases password with _ | pw
      · simp at hwiff huiff hpiff
        unfold ConnectPkt.body
        simp only [List.append_assoc]
        unfold connectBodyDeserialize
        simp [stringRoundtrip mqttName hm, oneByteSerialize, oneByteDeserialize,
          hf1, connectFlags_roundtrip flags hf, twoByteRoundtrip keepAlive hka,
          propsRoundtrip props hpc, hpv, stringRoundtrip clientid hcid,
          hwiff, huiff, hpiff, willRoundtrip w hw1 hw2 hw3 hw4,
          stringRoundtrip u hu]
      · have hpw := hpasswf pw rfl
        simp at hwiff huiff hpiff
        unfold ConnectPkt.body
        simp only [List.append_assoc]
        unfold connectBodyDeserialize
        simp [stringRoundtrip mqttName hm, oneByteSerialize, oneByteDeserialize,
          hf1, connectFlags_roundtrip flags hf, twoByteRoundtrip keepAlive hka,
          propsRoundtrip props hpc, hpv, stringRoundtrip clientid hcid,
          hwiff, huiff, hpiff, willRoundtrip w hw1 hw2 hw3 hw4,
          stringRoundtrip u hu, binaryRoundtrip pw hpw]

theorem connectDeserialize_exact (n : Nat) (body : List Nat)
    (hn : body.length = n) (hv : vbiValid n) :
    connectDeserialize (vbiSerialize n ++ body) =
      match connectBodyDeserialize body with
      | .error e => .error e
      | .ok (packet, leftover) =>
        if packet.partialSize = n then .ok (packet, leftover ++ body.drop n)
        else .error .badConnectMessage := by
  unfold connectDeserialize
  rw [vbiRoundtrip n hv]
  show (if body.length < n then
      Except.error (DataParseError.insufficientBuffer n body.length)
    else
      match connectBodyDeserialize (body.take n) with
      | .error e => Except.error e
      | .ok (packet, leftover) =>
        if packet.partialSize = n then Except.ok (packet, leftover ++ body.drop n)
        else Except.error DataParseError.badConnectMessage) = _
  rw [if_neg (by omega), ← hn, List.take_length]

theorem canonical_wfSize (p : Properties) (h : p.canonical) : p.wfSize :=
  ⟨h.1, h.2.1, fun kv hkv => (h.2.2.1 kv hkv).1⟩

theorem connectBody_length (q : ConnectPkt) (h : q.canonicalWf) :
    q.body.length = q.partialSize := by
  obtain ⟨hf, hka, hpc, hpv, hcid, hwillwf, hwiff, huserwf, huiff, hpasswf, hpiff, hvbi⟩ := h
  have hwl : (match q.willInfo with
      | some w => w.serializeBytes
      | none => ([] : List Nat)).length =
      (match q.willInfo with
       | some w => w.sizeTotal
       | none => 0) := by
    cases hw : q.willInfo with
    | none => rfl
    | some w => exact willPkt_length w (canonical_wfSize _ (hwillwf w hw).1)
  have hul : (match q.username with
      | some u => stringSerialize u
      | none => ([] : List Nat)).length =
      (match q.username with
       | some u => stringSize u
       | none => 0) := by
    cases q.username with
    | none => rfl
    | some u => exact stringSerialize_length u
  have hpl : (match q.password with
      | some pw => binarySerialize pw
      | none => ([] : List Nat)).length =
      (match q.password with
       | some pw => binarySize pw
       | none => 0) := by
    cases q.password with
    | none => rfl
    | some pw => exact binarySerialize_length pw
  show (stringSerialize mqttName ++ oneByteSerialize 5 ++ oneByteSerialize q.flags ++
    twoByteSerialize q.keepAlive ++ q.props.serializeBytes ++
    stringSerialize q.clientid ++
    (match q.willInfo with
     | some w => w.serializeBytes
     | none => []) ++
    (match q.username with
     | some u => stringSerialize u
     | none => []) ++
    (match q.password with
     | some pw => binarySerialize pw
     | none => [])).length = q.partialSize
  rw [List.length_append, List.length_append, List.length_append,
      List.length_append, List.length_append, List.length_append,
      List.length_append, List.length_append, stringSerialize_length,
      stringSerialize_length, props_serializeBytes_length _ (canonical_wfSize _ hpc),
      hwl, hul, hpl]
  have hm : stringSize mqttName = 6 := rfl
  rw [hm]
  show 6 + 1 + 1 + 2 + q.props.sizeTotal + stringSize q.clientid + _ + _ + _ = _
  unfold ConnectPkt.partialSize
  omega

/-- A buffer that starts like a CONNECT body -- protocol name, protocol
version -- and continues with the flags byte `b` and then `tail`. -/
def connectPreamble (b : Nat) (tail : List Nat) : List Nat :=
  stringSerialize mqttName ++ oneByteSerialize 5 ++ b :: tail

theorem connectBody_flagsErr (b : Nat) (tail : List Nat) (e : DataParseError)
    (hf : connectFlagsDeserialize (b :: tail) = .error e) :
    connectBodyDeserialize (connectPreamble b tail) = .error e := by
  have hm : stringWF mqttName := by
    refine ⟨?_, rfl⟩
    intro c hc
    fin_cases hc <;> decide
  show connectBodyDeserialize
    (stringSerialize mqttName ++ oneByteSerialize 5 ++ b :: tail) = .error e
  simp only [List.append_assoc]
  unfold connectBodyDeserialize
  simp [stringRoundtrip mqttName hm, oneByteSerialize, oneByteDeserialize, hf]

/-- C5: deserializing a CONNECT packet returns a typed protocol error
whenever the reserved connect-flags bit 0 is 1 (`BadConnectMessage`), or
both WILL_QOS1 and WILL_QOS2 are set (`BadQoS`), or any of
WILL_RETAIN/WILL_QOS1/WILL_QOS2 is set while WILL is clear
(`BadConnectMessage`), or the number of body bytes decoded differs from
the VBI remaining length (`BadConnectMessage`); otherwise it succeeds on
a well-formed body, returning exactly the serialized packet. -/
theorem C5_connect_deserialize :
    (∀ b tail, (b % 256) &&& 1 ≠ 0 → vbiValid (connectPreamble b tail).length →
      connectDeserialize (vbiSerialize (connectPreamble b tail).length ++
        connectPreamble b tail) = .error .badConnectMessage) ∧
    (∀ b tail, (b % 256) &&& 1 = 0 → (b % 256) &&& 24 = 24 →
      vbiValid (connectPreamble b tail).length →
      connectDeserialize (vbiSerialize (connectPreamble b tail).length ++
        connectPreamble b tail) = .error .badQoS) ∧
    (∀ b tail, (b % 256) &&& 1 = 0 → (b % 256) &&& 24 ≠ 24 →
      (b % 256) &&& 56 ≠ 0 → (b % 256) &&& 4 = 0 →
      vbiValid (connectPreamble b tail).length →
      connectDeserialize (vbiSerialize (connectPreamble b tail).length ++
        connectPreamble b tail) = .error .badConnectMessage) ∧
    (∀ (p : ConnectPkt) (pad : List Nat), p.canonicalWf → pad ≠ [] →
      vbiValid (p.partialSize + pad.length) →
      connectDeserialize (vbiSerialize (p.partialSize + pad.length) ++
        (p.body ++ pad)) = .error .badConnectMessage) ∧
    (∀ p : ConnectPkt, p.canonicalWf →
      connectDeserialize p.serializeBytes = .ok (p, [])) := by
  refine ⟨?_, ?_, ?_, ?_, ?_⟩
  · intro b tail h1 hvb
    rw [connectDeserialize_exact _ _ rfl hvb,
      connectBody_flagsErr b tail _ (connectFlags_reserved b tail h1)]
  · intro b tail h1 h2 hvb
    rw [connectDeserialize_exact _ _ rfl hvb,
      connectBody_flagsErr b tail _ (connectFlags_bothQoS b tail h1 h2)]
  · intro b tail h1 h2 h3 h4 hvb
    rw [connectDeserialize_exact _ _ rfl hvb,
      connectBody_flagsErr b tail _ (connectFlags_willBits b tail h1 h2 h3 h4)]
  · intro p pad hwf hpad hvb
    have hlen : (p.body ++ pad).length = p.partialSize + pad.length := by
      rw [List.length_append, connectBody_length p hwf]
    rw [connectDeserialize_exact (p.partialSize + pad.length) (p.body ++ pad) hlen hvb,
      connectBodyParse p hwf pad]
    show (if p.partialSize = p.partialSize + pad.length then
        Except.ok (p, pad ++ (p.body ++ pad).drop (p.partialSize + pad.length))
      else Except.error DataParseError.badConnectMessage) = .error .badConnectMessage
    rw [if_neg (by
      have hp : 0 < pad.length := List.length_pos.mpr hpad
      omega)]
  · intro p hwf
    have h2 := hwf
    obtain ⟨-, -, -, -, -, -, -, -, -, -, -, hvbi⟩ := h2
    show connectDeserialize (vbiSerialize p.partialSize ++ p.body) = .ok (p, [])
    have hb : connectBodyDeserialize p.body = .ok (p, []) := by
      conv_lhs => rw [← List.append_nil p.body]
      exact connectBodyParse p hwf []
    rw [connectDeserialize_exact p.partialSize p.body (connectBody_length p hwf) hvbi,
      hb]
    show (if p.partialSize = p.partialSize then
        Except.ok (p, [] ++ p.body.drop p.partialSize)
      else Except.error DataParseError.badConnectMessage) = .ok (p, [])
    rw [if_pos rfl, List.nil_append, ← connectBody_length p hwf, List.drop_length]

/-- A concrete constructible CONNECT packet: flags 0, keep-alive 0, empty
property table, empty client id, no will, username or password. -/
def cpkt5 : ConnectPkt := ⟨0, 0, Properties.new, [], none, none, none⟩

theorem cpkt5_wf : cpkt5.canonicalWf := by
  refine ⟨by decide, by decide, ⟨rfl, by decide, ?_, rfl⟩, by decide, ⟨?_, rfl⟩,
    ?_, by decide, ?_, by decide, ?_, by decide, by decide⟩
  · intro kv hkv
    exact absurd hkv (List.not_mem_nil kv)
  · intro c hc
    exact absurd hc (List.not_mem_nil c)
  · intro w hw
    exact Option.noConfusion hw
  · intro u hu
    exact Option.noConfusion hu
  · intro pw hpw
    exact Option.noConfusion hpw

theorem C5_connect_deserialize_witness :
    connectDeserialize (vbiSerialize (connectPreamble 1 []).length ++
      connectPreamble 1 []) = .error .badConnectMessage ∧
    connectDeserialize (vbiSerialize (connectPreamble 24 []).length ++
      connectPreamble 24 []) = .error .badQoS ∧
    connectDeserialize (vbiSerialize (connectPreamble 8 []).length ++
      connectPreamble 8 []) = .error .badConnectMessage ∧
    connectDeserialize (vbiSerialize (cpkt5.partialSize + [0].length) ++
      (cpkt5.body ++ [0])) = .error .badConnectMessage ∧
    connectDeserialize cpkt5.serializeBytes = .ok (cpkt5, []) :=
  ⟨C5_connect_deserialize.1 1 [] (by decide) (by decide),
   C5_connect_deserialize.2.1 24 [] (by decide) (by decide) (by decide),
   C5_connect_deserialize.2.2.1 8 [] (by decide) (by decide) (by decide)
     (by decide) (by decide),
   C5_connect_deserialize.2.2.2.1 cpkt5 [0] cpkt5_wf (by decide) (by decide),
   C5_connect_deserialize.2.2.2.2 cpkt5 cpkt5_wf⟩
